import Mathlib

/-!
# Thundernetes operator: fleet and instance reconciliation

A shallow embedding of `operator/controllers/gameserverbuild_controller.go`
(the `GameServerBuild` reconciler and its two pending-operation ledgers), of
`operator/controllers/gameserver_controller.go` (the `GameServer` reconciler) and
of the helpers of `operator/controllers/utilities.go` they call. The port registry,
whose file is not among the sources, is a parameter of the reconcilers and is
modelled from the specification where a statement is about the registry itself.

Conventions of the embedding

* Go `int` / `int32` values are `Int`. The cumulative crash count, the one stored
  quantity a pass adds to, wraps at 64 bits as the Go sum does (`wrapInt64`); the
  other quantities are list lengths, loop counters and their differences with
  fields of the spec, for which no wrap-around is modelled.
* A Go `error` is `Option GoError` (`none` is `nil`); `apierrors.IsNotFound` and
  `apierrors.IsConflict` are the classifiers `IsNotFound` and `IsConflict`.
* The Kubernetes client, the port registry and the random source are the record
  `Env`: each call of the reconciler is answered by the corresponding field. The
  `World` threaded through a pass holds the two ledgers (process-wide variables in
  the source) and the log of what the pass did: instances deleted and created,
  host ports obtained, the status persisted, events.
* A Go `map[string]interface{}` used as a set is a `List String`; `range` over it
  visits the list front to back, so quantifying over all lists covers every
  iteration order of the map.
* A counted loop `for i := 0; i < n; i++` is a recursion on the number of
  remaining iterations, started at `n.toNat`, carrying the index `i`.
* Indexing a slice out of range panics: `Outcome.panicked`.
* Logging and Prometheus metrics are not modelled; recorded events keep their
  reason string only.
-/

set_option linter.dupNamespace false

namespace Thundernetes

/-! ## API machinery -/

/-- A non-nil Go `error`, classified the way the controllers inspect it: the two
API status reasons they test for, and everything else. -/
inductive GoError where
  | NotFound
  | Conflict
  | Other
  deriving DecidableEq, Repr

/-- Embedding of `apierrors.IsNotFound`. -/
def IsNotFound : GoError → Bool
  | .NotFound => true
  | _ => false

/-- Embedding of `apierrors.IsConflict`. -/
def IsConflict : GoError → Bool
  | .Conflict => true
  | _ => false

/-- Embedding of `ctrl.Result`; `RequeueAfter` is a `time.Duration` in nanoseconds. -/
structure Result where
  Requeue : Bool := false
  RequeueAfter : Int := 0
  deriving DecidableEq, Repr

/-- Nanoseconds in `time.Second`. -/
def Second : Int := 1000000000

/-- Embedding of `ctrl.Request` (`req.NamespacedName`). -/
structure Request where
  Namespace : String
  Name : String
  deriving DecidableEq, Repr

/-- How a reconcile pass ends: it returns `(ctrl.Result, error)`, or the Go runtime
panics on an out-of-range slice index. -/
inductive Outcome where
  | returned (res : Result) (err : Option GoError)
  | panicked
  deriving DecidableEq, Repr

/-! ## Custom resources (`api/v1alpha1`, declarations reconstructed from their uses) -/

/-- Modelled from the spec: the `GameServerState` string constants of `api/v1alpha1`
(the declaring file is not among the sources); the empty string is the unset state. -/
def GameServerStateStandingBy : String := "StandingBy"

/-- Modelled from the spec: `mpsv1alpha1.GameServerStateActive`. -/
def GameServerStateActive : String := "Active"

/-- Modelled from the spec: `mpsv1alpha1.GameServerStateCrashed`. -/
def GameServerStateCrashed : String := "Crashed"

/-- Modelled from the spec: `mpsv1alpha1.GameServerStateGameCompleted`. -/
def GameServerStateGameCompleted : String := "GameCompleted"

/-- Modelled from the spec: `mpsv1alpha1.BuildHealthy`. -/
def BuildHealthy : String := "Healthy"

/-- Modelled from the spec: `mpsv1alpha1.BuildUnhealthy`. -/
def BuildUnhealthy : String := "Unhealthy"

/-- Embedding of `corev1.ContainerPort` (the fields the controllers read or write). -/
structure ContainerPort where
  Name : String
  ContainerPort : Int
  HostPort : Int := 0
  deriving DecidableEq, Repr

/-- Embedding of `corev1.Container` (name and ports). -/
structure Container where
  Name : String
  Ports : List ContainerPort
  deriving DecidableEq, Repr

/-- Embedding of `corev1.PodSpec`: containers, node placement, and the fields
`NewPodForGameServer` sets (volumes by name). Images, environment variables and
volume mounts of containers are not modelled. -/
structure PodSpec where
  Containers : List Container := []
  NodeName : String := ""
  InitContainers : List Container := []
  RestartPolicy : String := ""
  ServiceAccountName : String := ""
  Volumes : List String := []
  deriving DecidableEq, Repr

/-- Embedding of `mpsv1alpha1.PortToExpose`. -/
structure PortToExpose where
  ContainerName : String
  PortName : String
  deriving DecidableEq, Repr

/-- Embedding of `mpsv1alpha1.GameServerBuildSpec`. -/
structure GameServerBuildSpec where
  StandingBy : Int
  Max : Int
  CrashesToMarkUnhealthy : Int
  PodSpec : PodSpec := {}
  PortsToExpose : List PortToExpose := []
  BuildID : String := ""
  TitleID : String := ""
  deriving DecidableEq, Repr

/-- Embedding of `mpsv1alpha1.GameServerBuildStatus`. -/
structure GameServerBuildStatus where
  CurrentInitializing : Int := 0
  CurrentStandingBy : Int := 0
  CurrentActive : Int := 0
  CrashesCount : Int := 0
  CurrentStandingByReadyDesired : String := ""
  Health : String := ""
  deriving DecidableEq, Repr

/-- Embedding of `mpsv1alpha1.GameServerBuild`. -/
structure GameServerBuild where
  Name : String
  Namespace : String
  Spec : GameServerBuildSpec
  Status : GameServerBuildStatus := {}
  deriving DecidableEq, Repr

/-- Embedding of `mpsv1alpha1.GameServerSpec`. -/
structure GameServerSpec where
  PodSpec : PodSpec := {}
  BuildID : String := ""
  TitleID : String := ""
  PortsToExpose : List PortToExpose := []
  deriving DecidableEq, Repr

/-- Embedding of `mpsv1alpha1.GameServerStatus`. -/
structure GameServerStatus where
  State : String := ""
  PublicIP : String := ""
  Ports : String := ""
  deriving DecidableEq, Repr

/-- Embedding of `mpsv1alpha1.GameServer`; `Owner` is the name in its controller
reference, `Labels` its label map as a key/value list, `DeletionTimestamp` is
`none` for a nil timestamp. -/
structure GameServer where
  Name : String
  Namespace : String := ""
  Owner : String := ""
  Labels : List (String × String) := []
  DeletionTimestamp : Option Int := none
  Finalizers : List String := []
  Spec : GameServerSpec := {}
  Status : GameServerStatus := {}
  deriving DecidableEq, Repr

/-! ## Pending-operation ledgers -/

/-- The type of `gameServersUnderCreation` and `gameServersUnderDeletion`: a map
from `GameServerBuild.Name` to the set of `GameServer.Name`s still pending. -/
abbrev Ledger := String → Option (List String)

/-- Storing a fleet's set: `GetOrInsert` of a fresh set, or the effect on the ledger
of mutating in place the Go map the entry points to. -/
def Ledger.set (l : Ledger) (key : String) (v : List String) : Ledger :=
  fun k => if k = key then some v else l k

/-- Embedding of `hm.HashMap.Del` on a ledger. -/
def Ledger.del (l : Ledger) (key : String) : Ledger :=
  fun k => if k = key then none else l k

/-- The pending names of a fleet: its entry, or nothing when it has no entry. -/
def Ledger.pending (l : Ledger) (key : String) : List String :=
  (l key).getD []

/-- Embedding of `v[gameServerName] = struct{}{}` on a set of names. -/
def insertName (v : List String) (name : String) : List String :=
  if name ∈ v then v else v ++ [name]

/-- Embedding of `addGameServerToUnderDeletionMap`: `GetOrInsert` the fleet's set,
then add the name to it. -/
def addGameServerToUnderDeletionMap (l : Ledger) (gameServerBuildName gameServerName : String) :
    Ledger :=
  l.set gameServerBuildName (insertName ((l gameServerBuildName).getD []) gameServerName)

/-- Embedding of `addGameServerToUnderCreationMap`. -/
def addGameServerToUnderCreationMap (l : Ledger) (gameServerBuildName gameServerName : String) :
    Ledger :=
  l.set gameServerBuildName (insertName ((l gameServerBuildName).getD []) gameServerName)

/-- The `for k := range gameServersUnderDeletionForBuild` loop of
`gameServersUnderDeletionWereDeleted`: probes each pending name, deletes from the
set those the cache reports NotFound, stops at any other error. Returns the set as
the loop leaves it and the error it stopped with. -/
def underDeletionLoop (get : String → Option GoError) :
    List String → List String × Option GoError
  | [] => ([], none)
  | k :: ks =>
    match get k with
    | some err =>
      if IsNotFound err then underDeletionLoop get ks
      else (k :: ks, some err)
    | none =>
      let r := underDeletionLoop get ks
      (k :: r.1, r.2)

/-- Embedding of `gameServersUnderDeletionWereDeleted`; returns `(bool, error)` and
the deletion ledger as the call leaves it. -/
def gameServersUnderDeletionWereDeleted (get : String → Option GoError)
    (gameServersUnderDeletion : Ledger) (gsbName : String) :
    (Bool × Option GoError) × Ledger :=
  match gameServersUnderDeletion gsbName with
  | some gameServersUnderDeletionForBuild =>
    match underDeletionLoop get gameServersUnderDeletionForBuild with
    | (rest, some err) => ((false, some err), gameServersUnderDeletion.set gsbName rest)
    | (rest, none) =>
      if rest.length = 0 then ((true, none), gameServersUnderDeletion.del gsbName)
      else ((false, none), gameServersUnderDeletion.set gsbName rest)
  | none => ((true, none), gameServersUnderDeletion)

/-- Result of the `range` loop of `gameServersUnderCreationWereCreated`: it runs to
the end, or returns from the function with `(false, err)`. -/
inductive CreationLoopExit where
  | finished
  | stopped (err : Option GoError)
  deriving DecidableEq, Repr

/-- The `for k := range gameServersUnderCreationForBuild` loop of
`gameServersUnderCreationWereCreated`: probes each pending name, deletes from the
set those the cache has, and returns at the first name the cache lacks (NotFound:
no error; anything else: that error). Returns the set as the loop leaves it. -/
def underCreationLoop (get : String → Option GoError) :
    List String → List String × CreationLoopExit
  | [] => ([], .finished)
  | k :: ks =>
    match get k with
    | some err =>
      if IsNotFound err then (k :: ks, .stopped none)
      else (k :: ks, .stopped (some err))
    | none => underCreationLoop get ks

/-- Embedding of `gameServersUnderCreationWereCreated`; returns `(bool, error)` and
the creation ledger as the call leaves it. -/
def gameServersUnderCreationWereCreated (get : String → Option GoError)
    (gameServersUnderCreation : Ledger) (gsbName : String) :
    (Bool × Option GoError) × Ledger :=
  match gameServersUnderCreation gsbName with
  | some gameServersUnderCreationForBuild =>
    match underCreationLoop get gameServersUnderCreationForBuild with
    | (rest, .stopped err) => ((false, err), gameServersUnderCreation.set gsbName rest)
    | (rest, .finished) =>
      if rest.length = 0 then ((true, none), gameServersUnderCreation.del gsbName)
      else ((false, none), gameServersUnderCreation.set gsbName rest)
  | none => ((true, none), gameServersUnderCreation)

/-! ## Instance construction -/

/-- Embedding of the constant `MinPort` of `utilities.go`. -/
def MinPort : Int := 10000

/-- Embedding of the constant `MaxPort` of `utilities.go`. -/
def MaxPort : Int := 50000

/-- The port registry as its callers see it. `PortRegistry` is declared in a file
that is not among the sources and is shared by concurrent reconciliations, so its
answers are a parameter: `getNewPort n` answers the call to
`portRegistry.GetNewPort()` issued after `n` earlier calls. -/
abbrev PortOracle := Nat → Except GoError Int

/-- Embedding of `sliceContainsPortToExpose`. -/
def sliceContainsPortToExpose (slice : List PortToExpose) (containerName portName : String) :
    Bool :=
  match slice with
  | [] => false
  | item :: rest =>
    if item.ContainerName = containerName ∧ item.PortName = portName then true
    else sliceContainsPortToExpose rest containerName portName

/-- Embedding of `generateName`; `suffix` is the value `randString(RandStringSize)`
returns. -/
def generateName (pfx suffix : String) : String :=
  pfx ++ "-" ++ suffix

/-- The inner loop of `NewGameServerForGameServerBuild` over `container.Ports`:
each exposed port gets a host port from the registry; the first allocation error
ends it. `allocated` lists the host ports obtained so far. Returns the ports as
the loop leaves them, the host ports obtained, and the error. -/
def assignPortsOfContainer (getNewPort : PortOracle) (portsToExpose : List PortToExpose)
    (containerName : String) :
    List ContainerPort → List Int → List ContainerPort × List Int × Option GoError
  | [], allocated => ([], allocated, none)
  | p :: ps, allocated =>
    if sliceContainsPortToExpose portsToExpose containerName p.Name then
      match getNewPort allocated.length with
      | .error err => (p :: ps, allocated, some err)
      | .ok port =>
        let r := assignPortsOfContainer getNewPort portsToExpose containerName ps
          (allocated ++ [port])
        ({ p with HostPort := port } :: r.1, r.2.1, r.2.2)
    else
      let r := assignPortsOfContainer getNewPort portsToExpose containerName ps allocated
      (p :: r.1, r.2.1, r.2.2)

/-- The outer loop of `NewGameServerForGameServerBuild` over
`gsb.Spec.PodSpec.Containers`. -/
def assignPortsOfContainers (getNewPort : PortOracle) (portsToExpose : List PortToExpose) :
    List Container → List Int → List Container × List Int × Option GoError
  | [], allocated => ([], allocated, none)
  | c :: cs, allocated =>
    match assignPortsOfContainer getNewPort portsToExpose c.Name c.Ports allocated with
    | (ports, allocated1, some err) => ({ c with Ports := ports } :: cs, allocated1, some err)
    | (ports, allocated1, none) =>
      let r := assignPortsOfContainers getNewPort portsToExpose cs allocated1
      ({ c with Ports := ports } :: r.1, r.2.1, r.2.2)

/-- Embedding of `NewGameServerForGameServerBuild`. The loop writes the host ports
through `container.Ports[i]`, a slice that shares its array with
`gsb.Spec.PodSpec` and with the `gs.Spec.PodSpec` copied from it, so both the new
instance and the fleet object in memory carry them: the fleet object is returned
as the call leaves it, next to the host ports obtained from the registry.
`suffix` is the random suffix drawn by `generateName`. -/
def NewGameServerForGameServerBuild (gsb : GameServerBuild) (getNewPort : PortOracle)
    (allocated : List Int) (suffix : String) :
    Except GoError GameServer × GameServerBuild × List Int :=
  let r := assignPortsOfContainers getNewPort gsb.Spec.PortsToExpose
    gsb.Spec.PodSpec.Containers allocated
  let podSpec : PodSpec := { gsb.Spec.PodSpec with Containers := r.1 }
  let gsb1 : GameServerBuild := { gsb with Spec := { gsb.Spec with PodSpec := podSpec } }
  match r.2.2 with
  | some err => (.error err, gsb1, r.2.1)
  | none =>
    (.ok { Name := generateName gsb.Name suffix
           Namespace := gsb.Namespace
           Owner := gsb.Name
           Labels := [("BuildID", gsb.Spec.BuildID), ("BuildName", gsb.Name)]
           Spec := { PodSpec := podSpec
                     BuildID := gsb.Spec.BuildID
                     TitleID := gsb.Spec.TitleID
                     PortsToExpose := gsb.Spec.PortsToExpose } },
      gsb1, r.2.1)

/-! ## The fleet reconciler -/

/-- The answers of the outside world to the calls of one reconcile pass.
`delete n gs`, `create n gs` and `getNewPort n` answer the call issued when the
corresponding log of the `World` holds `n` entries, that is after `n` successful
calls of the same kind (a call that fails ends the pass, so each call of a pass
has its own `n`); `randString n` is the suffix drawn for the new
name in iteration `n` of the creation loop. `getGameServer` answers `r.Get` on an
instance name, `none` meaning found: the probes of one pass see one state of the
read cache. -/
structure Env where
  getBuild : Except GoError (GameServerBuildSpec × GameServerBuildStatus)
  getGameServer : String → Option GoError
  list : Except GoError (List GameServer)
  delete : Nat → GameServer → Option GoError
  create : Nat → GameServer → Option GoError
  statusUpdate : GameServerBuild → Option GoError
  getNewPort : PortOracle
  randString : Nat → String

/-- What a pass reads and changes outside its own frame: the two process-wide
ledgers, and the log of what it has done to the cluster: the instances whose
`r.Delete` succeeded, those whose `r.Create` succeeded, the host ports it obtained,
the fleet status it persisted (`none`: no successful status write), the events. -/
structure World where
  gameServersUnderCreation : Ledger
  gameServersUnderDeletion : Ledger
  deleted : List GameServer := []
  created : List GameServer := []
  allocated : List Int := []
  statusWritten : Option GameServerBuildStatus := none
  events : List String := []

/-- The four counters of `Reconcile`. -/
structure Counts where
  activeCount : Int := 0
  standingByCount : Int := 0
  crashesCount : Int := 0
  initializingCount : Int := 0
  deriving DecidableEq, Repr

/-- `r.Delete(ctx, &gs)` followed, when it succeeds, by
`addGameServerToUnderDeletionMap(gsb.Name, gs.Name)` and the event of the calling
branch (`none`: the branch records no event). -/
def deleteGameServer (env : Env) (gsbName : String) (gs : GameServer) (event : Option String)
    (w : World) : Option GoError × World :=
  match env.delete w.deleted.length gs with
  | some err => (some err, w)
  | none =>
    (none, { w with
      deleted := w.deleted ++ [gs]
      gameServersUnderDeletion :=
        addGameServerToUnderDeletionMap w.gameServersUnderDeletion gsbName gs.Name
      events := w.events ++ event.toList })

/-- The loop of `Reconcile` over `gameServers.Items` (lines 124-149): tallies the
states and deletes Crashed and GameCompleted instances. `some o`: the pass
returned `o` from inside the loop. -/
def tallyLoop (env : Env) (gsbName : String) :
    List GameServer → Counts → World → Option Outcome × Counts × World
  | [], c, w => (none, c, w)
  | gs :: rest, c, w =>
    if gs.Status.State = "" then
      tallyLoop env gsbName rest { c with initializingCount := c.initializingCount + 1 } w
    else if gs.Status.State = GameServerStateStandingBy then
      tallyLoop env gsbName rest { c with standingByCount := c.standingByCount + 1 } w
    else if gs.Status.State = GameServerStateActive then
      tallyLoop env gsbName rest { c with activeCount := c.activeCount + 1 } w
    else if gs.Status.State = GameServerStateCrashed then
      let c1 := { c with crashesCount := c.crashesCount + 1 }
      match deleteGameServer env gsbName gs (some "Crashed") w with
      | (some err, w1) => (some (.returned {} (some err)), c1, w1)
      | (none, w1) => tallyLoop env gsbName rest c1 w1
    else if gs.Status.State = GameServerStateGameCompleted then
      match deleteGameServer env gsbName gs (some "Exited") w with
      | (some err, w1) => (some (.returned {} (some err)), c, w1)
      | (none, w1) => tallyLoop env gsbName rest c w1
    else
      tallyLoop env gsbName rest c w

/-- The two surplus-deletion loops of `Reconcile` (lines 161-173 and 185-196):
`remaining` iterations are left, `i` is the index read, `deletedCount` the
deletions so far. Each reads `gameServers.Items[i]` and deletes it when its state
is unset or StandingBy. Only the first loop records an event (`event`). -/
def deleteLoop (env : Env) (gsbName : String) (event : Option String)
    (items : List GameServer) :
    Nat → Nat → Int → World → Option Outcome × Int × World
  | 0, _, deletedCount, w => (none, deletedCount, w)
  | remaining + 1, i, deletedCount, w =>
    match items[i]? with
    | none => (some .panicked, deletedCount, w)
    | some gs =>
      if gs.Status.State = "" ∨ gs.Status.State = GameServerStateStandingBy then
        match deleteGameServer env gsbName gs event w with
        | (some err, w1) => (some (.returned {} (some err)), deletedCount, w1)
        | (none, w1) => deleteLoop env gsbName event items remaining (i + 1) (deletedCount + 1) w1
      else
        deleteLoop env gsbName event items remaining (i + 1) deletedCount w

/-- The creation loop of `Reconcile` (lines 205-217),
`for i := 0; i < gsb.Spec.StandingBy-standingByCount && i+standingByCount+activeCount < gsb.Spec.Max; i++`:
`remaining` counts down the first bound, the second is tested on each entry. -/
def createLoop (env : Env) (c : Counts) :
    Nat → Nat → GameServerBuild → World → Option Outcome × GameServerBuild × World
  | 0, _, gsb, w => (none, gsb, w)
  | remaining + 1, i, gsb, w =>
    if (i : Int) + c.standingByCount + c.activeCount < gsb.Spec.Max then
      match NewGameServerForGameServerBuild gsb env.getNewPort w.allocated (env.randString i) with
      | (.error err, gsb1, allocated1) =>
        (some (.returned {} (some err)), gsb1, { w with allocated := allocated1 })
      | (.ok newgs, gsb1, allocated1) =>
        let w1 := { w with allocated := allocated1 }
        match env.create w.created.length newgs with
        | some err => (some (.returned {} (some err)), gsb1, w1)
        | none =>
          createLoop env c remaining (i + 1) gsb1
            { w1 with
              created := w1.created ++ [newgs]
              gameServersUnderCreation :=
                addGameServerToUnderCreationMap w1.gameServersUnderCreation gsb.Name newgs.Name
              events := w1.events ++ ["Creating"] }
    else (none, gsb, w)

/-- The value of a Go `int` expression whose mathematical value is `x`: 64-bit
two's complement wrap-around. -/
def wrapInt64 (x : Int) : Int :=
  (x + 9223372036854775808) % 18446744073709551616 - 9223372036854775808

/-- Embedding of `GameServerBuildReconciler.updateStatus`. The sum
`gsb.Status.CrashesCount + crashesCount` is a Go `int` sum and wraps. -/
def updateStatus (env : Env) (gsb : GameServerBuild)
    (initializingCount standingByCount activeCount crashesCount : Int) (w : World) :
    Outcome × World :=
  if gsb.Status.CurrentInitializing ≠ initializingCount ∨
      gsb.Status.CurrentActive ≠ activeCount ∨
      gsb.Status.CurrentStandingBy ≠ standingByCount ∨
      crashesCount > 0 then
    let status1 : GameServerBuildStatus :=
      { gsb.Status with
        CurrentInitializing := initializingCount
        CurrentActive := activeCount
        CurrentStandingBy := standingByCount
        CrashesCount := wrapInt64 (gsb.Status.CrashesCount + crashesCount)
        CurrentStandingByReadyDesired :=
          toString standingByCount ++ "/" ++ toString gsb.Spec.StandingBy }
    let health : String :=
      if status1.CrashesCount ≥ gsb.Spec.CrashesToMarkUnhealthy then BuildUnhealthy
      else BuildHealthy
    let gsb1 : GameServerBuild := { gsb with Status := { status1 with Health := health } }
    match env.statusUpdate gsb1 with
    | some err =>
      if IsConflict err then (.returned { Requeue := true } none, w)
      else (.returned {} (some err), w)
    | none => (.returned {} none, { w with statusWritten := some gsb1.Status })
  else
    (.returned {} none, w)

/-- Lines 158-178 of `Reconcile`, "user has decreased standingBy numbers":
`some o` when the pass ends inside the block. -/
def standingByReduction (env : Env) (gsb : GameServerBuild) (items : List GameServer)
    (c : Counts) (w : World) : Option Outcome × World :=
  if c.standingByCount > gsb.Spec.StandingBy then
    match deleteLoop env gsb.Name (some "GameServer deleted") items
        (c.standingByCount - gsb.Spec.StandingBy).toNat 0 0 w with
    | (some o, _, w1) => (some o, w1)
    | (none, deletedCount, w1) =>
      if deletedCount ≠ c.standingByCount - gsb.Spec.StandingBy then
        (none, { w1 with events := w1.events ++
          ["User modified .Spec.StandingBy - No standingBy servers left to delete"] })
      else (none, w1)
  else (none, w)

/-- Lines 180-202 of `Reconcile`, "we need to check if we are above the max"; the
loop condition is `i <= standingByCount+activeCount-gsb.Spec.Max`, one iteration
more than the surplus. `some o` when the pass ends inside the block. -/
def maxCap (env : Env) (gsb : GameServerBuild) (items : List GameServer)
    (c : Counts) (w : World) : Option Outcome × World :=
  if c.standingByCount + c.activeCount > gsb.Spec.Max then
    match deleteLoop env gsb.Name none items
        (c.standingByCount + c.activeCount - gsb.Spec.Max + 1).toNat 0 0 w with
    | (some o, _, w1) => (some o, w1)
    | (none, deletedCount, w1) =>
      if deletedCount ≠ c.standingByCount + c.activeCount - gsb.Spec.Max then
        (some (.returned { RequeueAfter := 5 * Second } none),
          { w1 with events := w1.events ++
            ["User modified .Spec.Max - No standingBy servers left to delete. Will requeue"] })
      else (none, w1)
  else (none, w)

/-- Lines 158-219 of `Reconcile`: the standingBy reduction, the max cap, the
creation loop and the final `updateStatus`, entered with `initializingCount = 0`. -/
def scale (env : Env) (gsb : GameServerBuild) (items : List GameServer) (c : Counts)
    (w : World) : Outcome × World :=
  match standingByReduction env gsb items c w with
  | (some o, w1) => (o, w1)
  | (none, w1) =>
    match maxCap env gsb items c w1 with
    | (some o, w2) => (o, w2)
    | (none, w2) =>
      -- we are in need of standingBy servers, so we're creating them here
      match createLoop env c (gsb.Spec.StandingBy - c.standingByCount).toNat 0 gsb w2 with
      | (some o, _, w3) => (o, w3)
      | (none, gsb1, w3) =>
        updateStatus env gsb1 c.initializingCount c.standingByCount c.activeCount
          c.crashesCount w3

/-- Lines 122-219 of `Reconcile`: everything after the instances were listed. -/
def reconcileListed (env : Env) (gsb : GameServerBuild) (items : List GameServer)
    (w : World) : Outcome × World :=
  match tallyLoop env gsb.Name items {} w with
  | (some o, _, w1) => (o, w1)
  | (none, c, w1) =>
    if c.initializingCount > 0 then
      updateStatus env gsb c.initializingCount c.standingByCount c.activeCount c.crashesCount w1
    else
      scale env gsb items c w1

/-- Embedding of `GameServerBuildReconciler.Reconcile`. The object that `r.Get`
fetches under `req.NamespacedName` carries that name and namespace. -/
def Reconcile (env : Env) (req : Request) (w : World) : Outcome × World :=
  match env.getBuild with
  | .error err =>
    if IsNotFound err then (.returned {} none, w) else (.returned {} (some err), w)
  | .ok (spec, status) =>
    let gsb : GameServerBuild :=
      { Name := req.Name, Namespace := req.Namespace, Spec := spec, Status := status }
    -- if GameServerBuild is unhealthy, do nothing more
    if gsb.Status.Health = BuildUnhealthy then
      (.returned {} none, { w with events := w.events ++ ["Unhealthy Build"] })
    else
      match gameServersUnderDeletionWereDeleted env.getGameServer
          w.gameServersUnderDeletion gsb.Name with
      | ((_, some err), led) => (.returned {} (some err), { w with gameServersUnderDeletion := led })
      | ((deletionsCompleted, none), led) =>
        let w1 := { w with gameServersUnderDeletion := led }
        if !deletionsCompleted then (.returned {} none, w1)
        else
          match gameServersUnderCreationWereCreated env.getGameServer
              w1.gameServersUnderCreation gsb.Name with
          | ((_, some err), led) =>
            (.returned {} (some err), { w1 with gameServersUnderCreation := led })
          | ((creationsCompleted, none), led) =>
            let w2 := { w1 with gameServersUnderCreation := led }
            if !creationsCompleted then (.returned {} none, w2)
            else
              match env.list with
              | .error err => (.returned {} (some err), w2)
              | .ok gameServers => reconcileListed env gsb gameServers w2

/-! ## Vocabulary of the statements -/

/-- The number of listed instances in the given state, as a Go `int`. -/
def countState (items : List GameServer) (state : String) : Int :=
  (items.countP (fun gs => gs.Status.State = state) : Nat)

/-- Within one step of a pass, `w1` differs from `w` only by deletions (each of an
instance satisfying `P`), their ledger records and events. -/
def DeletesOnly (P : GameServer → Prop) (w w1 : World) : Prop :=
  w1.created = w.created ∧ w1.gameServersUnderCreation = w.gameServersUnderCreation ∧
  w1.allocated = w.allocated ∧ w1.statusWritten = w.statusWritten ∧
  ∃ new, w1.deleted = w.deleted ++ new ∧ ∀ gs ∈ new, P gs

/-- The effects of a stretch of a pass on the cluster, for the fleet `name`: the
instances deleted are appended to the log and satisfy `P`; the fleet's pending
creations only grow; the instances created are appended to the log and their names
are pending creation at the end. -/
def PassEffects (P : GameServer → Prop) (name : String) (w w1 : World) : Prop :=
  (∃ newD, w1.deleted = w.deleted ++ newD ∧ ∀ gs ∈ newD, P gs) ∧
  (∀ n ∈ w.gameServersUnderCreation.pending name,
    n ∈ w1.gameServersUnderCreation.pending name) ∧
  (∃ newC, w1.created = w.created ++ newC ∧
    ∀ gs ∈ newC, gs.Name ∈ w1.gameServersUnderCreation.pending name)

/-- The states in which the fleet reconciler deletes an instance. -/
def Deletable (gs : GameServer) : Prop :=
  gs.Status.State = "" ∨ gs.Status.State = GameServerStateStandingBy ∨
  gs.Status.State = GameServerStateCrashed ∨ gs.Status.State = GameServerStateGameCompleted

/-- The fleet status held by the API server after a pass: the status the pass
persisted, or the one it started from when it wrote none. -/
def statusAfter (before : GameServerBuildStatus) (w : World) : GameServerBuildStatus :=
  w.statusWritten.getD before

/-- The status a pass stores, in terms of the fleet it fetched and of its tallies:
the three counts are the tallies, the crash count is the previous one plus the
crashes of this pass (a Go `int` sum), and the health is Unhealthy exactly when
that crash count has reached `Spec.CrashesToMarkUnhealthy`, Healthy otherwise. -/
def TalliedStatus (spec : GameServerBuildSpec) (status : GameServerBuildStatus)
    (initializingCount standingByCount activeCount crashesCount : Int)
    (st : GameServerBuildStatus) : Prop :=
  st.CurrentInitializing = initializingCount ∧ st.CurrentStandingBy = standingByCount ∧
  st.CurrentActive = activeCount ∧
  st.CrashesCount = wrapInt64 (status.CrashesCount + crashesCount) ∧
  (st.Health = BuildUnhealthy ↔
    wrapInt64 (status.CrashesCount + crashesCount) ≥ spec.CrashesToMarkUnhealthy) ∧
  (st.Health ≠ BuildUnhealthy → st.Health = BuildHealthy)

/-! ## Sample data -/

/-- A ledger with no entry. -/
def emptyLedger : Ledger := fun _ => none

/-- A read cache holding exactly the instances named in `present`. -/
def cacheOf (present : List String) : String → Option GoError :=
  fun k => if k ∈ present then none else some .NotFound

/-- A world in which nothing is pending and nothing has been done yet. -/
def freshWorld : World :=
  { gameServersUnderCreation := emptyLedger, gameServersUnderDeletion := emptyLedger }

/-- An API in which every call succeeds: the fleet is found with the given spec and
status, `items` is what the list call returns, `cache` answers the probes, and the
registry hands out `10000, 10001, ...`. -/
def apiOf (spec : GameServerBuildSpec) (status : GameServerBuildStatus)
    (items : List GameServer) (cache : String → Option GoError) : Env :=
  { getBuild := .ok (spec, status)
    getGameServer := cache
    list := .ok items
    delete := fun _ _ => none
    create := fun _ _ => none
    statusUpdate := fun _ => none
    getNewPort := fun n => .ok (MinPort + n)
    randString := fun n => String.mk (List.replicate 5 (Char.ofNat (97 + n))) }

/-- A listed instance with the given name and state. -/
def instanceOf (name state : String) : GameServer :=
  { Name := name, Status := { State := state } }

/-- The request for the fleet `fleet` of the sample passes. -/
def fleetReq : Request := { Namespace := "default", Name := "fleet" }

/-- Sample fleet: none listed, 3 standing-by instances wanted, at most 5. -/
def scaleUpApi : Env :=
  apiOf { StandingBy := 3, Max := 5, CrashesToMarkUnhealthy := 5 } {} [] (cacheOf [])

/-- The pass after `scaleUpApi`, while the cache shows two of the three new
instances only. -/
def scaleUpApiNext : Env :=
  apiOf { StandingBy := 3, Max := 5, CrashesToMarkUnhealthy := 5 } {}
    [instanceOf "fleet-aaaaa" "", instanceOf "fleet-bbbbb" ""]
    (cacheOf ["fleet-aaaaa", "fleet-bbbbb"])

/-- The instances of the scale-down sample: 2 Active listed first, then 3
StandingBy. -/
def scaleDownItems : List GameServer :=
  [instanceOf "fleet-aaaaa" GameServerStateActive,
   instanceOf "fleet-bbbbb" GameServerStateActive,
   instanceOf "fleet-ccccc" GameServerStateStandingBy,
   instanceOf "fleet-ddddd" GameServerStateStandingBy,
   instanceOf "fleet-eeeee" GameServerStateStandingBy]

/-- Sample fleet: 2 Active and 3 StandingBy, desired standingBy reduced to 1. -/
def scaleDownApi : Env :=
  apiOf { StandingBy := 1, Max := 5, CrashesToMarkUnhealthy := 5 }
    { CurrentStandingBy := 3, CurrentActive := 2, Health := BuildHealthy }
    scaleDownItems (cacheOf [])

/-- The instances of the first max-cap sample: 3 StandingBy listed first, then 3
Active. -/
def maxCapItems : List GameServer :=
  [instanceOf "fleet-aaaaa" GameServerStateStandingBy,
   instanceOf "fleet-bbbbb" GameServerStateStandingBy,
   instanceOf "fleet-ccccc" GameServerStateStandingBy,
   instanceOf "fleet-ddddd" GameServerStateActive,
   instanceOf "fleet-eeeee" GameServerStateActive,
   instanceOf "fleet-fffff" GameServerStateActive]

/-- Sample fleet: `Max` lowered to 4 with 3 StandingBy and 3 Active, 3 desired. -/
def maxCapApi : Env :=
  apiOf { StandingBy := 3, Max := 4, CrashesToMarkUnhealthy := 5 }
    { CurrentStandingBy := 3, CurrentActive := 3, Health := BuildHealthy }
    maxCapItems (cacheOf [])

/-- The instances of the second max-cap sample: 4 Active listed first, then 2
StandingBy. -/
def maxCapItemsActiveFirst : List GameServer :=
  [instanceOf "fleet-aaaaa" GameServerStateActive,
   instanceOf "fleet-bbbbb" GameServerStateActive,
   instanceOf "fleet-ccccc" GameServerStateActive,
   instanceOf "fleet-ddddd" GameServerStateActive,
   instanceOf "fleet-eeeee" GameServerStateStandingBy,
   instanceOf "fleet-fffff" GameServerStateStandingBy]

/-- Sample fleet: `Max` lowered to 4 with 4 Active and 2 StandingBy, 2 desired. -/
def maxCapApiActiveFirst : Env :=
  apiOf { StandingBy := 2, Max := 4, CrashesToMarkUnhealthy := 5 }
    { CurrentStandingBy := 2, CurrentActive := 4, Health := BuildHealthy }
    maxCapItemsActiveFirst (cacheOf [])

/-- The status of the crash sample before the pass. -/
def crashStatus : GameServerBuildStatus :=
  { CurrentActive := 3, CrashesCount := 0, Health := BuildHealthy }

/-- The instances of the crash sample: one Crashed, two Active. -/
def crashItems : List GameServer :=
  [instanceOf "fleet-aaaaa" GameServerStateCrashed,
   instanceOf "fleet-bbbbb" GameServerStateActive,
   instanceOf "fleet-ccccc" GameServerStateActive]

/-- Sample fleet: `Max` lowered to 1 while two instances are Active and a third has
just crashed. -/
def crashApi : Env :=
  apiOf { StandingBy := 0, Max := 1, CrashesToMarkUnhealthy := 5 } crashStatus crashItems
    (cacheOf [])

/-- The status of the threshold sample before the pass: 2 crashes so far, Healthy. -/
def staleStatus : GameServerBuildStatus :=
  { CurrentStandingBy := 1, CrashesCount := 2, CurrentStandingByReadyDesired := "1/1",
    Health := BuildHealthy }

/-- The spec of the threshold sample: `CrashesToMarkUnhealthy` lowered to 2. -/
def staleSpec : GameServerBuildSpec :=
  { StandingBy := 1, Max := 2, CrashesToMarkUnhealthy := 2 }

/-- Sample fleet: one StandingBy instance, as many as wanted, nothing to do. -/
def staleApi : Env :=
  apiOf staleSpec staleStatus [instanceOf "fleet-aaaaa" GameServerStateStandingBy] (cacheOf [])

/-- A fleet object with 2 crashes so far and a threshold of 3. -/
def thirdCrashFleet : GameServerBuild :=
  { Name := "fleet", Namespace := "default"
    Spec := { StandingBy := 1, Max := 2, CrashesToMarkUnhealthy := 3 }
    Status := { CurrentStandingBy := 1, CrashesCount := 2, Health := BuildHealthy } }

/-- Sample fleet with 2 crashes so far and a threshold of 3: one Crashed and one
StandingBy instance are listed. -/
def thirdCrashApi : Env :=
  apiOf thirdCrashFleet.Spec thirdCrashFleet.Status
    [instanceOf "fleet-aaaaa" GameServerStateCrashed,
     instanceOf "fleet-bbbbb" GameServerStateStandingBy] (cacheOf [])

/-- The status of a Healthy fleet whose crash count is one below the largest Go
`int`. -/
def saturatedStatus : GameServerBuildStatus :=
  { CurrentStandingBy := 1, CrashesCount := 9223372036854775806, Health := BuildHealthy }

/-- The instances of the saturation sample: two Crashed, one StandingBy. -/
def saturatedItems : List GameServer :=
  [instanceOf "fleet-aaaaa" GameServerStateCrashed,
   instanceOf "fleet-bbbbb" GameServerStateCrashed,
   instanceOf "fleet-ccccc" GameServerStateStandingBy]

/-- Sample fleet with the crash count of `saturatedStatus` and the largest Go `int`
as its threshold. -/
def saturatedApi : Env :=
  apiOf { StandingBy := 1, Max := 3, CrashesToMarkUnhealthy := 9223372036854775807 }
    saturatedStatus saturatedItems (cacheOf [])

/-- Sample fleet being drained: `Max` and `StandingBy` set to 0 while one Active
instance is listed. -/
def drainApi : Env :=
  apiOf { StandingBy := 0, Max := 0, CrashesToMarkUnhealthy := 5 }
    { CurrentActive := 1, Health := BuildHealthy }
    [instanceOf "fleet-aaaaa" GameServerStateActive] (cacheOf [])

/-- The instances of the double-deletion sample: 2 StandingBy, then 1 Active. -/
def bothStepsItems : List GameServer :=
  [instanceOf "fleet-aaaaa" GameServerStateStandingBy,
   instanceOf "fleet-bbbbb" GameServerStateStandingBy,
   instanceOf "fleet-ccccc" GameServerStateActive]

/-- Sample fleet: `StandingBy` lowered to 0 and `Max` lowered to 1 at once, with 2
StandingBy and 1 Active instance listed. -/
def bothStepsApi : Env :=
  apiOf { StandingBy := 0, Max := 1, CrashesToMarkUnhealthy := 5 }
    { CurrentStandingBy := 2, CurrentActive := 1, Health := BuildHealthy }
    bothStepsItems (cacheOf [])

/-- The instances of the initializing sample: one without a state yet, one
Crashed. -/
def initializingItems : List GameServer :=
  [instanceOf "fleet-aaaaa" "", instanceOf "fleet-bbbbb" GameServerStateCrashed]

/-- Sample fleet with an initializing and a crashed instance, every call
succeeding. -/
def initializingApi : Env :=
  apiOf { StandingBy := 2, Max := 4, CrashesToMarkUnhealthy := 5 } {} initializingItems
    (cacheOf [])

/-- The fleet of `initializingApi` on an API server that refuses deletions. -/
def initializingApiDeleteFails : Env :=
  { initializingApi with delete := fun _ _ => some GoError.Other }

/-! ## The instance reconciler (`gameserver_controller.go`) -/

/-- Embedding of the constant `SidecarContainerName` of `utilities.go`. -/
def SidecarContainerName : String := "thundernetes-sidecar"

/-- Embedding of the constant `InitContainerName` of `utilities.go`. -/
def InitContainerName : String := "initcontainer"

/-- Embedding of the constant `DataVolumeName` of `utilities.go`. -/
def DataVolumeName : String := "data"

/-- Embedding of the constant `serviceAccountGameServerEditor` of `utilities.go`. -/
def serviceAccountGameServerEditor : String := "thundernetes-gameserver-editor"

/-- Embedding of the constant `finalizerName` of `gameserver_controller.go`. -/
def finalizerName : String := "gameservers.mps.playfab.com/finalizer"

/-- Embedding of the constant `safeToEvictPodAttribute`. -/
def safeToEvictPodAttribute : String := "cluster-autoscaler.kubernetes.io/safe-to-evict"

/-- Embedding of `corev1.ContainerStatus`: `Terminated` is the exit code of
`State.Terminated`, `none` when that pointer is nil. -/
structure ContainerStatus where
  Name : String
  Ready : Bool := false
  Terminated : Option Int := none
  deriving DecidableEq, Repr

/-- Embedding of `corev1.Pod`: metadata, spec and `Status.ContainerStatuses`. -/
structure Pod where
  Name : String
  Namespace : String := ""
  Labels : List (String × String) := []
  Owner : String := ""
  Annotations : List (String × String) := []
  Spec : PodSpec := {}
  ContainerStatuses : List ContainerStatus := []
  deriving DecidableEq, Repr

/-- Embedding of `corev1.NodeAddress`; `AddressType` is its field `Type`. -/
structure NodeAddress where
  AddressType : String
  Address : String
  deriving DecidableEq, Repr

/-- Embedding of `corev1.NodeExternalIP`. -/
def NodeExternalIP : String := "ExternalIP"

/-- Embedding of `corev1.NodeInternalIP`. -/
def NodeInternalIP : String := "InternalIP"

/-- The two `for _, x := range node.Status.Addresses` loops of
`GetPublicIPForNode`: the address of the first entry of the given type. -/
def firstAddressOfType (t : String) : List NodeAddress → Option String
  | [] => none
  | x :: rest => if x.AddressType = t then some x.Address else firstAddressOfType t rest

/-- Embedding of `GetPublicIPForNode`; `getNode` answers `r.Get` on the node name
with the node's `Status.Addresses`. -/
def GetPublicIPForNode (getNode : String → Except GoError (List NodeAddress))
    (nodeName : String) : String × Option GoError :=
  match getNode nodeName with
  | .error err => ("", some err)
  | .ok addresses =>
    match firstAddressOfType NodeExternalIP addresses with
    | some address => (address, none)
    | none =>
      -- externalIP not found, try InternalIP
      match firstAddressOfType NodeInternalIP addresses with
      | some address => (address, none)
      | none => ("", some .Other)

/-- Embedding of `strings.TrimSuffix`. -/
def TrimSuffix (s suffix : String) : String :=
  if suffix.data.isSuffixOf s.data then
    String.mk (s.data.take (s.data.length - suffix.data.length))
  else s

/-- The inner loop of `getContainerHostPortTuples` over `container.Ports`, with
`fmt.Sprintf("%d:%d,", portInfo.ContainerPort, portInfo.HostPort)`. -/
def writePortTuples : List ContainerPort → String
  | [] => ""
  | portInfo :: rest =>
    (toString portInfo.ContainerPort ++ ":" ++ toString portInfo.HostPort ++ ",")
      ++ writePortTuples rest

/-- The outer loop of `getContainerHostPortTuples` over `pod.Spec.Containers`: the
contents of the string builder. -/
def writeContainerTuples : List Container → String
  | [] => ""
  | container :: rest =>
    -- ignore the sidecar, since we don't want its ports to be visible
    if container.Name = SidecarContainerName then writeContainerTuples rest
    else writePortTuples container.Ports ++ writeContainerTuples rest

/-- Embedding of `getContainerHostPortTuples`. -/
def getContainerHostPortTuples (pod : Pod) : String :=
  TrimSuffix (writeContainerTuples pod.Spec.Containers) ","

/-- Embedding of `containsString`. -/
def containsString (slice : List String) (s : String) : Bool :=
  match slice with
  | [] => false
  | item :: rest => if item = s then true else containsString rest s

/-- Embedding of `controllerutil.AddFinalizer` (controller-runtime) on the list of
finalizers. -/
def AddFinalizer (f : List String) (finalizer : String) : List String :=
  if finalizer ∈ f then f else f ++ [finalizer]

/-- Embedding of `controllerutil.RemoveFinalizer` (controller-runtime) on the list
of finalizers. -/
def RemoveFinalizer (f : List String) (finalizer : String) : List String :=
  f.filter (fun e => e ≠ finalizer)

/-- Embedding of `gs.Labels[key]`: the value, or the empty string. -/
def labelOf (labels : List (String × String)) (key : String) : String :=
  match labels with
  | [] => ""
  | (k, v) :: rest => if k = key then v else labelOf rest key

/-- Embedding of `podAnnotations[key] = value` on the annotation map. -/
def setAnnotation (annotations : List (String × String)) (key value : String) :
    List (String × String) :=
  match annotations with
  | [] => [(key, value)]
  | (k, v) :: rest =>
    if k = key then (key, value) :: rest else (k, v) :: setAnnotation rest key value

/-- Embedding of `NewPodForGameServer` with `modifyRestartPolicy`,
`createDataVolumeOnPod`, `attachSidecar`, `attachInitContainer` and
`addServiceAccountName`, in the order of the source; the data-volume mounts and the
environment of the containers are not modelled. -/
def NewPodForGameServer (gs : GameServer) : Pod :=
  { Name := gs.Name
    Namespace := gs.Namespace
    Labels := [("BuildID", gs.Spec.BuildID), ("BuildName", labelOf gs.Labels "BuildName"),
      ("OwningGameServer", gs.Name), ("OwningOperator", "thundernetes")]
    Owner := gs.Name
    Spec :=
      { gs.Spec.PodSpec with
        RestartPolicy := "Never"
        Volumes := gs.Spec.PodSpec.Volumes ++ [DataVolumeName]
        Containers := gs.Spec.PodSpec.Containers ++
          [{ Name := SidecarContainerName, Ports := [] }]
        InitContainers := gs.Spec.PodSpec.InitContainers ++
          [{ Name := InitContainerName, Ports := [] }]
        ServiceAccountName := serviceAccountGameServerEditor } }

/-- The inner loop of `unassignPorts` over `container.Ports`. -/
def hostPortsOfContainer (portsToExpose : List PortToExpose) (containerName : String) :
    List ContainerPort → List Int
  | [] => []
  | p :: rest =>
    if sliceContainsPortToExpose portsToExpose containerName p.Name then
      p.HostPort :: hostPortsOfContainer portsToExpose containerName rest
    else hostPortsOfContainer portsToExpose containerName rest

/-- The outer loop of `unassignPorts` over `gs.Spec.PodSpec.Containers`. -/
def hostPortsOfContainers (portsToExpose : List PortToExpose) : List Container → List Int
  | [] => []
  | container :: rest =>
    hostPortsOfContainer portsToExpose container.Name container.Ports
      ++ hostPortsOfContainers portsToExpose rest

/-- The slice `hostPorts` that `unassignPorts` passes to
`r.PortRegistry.DeregisterServerPorts`. -/
def hostPortsToRelease (gs : GameServer) : List Int :=
  hostPortsOfContainers gs.Spec.PortsToExpose gs.Spec.PodSpec.Containers

/-- A call the instance reconciler issues to the outside: the port registry, the
API server, the node-address provider, the event recorder. -/
inductive Action where
  | DeregisterServerPorts (ports : List Int)
  | Update (gs : GameServer)
  | CreatePod (pod : Pod)
  | UpdatePod (pod : Pod)
  | StatusUpdate (gs : GameServer)
  | GetPublicIpForNode (nodeName : String)
  | Event (reason : String)
  deriving DecidableEq, Repr

/-- The answers of the outside world to the calls of one instance reconcile pass;
each call is issued at most once in a pass. `getGameServer` and `getPod` answer
`r.Get` under the request's name (NotFound: absent from the cache). -/
structure GameServerEnv where
  getGameServer : Except GoError GameServer
  getPod : Except GoError Pod
  update : GameServer → Option GoError
  createPod : Pod → Option GoError
  updatePod : Pod → Option GoError
  statusUpdate : GameServer → Option GoError
  getPublicIpForNode : String → String × Option GoError

/-- What an instance pass reads and changes outside its own frame: the
process-wide map `podsUnderCreation` (its keys), the calls issued so far, in order,
and the pods whose `r.Create` succeeded. -/
structure GameServerWorld where
  podsUnderCreation : List String := []
  actions : List Action := []
  podsCreated : List Pod := []
  deriving DecidableEq, Repr

/-- Embedding of `metav1.Time.IsZero` on `DeletionTimestamp`. -/
def IsZero (t : Option Int) : Bool := t.isNone

/-- The loop of `GameServerReconciler.Reconcile` over
`pod.Status.ContainerStatuses` (lines 148-166): the exit code of the first
container, other than the sidecar, that is not ready and has terminated. -/
def exitedProcess : List ContainerStatus → Option Int
  | [] => none
  | containerStatus :: rest =>
    if containerStatus.Name = SidecarContainerName then exitedProcess rest
    else
      match containerStatus.Terminated with
      | some exitCode => if !containerStatus.Ready then some exitCode else exitedProcess rest
      | none => exitedProcess rest

/-- Lines 147-211 of `GameServerReconciler.Reconcile`: the pod was found in the
cache. -/
def reconcileFoundPod (env : GameServerEnv) (gs : GameServer) (pod : Pod)
    (w : GameServerWorld) : Outcome × GameServerWorld :=
  -- check if the pod process has exited
  match exitedProcess pod.ContainerStatuses with
  | some exitCode =>
    let state := if exitCode = 0 then GameServerStateGameCompleted else GameServerStateCrashed
    let gs1 : GameServer := { gs with Status := { gs.Status with State := state } }
    (.returned {} (env.statusUpdate gs1),
      { w with actions := w.actions ++
          [.Event "GameServerProcessExited", .StatusUpdate gs1] })
  | none =>
    let value := if gs.Status.State = GameServerStateActive then "false" else "true"
    let pod1 : Pod :=
      { pod with Annotations := setAnnotation pod.Annotations safeToEvictPodAttribute value }
    let w1 := { w with actions := w.actions ++ [.Event "Update", .UpdatePod pod1] }
    -- if we don't have a Public IP set, we need to get and set it on the status
    if gs.Status.PublicIP = "" then
      if pod1.Spec.NodeName = "" then (.returned {} none, w1)
      else
        let w2 := { w1 with actions := w1.actions ++ [.GetPublicIpForNode pod1.Spec.NodeName] }
        match env.getPublicIpForNode pod1.Spec.NodeName with
        | (_, some err) => (.returned {} (some err), w2)
        | (publicIP, none) =>
          let gs1 : GameServer :=
            { gs with Status := { gs.Status with
                PublicIP := publicIP, Ports := getContainerHostPortTuples pod1 } }
          let w3 := { w2 with actions := w2.actions ++ [.StatusUpdate gs1] }
          match env.statusUpdate gs1 with
          | some err =>
            if IsConflict err then (.returned { Requeue := true } none, w3)
            else (.returned {} (some err), w3)
          | none => (.returned {} none, w3)
    else (.returned {} none, w1)

/-- Lines 115-211 of `GameServerReconciler.Reconcile`: the instance is not being
deleted and carries the finalizer. -/
def reconcilePod (env : GameServerEnv) (gs : GameServer) (w : GameServerWorld) :
    Outcome × GameServerWorld :=
  match env.getPod with
  | .error err =>
    if IsNotFound err then
      -- podFoundInCache = false
      if gs.Name ∈ w.podsUnderCreation then
        -- pod is being created, cache hasn't been updated yet
        (.returned {} none, w)
      else
        let newPod := NewPodForGameServer gs
        let w1 := { w with actions := w.actions ++ [.CreatePod newPod] }
        match env.createPod newPod with
        | some err1 => (.returned {} (some err1), w1)
        | none =>
          (.returned {} none,
            { w1 with
              podsUnderCreation := insertName w1.podsUnderCreation gs.Name
              podsCreated := w1.podsCreated ++ [newPod]
              actions := w1.actions ++ [.Event "Created"] })
    else (.returned {} (some err), w)
  | .ok pod =>
    let w1 :=
      if gs.Name ∈ w.podsUnderCreation then
        { w with podsUnderCreation := w.podsUnderCreation.filter (fun k => k ≠ gs.Name) }
      else w
    reconcileFoundPod env gs pod w1

/-- Embedding of `GameServerReconciler.Reconcile`. The object that `r.Get` fetches
under `req.NamespacedName` carries that name and namespace. -/
def GameServerReconciler.Reconcile (env : GameServerEnv) (req : Request)
    (w : GameServerWorld) : Outcome × GameServerWorld :=
  match env.getGameServer with
  | .error err =>
    if IsNotFound err then (.returned {} none, w) else (.returned {} (some err), w)
  | .ok obj =>
    let gs : GameServer := { obj with Name := req.Name, Namespace := req.Namespace }
    if IsZero gs.DeletionTimestamp then
      -- The object is not being deleted
      if !containsString gs.Finalizers finalizerName then
        let gs1 : GameServer := { gs with Finalizers := AddFinalizer gs.Finalizers finalizerName }
        (.returned {} (env.update gs1), { w with actions := w.actions ++ [.Update gs1] })
      else reconcilePod env gs w
    else
      -- The object is being deleted
      if containsString gs.Finalizers finalizerName then
        let gs1 : GameServer :=
          { gs with Finalizers := RemoveFinalizer gs.Finalizers finalizerName }
        (.returned {} (env.update gs1),
          { w with actions := w.actions ++
              [.DeregisterServerPorts (hostPortsToRelease gs), .Update gs1] })
      else (.returned {} none, w)

/-- A run of instance passes for the same request, one per element of `envs`, each
against its own answers of the outside world. -/
def GameServerReconciler.reconcileAll (req : Request) :
    List GameServerEnv → GameServerWorld → GameServerWorld
  | [], w => w
  | env :: rest, w =>
    GameServerReconciler.reconcileAll req rest (GameServerReconciler.Reconcile env req w).2

/-! ## Sample data for the instance reconciler -/

/-- The pod template of the sample instance: a container `game` with three ports,
of which `gameport` and `query` are exposed and hold the host ports 10000 and
10001. -/
def gamePodSpec : PodSpec :=
  { Containers := [{ Name := "game", Ports :=
      [{ Name := "gameport", ContainerPort := 80, HostPort := 10000 },
       { Name := "debug", ContainerPort := 8080 },
       { Name := "query", ContainerPort := 27015, HostPort := 10001 }] }] }

/-- Sample instance: finalizer present, not being deleted, no state yet. -/
def gameInstance : GameServer :=
  { Name := "fleet-aaaaa", Namespace := "default", Owner := "fleet"
    Labels := [("BuildID", "b1"), ("BuildName", "fleet")]
    Finalizers := [finalizerName]
    Spec := { PodSpec := gamePodSpec, BuildID := "b1"
              PortsToExpose := [{ ContainerName := "game", PortName := "gameport" },
                                { ContainerName := "game", PortName := "query" }] } }

/-- The sample instance once the API server has marked it for deletion. -/
def deletingInstance : GameServer :=
  { gameInstance with DeletionTimestamp := some 1700000000 }

/-- The request for the sample instance. -/
def instanceReq : Request := { Namespace := "default", Name := "fleet-aaaaa" }

/-- An API in which every call of an instance pass succeeds: the instance and the
pod are as given, and every node resolves to the address 20.0.0.1. -/
def instanceApiOf (gs : GameServer) (pod : Except GoError Pod) : GameServerEnv :=
  { getGameServer := .ok gs
    getPod := pod
    update := fun _ => none
    createPod := fun _ => none
    updatePod := fun _ => none
    statusUpdate := fun _ => none
    getPublicIpForNode := fun _ => ("20.0.0.1", none) }

/-- The pod of the sample instance as the cache shows it once it runs on a node:
the game container and the sidecar are ready. -/
def runningPod : Pod :=
  { NewPodForGameServer gameInstance with
    Spec := { (NewPodForGameServer gameInstance).Spec with NodeName := "node-1" }
    ContainerStatuses := [{ Name := SidecarContainerName, Ready := true },
                          { Name := "game", Ready := true }] }

/-- The pod of the sample instance after the game process exited with code 1. -/
def crashedPod : Pod :=
  { runningPod with
    ContainerStatuses := [{ Name := SidecarContainerName, Ready := true },
                          { Name := "game", Ready := false, Terminated := some 1 }] }

/-- The pod of the sample instance after only the sidecar terminated. -/
def sidecarExitedPod : Pod :=
  { runningPod with
    ContainerStatuses := [{ Name := SidecarContainerName, Ready := false, Terminated := some 0 },
                          { Name := "game", Ready := true }] }

/-- A node that lists its internal address before its external one. -/
def sampleAddresses : List NodeAddress :=
  [{ AddressType := "Hostname", Address := "node-1" },
   { AddressType := NodeInternalIP, Address := "10.0.0.4" },
   { AddressType := NodeExternalIP, Address := "20.0.0.1" }]

/-- The host ports an instance holds, in the words of the specification: the host
port of every container port whose (container name, port name) is listed in the
instance's ports-to-expose, in container order then port order. -/
def exposedHostPorts (gs : GameServer) : List Int :=
  gs.Spec.PodSpec.Containers.flatMap (fun c =>
    (c.Ports.filter (fun p =>
      decide (∃ e ∈ gs.Spec.PortsToExpose, e.ContainerName = c.Name ∧ e.PortName = p.Name))).map
      (fun p => p.HostPort))

/-- A pod with a game container (80 on host port 10000, 8080 on host port 10001)
and the sidecar with a port of its own. -/
def tuplesPod : Pod :=
  { Name := "fleet-aaaaa"
    Spec := { NodeName := "node-1", Containers :=
      [{ Name := "game", Ports :=
          [{ Name := "gameport", ContainerPort := 80, HostPort := 10000 },
           { Name := "debug", ContainerPort := 8080, HostPort := 10001 }] },
       { Name := SidecarContainerName, Ports :=
          [{ Name := "sidecar", ContainerPort := 56001, HostPort := 56001 }] }] } }

/-- An instance pass in which the instance is fetched, is not being deleted, carries
the finalizer, and its pod is absent from the cache (`r.Get` answers NotFound). -/
def PodAbsent (env : GameServerEnv) : Prop :=
  ∃ obj err, env.getGameServer = .ok obj ∧ obj.DeletionTimestamp = none ∧
    finalizerName ∈ obj.Finalizers ∧ env.getPod = .error err ∧ IsNotFound err = true

/-- The sample instance on an API server that refuses to create pods, the pod being
absent from the cache. -/
def createFailsApi : GameServerEnv :=
  { (instanceApiOf gameInstance (.error .NotFound)) with
    createPod := fun _ => some GoError.Other }

/-- The sample instance while its pod is absent from the cache, every call
succeeding. -/
def podAbsentApi : GameServerEnv := instanceApiOf gameInstance (.error .NotFound)

/-- Modelled from the spec: the Port Registry (`PortRegistry`, declared in a file
that is not among the sources), "a bounded set of host ports": `HostPorts` are the
ports currently assigned, out of the range `[Min, Max)`. -/
structure PortRegistry where
  Min : Int := MinPort
  Max : Int := MaxPort
  HostPorts : List Int := []
  deriving DecidableEq, Repr

/-- Modelled from the spec: the search of `Allocate` for a currently unassigned
port, here first-free among the `remaining` ports from `port` upwards (the spec
leaves the policy open; the proofs use only that the port found is unassigned and
in range). -/
def PortRegistry.firstFree (assigned : List Int) : Nat → Int → Option Int
  | 0, _ => none
  | remaining + 1, port =>
    if port ∈ assigned then PortRegistry.firstFree assigned remaining (port + 1)
    else some port

/-- Modelled from the spec: `Allocate() → port | ExhaustedError`, called
`GetNewPort` by `NewGameServerForGameServerBuild`: "returns one
currently-unassigned port in `[MinPort, MaxPort)`", which becomes assigned. -/
def PortRegistry.GetNewPort (pr : PortRegistry) : Except GoError Int × PortRegistry :=
  match PortRegistry.firstFree pr.HostPorts (pr.Max - pr.Min).toNat pr.Min with
  | some port => (.ok port, { pr with HostPorts := port :: pr.HostPorts })
  | none => (.error .Other, pr)

/-- Modelled from the spec: `Release(ports)`, called `DeregisterServerPorts` by
`unassignPorts`: "marks the given ports free again"; a port that is free or unknown
is ignored. -/
def PortRegistry.DeregisterServerPorts (pr : PortRegistry) (ports : List Int) :
    PortRegistry :=
  { pr with HostPorts := pr.HostPorts.filter (fun p => p ∉ ports) }

/-- A call on the port registry. -/
inductive RegistryCall where
  | GetNewPort
  | DeregisterServerPorts (ports : List Int)
  deriving DecidableEq, Repr

/-- Modelled from the spec: "allocation and release must each be atomic with
respect to each other", so the calls of concurrent reconciliations take effect one
after another in some order: the registry after the calls `calls`, in that order. -/
def PortRegistry.run (pr : PortRegistry) : List RegistryCall → PortRegistry
  | [] => pr
  | .GetNewPort :: rest => PortRegistry.run pr.GetNewPort.2 rest
  | .DeregisterServerPorts ports :: rest =>
    PortRegistry.run (pr.DeregisterServerPorts ports) rest

/-- The answer to the call of `GetNewPort` that follows `n` earlier ones by the
same caller, no other call coming in between. -/
def PortRegistry.serve (pr : PortRegistry) : Nat → Except GoError Int × PortRegistry
  | 0 => pr.GetNewPort
  | n + 1 => PortRegistry.serve pr.GetNewPort.2 n

/-- The registry as the port oracle of one `NewGameServerForGameServerBuild` call. -/
def PortRegistry.oracle (pr : PortRegistry) : PortOracle :=
  fun n => (pr.serve n).1

/-- The host ports `allocated` are the answers of the oracle, in order. -/
def ServedBy (getNewPort : PortOracle) (allocated : List Int) : Prop :=
  ∀ i p, allocated[i]? = some p → getNewPort i = .ok p

/-- Modelled from the spec: the answers to the `GetNewPort` calls among `calls`, in
order, the calls taking effect one after another. -/
def PortRegistry.answers (pr : PortRegistry) : List RegistryCall → List (Except GoError Int)
  | [] => []
  | .GetNewPort :: rest => pr.GetNewPort.1 :: PortRegistry.answers pr.GetNewPort.2 rest
  | .DeregisterServerPorts ports :: rest =>
    PortRegistry.answers (pr.DeregisterServerPorts ports) rest

/-- Modelled from the spec: the registry as the port oracle of one
`NewGameServerForGameServerBuild` call that runs concurrently with other callers.
`calls` are the calls of all callers in the order they take effect, and the `n`-th
`GetNewPort` call of this construction is the `pos n`-th `GetNewPort` call among
them. -/
def PortRegistry.oracleAt (pr : PortRegistry) (calls : List RegistryCall) (pos : Nat → Nat) :
    PortOracle :=
  fun n => ((pr.answers calls)[pos n]?).getD (.error .Other)

/-- No release among `calls` names the port returned by the `k`-th `GetNewPort` call
among them after that call took effect. -/
def Unreleased (pr : PortRegistry) (calls : List RegistryCall) (k : Nat) : Prop :=
  ∀ c1 c2 p, calls = c1 ++ RegistryCall.GetNewPort :: c2 →
    c1.count RegistryCall.GetNewPort = k → (pr.run c1).GetNewPort.1 = .ok p →
    ∀ ports, RegistryCall.DeregisterServerPorts ports ∈ c2 → p ∉ ports

/-- Calls of two concurrent constructions that take their ports in turn, with the
release of a port outside the range in between. -/
def interleavedCalls : List RegistryCall :=
  [.GetNewPort, .GetNewPort, .DeregisterServerPorts [60000], .GetNewPort, .GetNewPort]

/-- A fleet whose template has a game container with two exposed ports. -/
def twoPortFleet : GameServerBuild :=
  { Name := "fleet", Namespace := "default"
    Spec := { StandingBy := 2, Max := 4, CrashesToMarkUnhealthy := 5
              PodSpec := { Containers := [{ Name := "game", Ports :=
                [{ Name := "gameport", ContainerPort := 80 },
                 { Name := "query", ContainerPort := 27015 }] }] }
              PortsToExpose := [{ ContainerName := "game", PortName := "gameport" },
                                { ContainerName := "game", PortName := "query" }] } }

/-- The calls on the port registry among the calls of instance passes, in order. -/
def registryCallsOf : List Action → List RegistryCall
  | [] => []
  | .DeregisterServerPorts ports :: rest =>
    .DeregisterServerPorts ports :: registryCallsOf rest
  | _ :: rest => registryCallsOf rest

/-- The passes for the instance `gs` once it carries the finalizer and has been
marked for deletion, on an API server that refuses the update that would remove the
finalizer. -/
def releaseRefusedApi (gs : GameServer) : GameServerEnv :=
  { (instanceApiOf
      { gs with Finalizers := [finalizerName], DeletionTimestamp := some 1700000000 }
      (.error .NotFound)) with
    update := fun _ => some GoError.Other }

/-! ## Ledger lemmas -/

theorem Ledger.set_same (l : Ledger) (key : String) (v : List String) :
    (l.set key v) key = some v := by
  simp [Ledger.set]

theorem Ledger.del_same (l : Ledger) (key : String) : (l.del key) key = none := by
  simp [Ledger.del]

theorem mem_insertName (v : List String) (a b : String) :
    a ∈ insertName v b ↔ a ∈ v ∨ a = b := by
  unfold insertName
  split
  · constructor
    · intro h; exact Or.inl h
    · rintro (h | h)
      · exact h
      · subst h; assumption
  · simp

theorem underDeletionLoop_eq_filter (get : String → Option GoError) (P : List String)
    (hget : ∀ k ∈ P, get k = none ∨ get k = some .NotFound) :
    underDeletionLoop get P = (P.filter (fun k => get k = none), none) := by
  induction P with
  | nil => rfl
  | cons k ks ih =>
    have ih1 := ih (fun x hx => hget x (List.mem_cons_of_mem _ hx))
    rcases hget k (List.mem_cons_self _ _) with h | h
    · simp [underDeletionLoop, h, ih1]
    · simp [underDeletionLoop, h, ih1, IsNotFound]

theorem underCreationLoop_all_found (get : String → Option GoError) (P : List String)
    (h : ∀ k ∈ P, get k = none) : underCreationLoop get P = ([], .finished) := by
  induction P with
  | nil => rfl
  | cons k ks ih =>
    simp [underCreationLoop, h k (List.mem_cons_self _ _),
      ih (fun x hx => h x (List.mem_cons_of_mem _ hx))]

theorem underCreationLoop_some_missing (get : String → Option GoError) (P : List String)
    (h : ∃ k ∈ P, get k ≠ none) :
    ∃ rest err, underCreationLoop get P = (rest, .stopped err) ∧
      (∀ k ∈ P, get k ≠ none → k ∈ rest) ∧
      ((∀ k ∈ P, get k = none ∨ get k = some .NotFound) → err = none) := by
  induction P with
  | nil => simp at h
  | cons k ks ih =>
    cases hk : get k with
    | some e =>
      by_cases hnf : IsNotFound e = true
      · refine ⟨k :: ks, none, by simp [underCreationLoop, hk, hnf], fun x hx _ => hx, fun _ => rfl⟩
      · refine ⟨k :: ks, some e, by simp [underCreationLoop, hk, hnf], fun x hx _ => hx, ?_⟩
        intro hall
        rcases hall k (List.mem_cons_self _ _) with h0 | h0
        · rw [hk] at h0; cases h0
        · rw [hk] at h0; cases h0; simp [IsNotFound] at hnf
    | none =>
      have h1 : ∃ x ∈ ks, get x ≠ none := by
        obtain ⟨x, hx, hne⟩ := h
        rcases List.mem_cons.1 hx with rfl | hx
        · exact absurd hk hne
        · exact ⟨x, hx, hne⟩
      obtain ⟨rest, err, he, hm, hn⟩ := ih h1
      refine ⟨rest, err, ?_, ?_, ?_⟩
      · simp [underCreationLoop, hk, he]
      · intro x hx hne
        rcases List.mem_cons.1 hx with rfl | hx
        · exact absurd hk hne
        · exact hm x hx hne
      · intro hall
        exact hn (fun x hx => hall x (List.mem_cons_of_mem _ hx))

theorem gameServersUnderCreationWereCreated_found (get : String → Option GoError)
    (led : Ledger) (name : String) (P : List String) (hP : led name = some P)
    (hall : ∀ k ∈ P, get k = none) :
    gameServersUnderCreationWereCreated get led name = ((true, none), led.del name) := by
  unfold gameServersUnderCreationWereCreated
  rw [hP]
  simp [underCreationLoop_all_found get P hall]

theorem gameServersUnderCreationWereCreated_missing (get : String → Option GoError)
    (led : Ledger) (name : String) (P : List String) (hP : led name = some P)
    (hmiss : ∃ k ∈ P, get k ≠ none) :
    ∃ rest err, gameServersUnderCreationWereCreated get led name
        = ((false, err), led.set name rest) ∧
      (∀ k ∈ P, get k ≠ none → k ∈ rest) ∧
      ((∀ k ∈ P, get k = none ∨ get k = some .NotFound) → err = none) := by
  obtain ⟨rest, err, he, hm, hn⟩ := underCreationLoop_some_missing get P hmiss
  refine ⟨rest, err, ?_, hm, hn⟩
  unfold gameServersUnderCreationWereCreated
  rw [hP]
  simp [he]

/-! ## Frame lemmas for the steps of a pass -/

theorem deletesOnly_refl (P : GameServer → Prop) (w : World) : DeletesOnly P w w :=
  ⟨rfl, rfl, rfl, rfl, [], by simp, by simp⟩

theorem deletesOnly_trans {P : GameServer → Prop} {w w1 w2 : World}
    (h1 : DeletesOnly P w w1) (h2 : DeletesOnly P w1 w2) : DeletesOnly P w w2 := by
  obtain ⟨a1, b1, c1, d1, n1, e1, p1⟩ := h1
  obtain ⟨a2, b2, c2, d2, n2, e2, p2⟩ := h2
  refine ⟨a2.trans a1, b2.trans b1, c2.trans c1, d2.trans d1, n1 ++ n2, ?_, ?_⟩
  · rw [e2, e1, List.append_assoc]
  · intro gs hgs
    rcases List.mem_append.1 hgs with h | h
    · exact p1 gs h
    · exact p2 gs h

theorem deletesOnly_mono {P Q : GameServer → Prop} {w w1 : World}
    (hPQ : ∀ gs, P gs → Q gs) (h : DeletesOnly P w w1) : DeletesOnly Q w w1 := by
  obtain ⟨a1, b1, c1, d1, n1, e1, p1⟩ := h
  exact ⟨a1, b1, c1, d1, n1, e1, fun gs hgs => hPQ gs (p1 gs hgs)⟩

theorem deletesOnly_events (P : GameServer → Prop) (w : World) (ev : List String) :
    DeletesOnly P w { w with events := ev } :=
  ⟨rfl, rfl, rfl, rfl, [], by simp, by simp⟩

theorem deleteGameServer_frame (env : Env) (gsbName : String) (gs : GameServer)
    (event : Option String) (w : World) (P : GameServer → Prop) (hP : P gs) :
    DeletesOnly P w (deleteGameServer env gsbName gs event w).2 := by
  unfold deleteGameServer
  cases env.delete w.deleted.length gs with
  | some err => exact deletesOnly_refl P w
  | none => exact ⟨rfl, rfl, rfl, rfl, [gs], rfl, by simpa using hP⟩

theorem deleteGameServer_ok (env : Env) (gsbName : String) (gs : GameServer)
    (event : Option String) (w : World) (hdel : ∀ n g, env.delete n g = none) :
    (deleteGameServer env gsbName gs event w).1 = none := by
  unfold deleteGameServer
  rw [hdel]

theorem tallyLoop_frame (env : Env) (gsbName : String) (items : List GameServer) :
    ∀ (c : Counts) (w : World),
      DeletesOnly (fun gs => gs ∈ items ∧ (gs.Status.State = GameServerStateCrashed ∨
          gs.Status.State = GameServerStateGameCompleted))
        w (tallyLoop env gsbName items c w).2.2 := by
  induction items with
  | nil => intro c w; exact deletesOnly_refl _ w
  | cons gs rest ih =>
    intro c w
    have ih1 : ∀ (c : Counts) (w : World),
        DeletesOnly (fun g => g ∈ gs :: rest ∧ (g.Status.State = GameServerStateCrashed ∨
          g.Status.State = GameServerStateGameCompleted))
        w (tallyLoop env gsbName rest c w).2.2 :=
      fun c w => deletesOnly_mono (fun g hg => ⟨List.mem_cons_of_mem _ hg.1, hg.2⟩) (ih c w)
    unfold tallyLoop
    split
    · exact ih1 _ _
    · split
      · exact ih1 _ _
      · split
        · exact ih1 _ _
        · split
          · rename_i hcr
            have hd := deleteGameServer_frame env gsbName gs (some "Crashed") w
              (fun g => g ∈ gs :: rest ∧ (g.Status.State = GameServerStateCrashed ∨
                g.Status.State = GameServerStateGameCompleted))
              ⟨List.mem_cons_self _ _, Or.inl hcr⟩
            split
            · rename_i e w1 heq
              rw [heq] at hd
              exact hd
            · rename_i w1 heq
              rw [heq] at hd
              exact deletesOnly_trans hd (ih1 _ _)
          · split
            · rename_i hgc
              have hd := deleteGameServer_frame env gsbName gs (some "Exited") w
                (fun g => g ∈ gs :: rest ∧ (g.Status.State = GameServerStateCrashed ∨
                  g.Status.State = GameServerStateGameCompleted))
                ⟨List.mem_cons_self _ _, Or.inr hgc⟩
              split
              · rename_i e w1 heq
                rw [heq] at hd
                exact hd
              · rename_i w1 heq
                rw [heq] at hd
                exact deletesOnly_trans hd (ih1 _ _)
            · exact ih1 _ _

theorem deleteLoop_frame (env : Env) (gsbName : String) (event : Option String)
    (items : List GameServer) :
    ∀ (remaining i : Nat) (d : Int) (w : World),
      DeletesOnly (fun gs => gs ∈ items ∧ (gs.Status.State = "" ∨
          gs.Status.State = GameServerStateStandingBy))
        w (deleteLoop env gsbName event items remaining i d w).2.2 := by
  intro remaining
  induction remaining with
  | zero => intro i d w; exact deletesOnly_refl _ w
  | succ r ih =>
    intro i d w
    unfold deleteLoop
    split
    · exact deletesOnly_refl _ w
    · rename_i gs hgs
      have hmem : gs ∈ items := List.getElem?_mem hgs
      split
      · rename_i hel
        have hd := deleteGameServer_frame env gsbName gs event w
          (fun g => g ∈ items ∧ (g.Status.State = "" ∨
            g.Status.State = GameServerStateStandingBy)) ⟨hmem, hel⟩
        split
        · rename_i e w1 heq
          rw [heq] at hd
          exact hd
        · rename_i w1 heq
          rw [heq] at hd
          exact deletesOnly_trans hd (ih _ _ _)
      · exact ih _ _ _

theorem passEffects_refl (P : GameServer → Prop) (name : String) (w : World) :
    PassEffects P name w w :=
  ⟨⟨[], by simp, by simp⟩, fun _ h => h, ⟨[], by simp, by simp⟩⟩

theorem passEffects_trans {P : GameServer → Prop} {name : String} {w w1 w2 : World}
    (h1 : PassEffects P name w w1) (h2 : PassEffects P name w1 w2) :
    PassEffects P name w w2 := by
  obtain ⟨⟨d1, hd1, hp1⟩, m1, ⟨c1, hc1, hn1⟩⟩ := h1
  obtain ⟨⟨d2, hd2, hp2⟩, m2, ⟨c2, hc2, hn2⟩⟩ := h2
  refine ⟨⟨d1 ++ d2, ?_, ?_⟩, fun n hn => m2 n (m1 n hn), ⟨c1 ++ c2, ?_, ?_⟩⟩
  · rw [hd2, hd1, List.append_assoc]
  · intro gs hgs
    rcases List.mem_append.1 hgs with h | h
    · exact hp1 gs h
    · exact hp2 gs h
  · rw [hc2, hc1, List.append_assoc]
  · intro gs hgs
    rcases List.mem_append.1 hgs with h | h
    · exact m2 _ (hn1 gs h)
    · exact hn2 gs h

theorem passEffects_of_deletesOnly {P : GameServer → Prop} (name : String) {w w1 : World}
    (h : DeletesOnly P w w1) : PassEffects P name w w1 := by
  obtain ⟨hc, hl, _, _, hd⟩ := h
  refine ⟨hd, ?_, ⟨[], by simp [hc], by simp⟩⟩
  rw [hl]
  exact fun _ hn => hn

theorem passEffects_mono {P Q : GameServer → Prop} {name : String} {w w1 : World}
    (hPQ : ∀ gs, P gs → Q gs) (h : PassEffects P name w w1) : PassEffects Q name w w1 := by
  obtain ⟨⟨d1, hd1, hp1⟩, m1, hc⟩ := h
  exact ⟨⟨d1, hd1, fun gs hgs => hPQ gs (hp1 gs hgs)⟩, m1, hc⟩

theorem standingByReduction_frame (env : Env) (gsb : GameServerBuild)
    (items : List GameServer) (c : Counts) (w : World) :
    DeletesOnly (fun gs => gs ∈ items ∧ (gs.Status.State = "" ∨
        gs.Status.State = GameServerStateStandingBy))
      w (standingByReduction env gsb items c w).2 := by
  unfold standingByReduction
  split
  · have h := deleteLoop_frame env gsb.Name (some "GameServer deleted") items
      (c.standingByCount - gsb.Spec.StandingBy).toNat 0 0 w
    split
    · rename_i o d w1 heq
      rw [heq] at h
      exact h
    · rename_i d w1 heq
      rw [heq] at h
      split
      · exact deletesOnly_trans h (deletesOnly_events _ _ _)
      · exact h
  · exact deletesOnly_refl _ w

theorem maxCap_frame (env : Env) (gsb : GameServerBuild)
    (items : List GameServer) (c : Counts) (w : World) :
    DeletesOnly (fun gs => gs ∈ items ∧ (gs.Status.State = "" ∨
        gs.Status.State = GameServerStateStandingBy))
      w (maxCap env gsb items c w).2 := by
  unfold maxCap
  split
  · have h := deleteLoop_frame env gsb.Name none items
      (c.standingByCount + c.activeCount - gsb.Spec.Max + 1).toNat 0 0 w
    split
    · rename_i o d w1 heq
      rw [heq] at h
      exact h
    · rename_i d w1 heq
      rw [heq] at h
      split
      · exact deletesOnly_trans h (deletesOnly_events _ _ _)
      · exact h
  · exact deletesOnly_refl _ w

theorem NewGameServerForGameServerBuild_gsb (gsb : GameServerBuild) (getNewPort : PortOracle)
    (allocated : List Int) (suffix : String) :
    (NewGameServerForGameServerBuild gsb getNewPort allocated suffix).2.1.Name = gsb.Name ∧
    (NewGameServerForGameServerBuild gsb getNewPort allocated suffix).2.1.Spec.Max
      = gsb.Spec.Max := by
  unfold NewGameServerForGameServerBuild
  dsimp only
  split <;> simp

theorem createLoop_effects (env : Env) (c : Counts) (P : GameServer → Prop) :
    ∀ (remaining i : Nat) (gsb : GameServerBuild) (w : World),
      PassEffects P gsb.Name w (createLoop env c remaining i gsb w).2.2 := by
  intro remaining
  induction remaining with
  | zero => intro i gsb w; exact passEffects_refl _ _ w
  | succ r ih =>
    intro i gsb w
    unfold createLoop
    split
    · have hg := NewGameServerForGameServerBuild_gsb gsb env.getNewPort w.allocated
        (env.randString i)
      split
      · exact ⟨⟨[], by simp, by simp⟩, fun _ h => h, ⟨[], by simp, by simp⟩⟩
      · rename_i newgs gsb1 allocated1 heq
        rw [heq] at hg
        simp only at hg
        split
        · exact ⟨⟨[], by simp, by simp⟩, fun _ h => h, ⟨[], by simp, by simp⟩⟩
        · have h2 := ih (i + 1) gsb1
            { w with
              allocated := allocated1
              created := w.created ++ [newgs]
              gameServersUnderCreation :=
                addGameServerToUnderCreationMap w.gameServersUnderCreation gsb.Name newgs.Name
              events := w.events ++ ["Creating"] }
          rw [hg.1] at h2
          refine passEffects_trans ?_ h2
          refine ⟨⟨[], by simp, by simp⟩, ?_, ⟨[newgs], rfl, ?_⟩⟩
          · intro n hn
            simp only [Ledger.pending, addGameServerToUnderCreationMap, Ledger.set_same,
              Option.getD_some] at hn ⊢
            exact (mem_insertName _ _ _).2 (Or.inl hn)
          · intro gs hgs
            rw [List.mem_singleton] at hgs
            subst hgs
            simp only [Ledger.pending, addGameServerToUnderCreationMap, Ledger.set_same,
              Option.getD_some]
            exact (mem_insertName _ _ _).2 (Or.inr rfl)
    · exact passEffects_refl _ _ w

theorem updateStatus_frame (env : Env) (gsb : GameServerBuild) (i s a cr : Int) (w : World) :
    (updateStatus env gsb i s a cr w).2.deleted = w.deleted ∧
    (updateStatus env gsb i s a cr w).2.created = w.created ∧
    (updateStatus env gsb i s a cr w).2.gameServersUnderCreation = w.gameServersUnderCreation ∧
    (updateStatus env gsb i s a cr w).2.gameServersUnderDeletion
      = w.gameServersUnderDeletion := by
  unfold updateStatus
  split
  · dsimp only
    split
    · split <;> simp
    · simp
  · simp

theorem updateStatus_effects (env : Env) (gsb : GameServerBuild) (i s a cr : Int) (w : World)
    (P : GameServer → Prop) (name : String) :
    PassEffects P name w (updateStatus env gsb i s a cr w).2 := by
  obtain ⟨hd, hc, hl, _⟩ := updateStatus_frame env gsb i s a cr w
  refine ⟨⟨[], by simp [hd], by simp⟩, ?_, ⟨[], by simp [hc], by simp⟩⟩
  rw [hl]
  exact fun _ h => h

theorem scale_effects (env : Env) (gsb : GameServerBuild) (items : List GameServer)
    (c : Counts) (w : World) :
    PassEffects (fun gs => gs ∈ items ∧ (gs.Status.State = "" ∨
        gs.Status.State = GameServerStateStandingBy))
      gsb.Name w (scale env gsb items c w).2 := by
  unfold scale
  have h6 := passEffects_of_deletesOnly gsb.Name (standingByReduction_frame env gsb items c w)
  split
  · rename_i o w1 heq
    rw [heq] at h6
    exact h6
  · rename_i w1 heq
    rw [heq] at h6
    have h7 := passEffects_of_deletesOnly gsb.Name (maxCap_frame env gsb items c w1)
    split
    · rename_i o w2 heq2
      rw [heq2] at h7
      exact passEffects_trans h6 h7
    · rename_i w2 heq2
      rw [heq2] at h7
      have h8 := createLoop_effects env c (fun gs => gs ∈ items ∧ (gs.Status.State = "" ∨
        gs.Status.State = GameServerStateStandingBy))
        (gsb.Spec.StandingBy - c.standingByCount).toNat 0 gsb w2
      split
      · rename_i o gsb1 w3 heq3
        rw [heq3] at h8
        exact passEffects_trans (passEffects_trans h6 h7) h8
      · rename_i gsb1 w3 heq3
        rw [heq3] at h8
        exact passEffects_trans (passEffects_trans (passEffects_trans h6 h7) h8)
          (updateStatus_effects _ _ _ _ _ _ _ _ _)

theorem reconcileListed_effects (env : Env) (gsb : GameServerBuild)
    (items : List GameServer) (w : World) :
    PassEffects (fun gs => gs ∈ items ∧ Deletable gs) gsb.Name w
      (reconcileListed env gsb items w).2 := by
  unfold reconcileListed
  have h1 : PassEffects (fun gs => gs ∈ items ∧ Deletable gs) gsb.Name w
      (tallyLoop env gsb.Name items {} w).2.2 :=
    passEffects_mono (fun gs h => ⟨h.1, Or.inr (Or.inr h.2)⟩)
      (passEffects_of_deletesOnly gsb.Name (tallyLoop_frame env gsb.Name items {} w))
  split
  · rename_i o c w1 heq
    rw [heq] at h1
    exact h1
  · rename_i c w1 heq
    rw [heq] at h1
    split
    · exact passEffects_trans h1 (updateStatus_effects _ _ _ _ _ _ _ _ _)
    · refine passEffects_trans h1 (passEffects_mono ?_ (scale_effects env gsb items c w1))
      rintro gs ⟨hm, h | h⟩
      · exact ⟨hm, Or.inl h⟩
      · exact ⟨hm, Or.inr (Or.inl h)⟩

theorem Reconcile_effects (env : Env) (req : Request) (w : World) :
    (∃ newD, (Reconcile env req w).2.deleted = w.deleted ++ newD ∧
      ∀ gs ∈ newD, (∀ items, env.list = .ok items → gs ∈ items) ∧ Deletable gs) ∧
    (∃ newC, (Reconcile env req w).2.created = w.created ++ newC ∧
      ∀ gs ∈ newC, gs.Name ∈ (Reconcile env req w).2.gameServersUnderCreation.pending
        req.Name) := by
  unfold Reconcile
  split
  · split <;> exact ⟨⟨[], by simp, by simp⟩, ⟨[], by simp, by simp⟩⟩
  · dsimp only
    split
    · exact ⟨⟨[], by simp, by simp⟩, ⟨[], by simp, by simp⟩⟩
    · split
      · exact ⟨⟨[], by simp, by simp⟩, ⟨[], by simp, by simp⟩⟩
      · split
        · exact ⟨⟨[], by simp, by simp⟩, ⟨[], by simp, by simp⟩⟩
        · split
          · exact ⟨⟨[], by simp, by simp⟩, ⟨[], by simp, by simp⟩⟩
          · split
            · exact ⟨⟨[], by simp, by simp⟩, ⟨[], by simp, by simp⟩⟩
            · split
              · exact ⟨⟨[], by simp, by simp⟩, ⟨[], by simp, by simp⟩⟩
              · rename_i gameServers hl
                obtain ⟨⟨newD, hd, hp⟩, _, hc⟩ := reconcileListed_effects env _ gameServers _
                refine ⟨⟨newD, hd, fun gs hgs => ⟨?_, (hp gs hgs).2⟩⟩, hc⟩
                intro items hitems
                rw [hl] at hitems
                cases hitems
                exact (hp gs hgs).1

theorem Reconcile_waits_for_creations (env : Env) (req : Request) (w : World)
    (h : ∃ n ∈ w.gameServersUnderCreation.pending req.Name, env.getGameServer n ≠ none) :
    (Reconcile env req w).2.created = w.created ∧
    (Reconcile env req w).2.deleted = w.deleted := by
  obtain ⟨n, hn, hne⟩ := h
  cases hP : w.gameServersUnderCreation req.Name with
  | none => simp [Ledger.pending, hP] at hn
  | some P =>
    have hnP : n ∈ P := by simpa [Ledger.pending, hP] using hn
    obtain ⟨rest, err, he, _, _⟩ := gameServersUnderCreationWereCreated_missing
      env.getGameServer w.gameServersUnderCreation req.Name P hP ⟨n, hnP, hne⟩
    unfold Reconcile
    split
    · split <;> exact ⟨rfl, rfl⟩
    · dsimp only
      split
      · exact ⟨rfl, rfl⟩
      · split
        · exact ⟨rfl, rfl⟩
        · split
          · exact ⟨rfl, rfl⟩
          · rw [he]
            cases err with
            | some e => exact ⟨rfl, rfl⟩
            | none => exact ⟨rfl, rfl⟩

/-! ## The pass when every call succeeds -/

theorem assignPortsOfContainer_ok (getNewPort : PortOracle) (exp : List PortToExpose)
    (containerName : String) (hport : ∀ n, ∃ p, getNewPort n = .ok p) :
    ∀ (ports : List ContainerPort) (allocated : List Int),
      (assignPortsOfContainer getNewPort exp containerName ports allocated).2.2 = none := by
  intro ports
  induction ports with
  | nil => intro allocated; rfl
  | cons p ps ih =>
    intro allocated
    unfold assignPortsOfContainer
    split
    · obtain ⟨port, hp⟩ := hport allocated.length
      rw [hp]
      exact ih _
    · exact ih _

theorem assignPortsOfContainers_ok (getNewPort : PortOracle) (exp : List PortToExpose)
    (hport : ∀ n, ∃ p, getNewPort n = .ok p) :
    ∀ (cs : List Container) (allocated : List Int),
      (assignPortsOfContainers getNewPort exp cs allocated).2.2 = none := by
  intro cs
  induction cs with
  | nil => intro allocated; rfl
  | cons c cs ih =>
    intro allocated
    unfold assignPortsOfContainers
    have h := assignPortsOfContainer_ok getNewPort exp c.Name hport c.Ports allocated
    split
    · rename_i ports allocated1 err heq
      rw [heq] at h
      cases h
    · exact ih _

theorem NewGameServerForGameServerBuild_ok (gsb : GameServerBuild) (getNewPort : PortOracle)
    (allocated : List Int) (suffix : String) (hport : ∀ n, ∃ p, getNewPort n = .ok p) :
    ∃ gs, (NewGameServerForGameServerBuild gsb getNewPort allocated suffix).1 = .ok gs ∧
      gs.Name = generateName gsb.Name suffix := by
  unfold NewGameServerForGameServerBuild
  dsimp only
  rw [assignPortsOfContainers_ok getNewPort _ hport]
  exact ⟨_, rfl, rfl⟩

theorem createLoop_count (env : Env) (c : Counts)
    (hport : ∀ n, ∃ p, env.getNewPort n = .ok p) (hcr : ∀ n gs, env.create n gs = none) :
    ∀ (remaining i : Nat) (gsb : GameServerBuild) (w : World),
      (createLoop env c remaining i gsb w).1 = none ∧
      ∃ new, (createLoop env c remaining i gsb w).2.2.created = w.created ++ new ∧
        (new.length : Int) = max 0 (min (remaining : Int)
          (gsb.Spec.Max - ((i : Int) + c.standingByCount + c.activeCount))) := by
  intro remaining
  induction remaining with
  | zero =>
    intro i gsb w
    refine ⟨rfl, [], by simp [createLoop], ?_⟩
    simp only [List.length_nil, Nat.cast_zero]
    omega
  | succ r ih =>
    intro i gsb w
    unfold createLoop
    split
    · rename_i hlt
      obtain ⟨gs, hgs, _⟩ := NewGameServerForGameServerBuild_ok gsb env.getNewPort w.allocated
        (env.randString i) hport
      have hg := NewGameServerForGameServerBuild_gsb gsb env.getNewPort w.allocated
        (env.randString i)
      split
      · rename_i err gsb1 allocated1 heq
        rw [heq] at hgs
        cases hgs
      · rename_i newgs gsb1 allocated1 heq
        rw [heq] at hg
        simp only at hg
        rw [hcr]
        dsimp only
        obtain ⟨ho, new, hnew, hlen⟩ := ih (i + 1) gsb1
          { w with
            allocated := allocated1
            created := w.created ++ [newgs]
            gameServersUnderCreation :=
              addGameServerToUnderCreationMap w.gameServersUnderCreation gsb.Name newgs.Name
            events := w.events ++ ["Creating"] }
        refine ⟨ho, newgs :: new, ?_, ?_⟩
        · rw [hnew]
          simp
        · rw [hg.2] at hlen
          simp only [List.length_cons, Nat.cast_add, Nat.cast_one] at hlen ⊢
          omega
    · rename_i hge
      refine ⟨rfl, [], by simp, ?_⟩
      simp only [List.length_nil, Nat.cast_zero, Nat.cast_add, Nat.cast_one]
      omega

theorem tallyLoop_counts (env : Env) (gsbName : String)
    (hdel : ∀ n gs, env.delete n gs = none) :
    ∀ (items : List GameServer) (c : Counts) (w : World),
      (tallyLoop env gsbName items c w).1 = none ∧
      (tallyLoop env gsbName items c w).2.1.initializingCount
        = c.initializingCount + countState items "" ∧
      (tallyLoop env gsbName items c w).2.1.standingByCount
        = c.standingByCount + countState items GameServerStateStandingBy ∧
      (tallyLoop env gsbName items c w).2.1.activeCount
        = c.activeCount + countState items GameServerStateActive ∧
      (tallyLoop env gsbName items c w).2.1.crashesCount
        = c.crashesCount + countState items GameServerStateCrashed := by
  intro items
  induction items with
  | nil => intro c w; simp [tallyLoop, countState]
  | cons gs rest ih =>
    intro c w
    unfold tallyLoop
    split
    · rename_i h
      obtain ⟨h0, h1, h2, h3, h4⟩ := ih { c with initializingCount := c.initializingCount + 1 } w
      refine ⟨h0, ?_, ?_, ?_, ?_⟩
      · rw [h1]; simp [countState, List.countP_cons, h]; omega
      · rw [h2]; simp [countState, List.countP_cons, h, GameServerStateStandingBy]
      · rw [h3]; simp [countState, List.countP_cons, h, GameServerStateActive]
      · rw [h4]; simp [countState, List.countP_cons, h, GameServerStateCrashed]
    · rename_i hne
      split
      · rename_i h
        obtain ⟨h0, h1, h2, h3, h4⟩ := ih { c with standingByCount := c.standingByCount + 1 } w
        refine ⟨h0, ?_, ?_, ?_, ?_⟩
        · rw [h1]; simp [countState, List.countP_cons, hne]
        · rw [h2]; simp [countState, List.countP_cons, h]; omega
        · rw [h3]; simp [countState, List.countP_cons, h, GameServerStateActive,
            GameServerStateStandingBy]
        · rw [h4]; simp [countState, List.countP_cons, h, GameServerStateCrashed,
            GameServerStateStandingBy]
      · rename_i hns
        split
        · rename_i h
          obtain ⟨h0, h1, h2, h3, h4⟩ := ih { c with activeCount := c.activeCount + 1 } w
          refine ⟨h0, ?_, ?_, ?_, ?_⟩
          · rw [h1]; simp [countState, List.countP_cons, hne]
          · rw [h2]; simp [countState, List.countP_cons, hns]
          · rw [h3]; simp [countState, List.countP_cons, h]; omega
          · rw [h4]; simp [countState, List.countP_cons, h, GameServerStateCrashed,
              GameServerStateActive]
        · rename_i hna
          split
          · rename_i h
            have hok := deleteGameServer_ok env gsbName gs (some "Crashed") w hdel
            split
            · rename_i e w1 heq
              rw [heq] at hok
              cases hok
            · rename_i w1 heq
              obtain ⟨h0, h1, h2, h3, h4⟩ := ih { c with crashesCount := c.crashesCount + 1 } w1
              refine ⟨h0, ?_, ?_, ?_, ?_⟩
              · rw [h1]; simp [countState, List.countP_cons, hne]
              · rw [h2]; simp [countState, List.countP_cons, hns]
              · rw [h3]; simp [countState, List.countP_cons, hna]
              · rw [h4]; simp [countState, List.countP_cons, h]; omega
          · rename_i hnc
            split
            · have hok := deleteGameServer_ok env gsbName gs (some "Exited") w hdel
              split
              · rename_i e w1 heq
                rw [heq] at hok
                cases hok
              · rename_i w1 heq
                obtain ⟨h0, h1, h2, h3, h4⟩ := ih c w1
                refine ⟨h0, ?_, ?_, ?_, ?_⟩
                · rw [h1]; simp [countState, List.countP_cons, hne]
                · rw [h2]; simp [countState, List.countP_cons, hns]
                · rw [h3]; simp [countState, List.countP_cons, hna]
                · rw [h4]; simp [countState, List.countP_cons, hnc]
            · obtain ⟨h0, h1, h2, h3, h4⟩ := ih c w
              refine ⟨h0, ?_, ?_, ?_, ?_⟩
              · rw [h1]; simp [countState, List.countP_cons, hne]
              · rw [h2]; simp [countState, List.countP_cons, hns]
              · rw [h3]; simp [countState, List.countP_cons, hna]
              · rw [h4]; simp [countState, List.countP_cons, hnc]

theorem deleteLoop_outcome (env : Env) (gsbName : String) (event : Option String)
    (items : List GameServer) (hdel : ∀ n gs, env.delete n gs = none) :
    ∀ (remaining i : Nat) (d : Int) (w : World),
      (deleteLoop env gsbName event items remaining i d w).1 = none ∨
      (deleteLoop env gsbName event items remaining i d w).1 = some .panicked := by
  intro remaining
  induction remaining with
  | zero => intro i d w; exact Or.inl rfl
  | succ r ih =>
    intro i d w
    unfold deleteLoop
    split
    · exact Or.inr rfl
    · rename_i gs hgs
      split
      · have hok := deleteGameServer_ok env gsbName gs event w hdel
        split
        · rename_i e w1 heq
          rw [heq] at hok
          cases hok
        · exact ih _ _ _
      · exact ih _ _ _

theorem standingByReduction_outcome (env : Env) (gsb : GameServerBuild)
    (items : List GameServer) (c : Counts) (w : World)
    (hdel : ∀ n gs, env.delete n gs = none) :
    (standingByReduction env gsb items c w).1 = none ∨
    (standingByReduction env gsb items c w).1 = some .panicked := by
  unfold standingByReduction
  split
  · have h := deleteLoop_outcome env gsb.Name (some "GameServer deleted") items hdel
      (c.standingByCount - gsb.Spec.StandingBy).toNat 0 0 w
    split
    · rename_i o d w1 heq
      rw [heq] at h
      simpa using h
    · split <;> exact Or.inl rfl
  · exact Or.inl rfl

theorem maxCap_outcome (env : Env) (gsb : GameServerBuild)
    (items : List GameServer) (c : Counts) (w : World)
    (hdel : ∀ n gs, env.delete n gs = none) :
    (maxCap env gsb items c w).1 = none ∨
    (maxCap env gsb items c w).1 = some .panicked ∨
    (maxCap env gsb items c w).1 = some (.returned { RequeueAfter := 5 * Second } none) := by
  unfold maxCap
  split
  · have h := deleteLoop_outcome env gsb.Name none items hdel
      (c.standingByCount + c.activeCount - gsb.Spec.Max + 1).toNat 0 0 w
    split
    · rename_i o d w1 heq
      rw [heq] at h
      rcases h with h | h
      · cases h
      · exact Or.inr (Or.inl h)
    · split
      · exact Or.inr (Or.inr rfl)
      · exact Or.inl rfl
  · exact Or.inl rfl

theorem Reconcile_eq_reconcileListed (env : Env) (req : Request) (w : World)
    (spec : GameServerBuildSpec) (status : GameServerBuildStatus) (items : List GameServer)
    (hb : env.getBuild = .ok (spec, status))
    (hh : status.Health ≠ BuildUnhealthy)
    (hd : (gameServersUnderDeletionWereDeleted env.getGameServer
      w.gameServersUnderDeletion req.Name).1 = (true, none))
    (hc : (gameServersUnderCreationWereCreated env.getGameServer
      w.gameServersUnderCreation req.Name).1 = (true, none))
    (hl : env.list = .ok items) :
    Reconcile env req w = reconcileListed env
      { Name := req.Name, Namespace := req.Namespace, Spec := spec, Status := status } items
      { w with
        gameServersUnderDeletion := (gameServersUnderDeletionWereDeleted env.getGameServer
          w.gameServersUnderDeletion req.Name).2
        gameServersUnderCreation := (gameServersUnderCreationWereCreated env.getGameServer
          w.gameServersUnderCreation req.Name).2 } := by
  unfold Reconcile
  rw [hb]
  dsimp only
  rw [if_neg hh]
  rcases hD : gameServersUnderDeletionWereDeleted env.getGameServer
    w.gameServersUnderDeletion req.Name with ⟨⟨b1, e1⟩, led1⟩
  rw [hD] at hd
  cases hd
  dsimp only
  rcases hC : gameServersUnderCreationWereCreated env.getGameServer
    w.gameServersUnderCreation req.Name with ⟨⟨b2, e2⟩, led2⟩
  rw [hC] at hc
  cases hc
  simp [hl]

/-! ## C8, C9: the ledgers -/

/-- C8 (ledger convergence, creation). For a fleet whose creation-ledger entry holds
the names `P` and a cache whose probes answer found or NotFound only,
`gameServersUnderCreationWereCreated` reports settled exactly when every name of
`P` is in the cache; when it reports settled the fleet's entry is gone; when some
name is missing it returns `(false, nil)` and the entry stays, still holding every
missing name. -/
theorem gameServersUnderCreationWereCreated_convergence
    (get : String → Option GoError) (led : Ledger) (name : String) (P : List String)
    (hP : led name = some P)
    (hget : ∀ k ∈ P, get k = none ∨ get k = some GoError.NotFound) :
    ((gameServersUnderCreationWereCreated get led name).1.1 = true ↔ ∀ k ∈ P, get k = none) ∧
    ((gameServersUnderCreationWereCreated get led name).1.1 = true →
      (gameServersUnderCreationWereCreated get led name).2 name = none) ∧
    ((∃ k ∈ P, get k ≠ none) →
      (gameServersUnderCreationWereCreated get led name).1 = (false, none) ∧
      ∃ rest, (gameServersUnderCreationWereCreated get led name).2 name = some rest ∧
        ∀ k ∈ P, get k ≠ none → k ∈ rest) := by
  by_cases hall : ∀ k ∈ P, get k = none
  · rw [gameServersUnderCreationWereCreated_found get led name P hP hall]
    refine ⟨by simpa using hall, fun _ => Ledger.del_same led name, ?_⟩
    rintro ⟨k, hk, hne⟩
    exact absurd (hall k hk) hne
  · have hmiss : ∃ k ∈ P, get k ≠ none := by
      by_contra hcon
      exact hall (fun k hk => by_contra (fun hne => hcon ⟨k, hk, hne⟩))
    obtain ⟨rest, err, he, hm, hn⟩ :=
      gameServersUnderCreationWereCreated_missing get led name P hP hmiss
    have herr : err = none := hn hget
    subst herr
    rw [he]
    refine ⟨?_, ?_, ?_⟩
    · simp [hall]
    · simp
    · intro _
      exact ⟨rfl, rest, Ledger.set_same led name rest, hm⟩

/-- C8 at a fleet with two recorded names of which the cache holds one: not settled,
no error, the entry stays and still holds the missing name. -/
theorem gameServersUnderCreationWereCreated_convergence_witness :
    (∀ k ∈ ["fleet-aaaaa", "fleet-bbbbb"],
      cacheOf ["fleet-aaaaa"] k = none ∨ cacheOf ["fleet-aaaaa"] k = some GoError.NotFound) ∧
    (gameServersUnderCreationWereCreated (cacheOf ["fleet-aaaaa"])
      (addGameServerToUnderCreationMap
        (addGameServerToUnderCreationMap emptyLedger "fleet" "fleet-aaaaa") "fleet" "fleet-bbbbb")
      "fleet").1 = (false, none) :=
  ⟨by decide,
    ((gameServersUnderCreationWereCreated_convergence (cacheOf ["fleet-aaaaa"])
      (addGameServerToUnderCreationMap
        (addGameServerToUnderCreationMap emptyLedger "fleet" "fleet-aaaaa") "fleet" "fleet-bbbbb")
      "fleet" ["fleet-aaaaa", "fleet-bbbbb"] (by decide) (by decide)).2.2
        ⟨"fleet-bbbbb", by decide, by decide⟩).1⟩

/-- C9 (ledger resolve, deletion). For a fleet with pending-deletion set `P` and a
cache whose probes answer found or NotFound only, after
`gameServersUnderDeletionWereDeleted` the fleet's pending set is exactly the names
of `P` still in the cache, no error is returned, the result is settled exactly when
that set is empty, the fleet's entry is removed exactly when it is empty, and a
fleet without an entry is reported settled with the ledger untouched. -/
theorem gameServersUnderDeletionWereDeleted_resolve
    (get : String → Option GoError) (led : Ledger) (name : String)
    (hget : ∀ k ∈ led.pending name, get k = none ∨ get k = some GoError.NotFound) :
    (gameServersUnderDeletionWereDeleted get led name).2.pending name
      = (led.pending name).filter (fun k => get k = none) ∧
    (gameServersUnderDeletionWereDeleted get led name).1.2 = none ∧
    ((gameServersUnderDeletionWereDeleted get led name).1.1 = true ↔
      (led.pending name).filter (fun k => get k = none) = []) ∧
    (led name ≠ none →
      ((gameServersUnderDeletionWereDeleted get led name).2 name = none ↔
        (led.pending name).filter (fun k => get k = none) = [])) ∧
    (led name = none →
      gameServersUnderDeletionWereDeleted get led name = ((true, none), led)) := by
  unfold gameServersUnderDeletionWereDeleted
  cases hP : led name with
  | none => simp [Ledger.pending, hP]
  | some P =>
    have hget1 : ∀ k ∈ P, get k = none ∨ get k = some GoError.NotFound := by
      simpa [Ledger.pending, hP] using hget
    have hpend : led.pending name = P := by simp [Ledger.pending, hP]
    rw [hpend]
    simp only [underDeletionLoop_eq_filter get P hget1]
    by_cases hE : List.filter (fun k => decide (get k = none)) P = []
    · simp [hE, Ledger.del, Ledger.pending]
    · simp [hE, Ledger.set, Ledger.pending]

/-- C9 at a fleet with three pending deletions of which one is still in the cache. -/
theorem gameServersUnderDeletionWereDeleted_resolve_witness :
    (∀ k ∈ Ledger.pending (Ledger.set emptyLedger "fleet" ["gs-a", "gs-b", "gs-c"]) "fleet",
      cacheOf ["gs-b"] k = none ∨ cacheOf ["gs-b"] k = some GoError.NotFound) ∧
    Ledger.pending (gameServersUnderDeletionWereDeleted (cacheOf ["gs-b"])
      (Ledger.set emptyLedger "fleet" ["gs-a", "gs-b", "gs-c"]) "fleet").2 "fleet" = ["gs-b"] :=
  ⟨by decide,
    (gameServersUnderDeletionWereDeleted_resolve (cacheOf ["gs-b"])
      (Ledger.set emptyLedger "fleet" ["gs-a", "gs-b", "gs-c"]) "fleet" (by decide)).1.trans
      (by decide)⟩

/-! ## C6, C7, C10: what a pass does not do -/

/-- C6 (Unhealthy is terminal). When the fleet fetched at the start of a pass has
status health Unhealthy, whatever the spec and whatever the API would list,
`Reconcile` returns an empty result and no error (no requeue), creates and deletes
nothing, allocates no port, and leaves both ledgers and the stored fleet status as
they were. -/
theorem Reconcile_unhealthy_is_terminal (env : Env) (req : Request) (w : World)
    (spec : GameServerBuildSpec) (status : GameServerBuildStatus)
    (hb : env.getBuild = .ok (spec, status)) (hh : status.Health = BuildUnhealthy) :
    (Reconcile env req w).1 = .returned { Requeue := false, RequeueAfter := 0 } none ∧
    (Reconcile env req w).2.created = w.created ∧
    (Reconcile env req w).2.deleted = w.deleted ∧
    (Reconcile env req w).2.allocated = w.allocated ∧
    (Reconcile env req w).2.gameServersUnderCreation = w.gameServersUnderCreation ∧
    (Reconcile env req w).2.gameServersUnderDeletion = w.gameServersUnderDeletion ∧
    (Reconcile env req w).2.statusWritten = w.statusWritten ∧
    statusAfter status (Reconcile env req w).2 = statusAfter status w := by
  unfold Reconcile
  rw [hb]
  simp [hh, statusAfter]

/-- C6 at an Unhealthy fleet that wants 3 standing-by instances and has none. -/
theorem Reconcile_unhealthy_is_terminal_witness :
    ({ CrashesCount := 5, Health := BuildUnhealthy } : GameServerBuildStatus).Health
      = BuildUnhealthy ∧
    (Reconcile (apiOf { StandingBy := 3, Max := 5, CrashesToMarkUnhealthy := 5 }
      { CrashesCount := 5, Health := BuildUnhealthy } [] (cacheOf []))
      ⟨"default", "fleet"⟩ freshWorld).2.created = [] :=
  ⟨rfl, (Reconcile_unhealthy_is_terminal
    (apiOf { StandingBy := 3, Max := 5, CrashesToMarkUnhealthy := 5 }
      { CrashesCount := 5, Health := BuildUnhealthy } [] (cacheOf []))
    ⟨"default", "fleet"⟩ freshWorld _ _ rfl rfl).2.1⟩

/-- C7 (Active instances are never deleted by scaling). In every pass, for every
answer of the API, every spec and every instance list, each instance the pass
deletes is one of the listed instances and its listed state is not Active: the
standingBy reduction and the max cap delete only instances whose state is unset or
StandingBy, the clean-up only Crashed and GameCompleted ones. -/
theorem Reconcile_never_deletes_active (env : Env) (req : Request) (w : World) :
    ∃ newD, (Reconcile env req w).2.deleted = w.deleted ++ newD ∧
      ∀ gs ∈ newD, (∀ items, env.list = .ok items → gs ∈ items) ∧
        gs.Status.State ≠ GameServerStateActive ∧ Deletable gs := by
  obtain ⟨⟨newD, hd, hp⟩, _⟩ := Reconcile_effects env req w
  refine ⟨newD, hd, fun gs hgs => ⟨(hp gs hgs).1, ?_, (hp gs hgs).2⟩⟩
  intro hA
  rcases (hp gs hgs).2 with h | h | h | h <;> rw [hA] at h <;> revert h <;> decide

/-- C10 (scale-up idempotence). If a pass of a fleet created the instances `newC`
and the next pass of the same fleet runs against a read cache that does not hold
all of them, then, whatever else the API answers, the second pass creates no
instance and deletes none. -/
theorem Reconcile_scale_up_idempotent (env1 env2 : Env) (req : Request) (w : World)
    (newC : List GameServer)
    (h1 : (Reconcile env1 req w).2.created = w.created ++ newC)
    (hmiss : ¬ ∀ gs ∈ newC, env2.getGameServer gs.Name = none) :
    (Reconcile env2 req (Reconcile env1 req w).2).2.created
      = (Reconcile env1 req w).2.created ∧
    (Reconcile env2 req (Reconcile env1 req w).2).2.deleted
      = (Reconcile env1 req w).2.deleted := by
  obtain ⟨_, ⟨newC1, hc, hpend⟩⟩ := Reconcile_effects env1 req w
  have hsame : newC1 = newC := List.append_cancel_left (hc.symm.trans h1)
  subst hsame
  apply Reconcile_waits_for_creations
  by_contra hcon
  apply hmiss
  intro gs hgs
  by_contra hne
  exact hcon ⟨gs.Name, hpend gs hgs, hne⟩

/-- C10 at the fleet standingBy = 0, desired 3, max 5: the first pass creates 3
instances; the second pass, run while the cache shows two of them, creates none. -/
theorem Reconcile_scale_up_idempotent_witness :
    (Reconcile scaleUpApi fleetReq freshWorld).2.created
      = freshWorld.created ++ (Reconcile scaleUpApi fleetReq freshWorld).2.created ∧
    ((Reconcile scaleUpApi fleetReq freshWorld).2.created.map (fun gs => gs.Name)
      = ["fleet-aaaaa", "fleet-bbbbb", "fleet-ccccc"]) ∧
    (¬ ∀ gs ∈ (Reconcile scaleUpApi fleetReq freshWorld).2.created,
      scaleUpApiNext.getGameServer gs.Name = none) ∧
    (Reconcile scaleUpApiNext fleetReq (Reconcile scaleUpApi fleetReq freshWorld).2).2.created
      = (Reconcile scaleUpApi fleetReq freshWorld).2.created :=
  ⟨rfl, by decide, by decide,
    (Reconcile_scale_up_idempotent scaleUpApi scaleUpApiNext fleetReq freshWorld
      (Reconcile scaleUpApi fleetReq freshWorld).2.created rfl (by decide)).1⟩

/-! ## C1: scale-up count -/

/-- C2 at its own sample (2 Active and 3 StandingBy, desired standingBy 1, max 5,
no initializing instance), the Active instances being listed first: the pass reads
the first `3 - 1 = 2` listed instances, both Active, deletes nothing, records the
diagnostic event "No standingBy servers left to delete" and goes on to write the
status, although 3 StandingBy instances are listed. -/
theorem Reconcile_scale_down_active_first :
    countState scaleDownItems "" = 0 ∧
    countState scaleDownItems GameServerStateStandingBy = 3 ∧
    countState scaleDownItems GameServerStateActive = 2 ∧
    (Reconcile scaleDownApi fleetReq freshWorld).1
      = .returned { Requeue := false, RequeueAfter := 0 } none ∧
    (Reconcile scaleDownApi fleetReq freshWorld).2.deleted = [] ∧
    (Reconcile scaleDownApi fleetReq freshWorld).2.events
      = ["User modified .Spec.StandingBy - No standingBy servers left to delete"] := by
  decide

/-- C3 at its own sample (max 4, standingBy + active = 6, standingBy within the
desired 3), the StandingBy instances being listed first: the loop runs for
`i = 0, 1, 2`, one index more than the surplus 2, deletes 3 instances and, 3 not
being 2, returns the 5 second retry. With the 4 Active instances listed first
(`maxCapApiActiveFirst`) the same loop reads only Active instances, deletes nothing
and returns the retry although 2 eligible instances are listed. -/
theorem Reconcile_max_cap_off_by_one :
    countState maxCapItems GameServerStateStandingBy
      + countState maxCapItems GameServerStateActive - 4 = 2 ∧
    (Reconcile maxCapApi fleetReq freshWorld).2.deleted.map (fun gs => gs.Name)
      = ["fleet-aaaaa", "fleet-bbbbb", "fleet-ccccc"] ∧
    (Reconcile maxCapApi fleetReq freshWorld).1
      = .returned { Requeue := false, RequeueAfter := 5 * Second } none ∧
    countState maxCapItemsActiveFirst GameServerStateStandingBy
      + countState maxCapItemsActiveFirst GameServerStateActive - 4 = 2 ∧
    (Reconcile maxCapApiActiveFirst fleetReq freshWorld).2.deleted = [] ∧
    (Reconcile maxCapApiActiveFirst fleetReq freshWorld).1
      = .returned { Requeue := false, RequeueAfter := 5 * Second } none := by
  decide

/-! ## C4, C5: crash accounting and health -/

/-- C4 at a fleet above its cap with one Crashed instance listed: the pass deletes
the crashed instance and records it in the deletion ledger, then returns the
5 second retry from the max-cap step without calling `updateStatus`: no status is
written and the cumulative crash count stays 0 although one Crashed instance was
listed. -/
theorem Reconcile_crash_lost_on_requeue :
    countState crashItems GameServerStateCrashed = 1 ∧
    (Reconcile crashApi fleetReq freshWorld).1
      = .returned { Requeue := false, RequeueAfter := 5 * Second } none ∧
    (Reconcile crashApi fleetReq freshWorld).2.deleted.map (fun gs => gs.Name)
      = ["fleet-aaaaa"] ∧
    (Reconcile crashApi fleetReq freshWorld).2.gameServersUnderDeletion "fleet"
      = some ["fleet-aaaaa"] ∧
    (Reconcile crashApi fleetReq freshWorld).2.statusWritten = none ∧
    (statusAfter crashStatus (Reconcile crashApi fleetReq freshWorld).2).CrashesCount
      = crashStatus.CrashesCount ∧
    (statusAfter crashStatus (Reconcile crashApi fleetReq freshWorld).2).CrashesCount
      ≠ crashStatus.CrashesCount + countState crashItems GameServerStateCrashed := by
  decide

/-- C5 as stated fails. The fleet of `staleApi` has 2 crashes recorded, health
Healthy, and a threshold lowered to 2. The pass runs to `updateStatus`; no count
differs and no crash was observed, so nothing is written and the health stays
Healthy although the cumulative crash count 2 + 0 reaches the threshold 2. -/
theorem Reconcile_health_invariant_counterexample :
    (Reconcile staleApi fleetReq freshWorld).1
      = .returned { Requeue := false, RequeueAfter := 0 } none ∧
    (Reconcile staleApi fleetReq freshWorld).2.statusWritten = none ∧
    ¬ ((statusAfter staleStatus (Reconcile staleApi fleetReq freshWorld).2).Health
        = BuildUnhealthy ↔
      staleStatus.CrashesCount + countState
        [instanceOf "fleet-aaaaa" GameServerStateStandingBy] GameServerStateCrashed
        ≥ staleSpec.CrashesToMarkUnhealthy) := by
  decide

/-! ## C19, C20: the surplus-deletion loops, indices and repeated deletions -/

/-- C19 at a fleet with `StandingBy = 0`, `Max = 0` and one Active instance listed:
the max-cap loop runs for `i = 0, 1` (its condition is `i <= 1`) and reads
`gameServers.Items[1]` of a list of length 1: the pass panics. -/
theorem Reconcile_max_cap_index_out_of_range :
    (0 : Int) ≤ 0 ∧
    [instanceOf "fleet-aaaaa" GameServerStateActive].length = 1 ∧
    [instanceOf "fleet-aaaaa" GameServerStateActive][1]? = none ∧
    (Reconcile drainApi fleetReq freshWorld).1 = Outcome.panicked := by
  decide

/-- C20 at a fleet with `StandingBy = 0`, `Max = 1`, listed 2 StandingBy and 1
Active, every call succeeding: the standingBy reduction deletes the two StandingBy
instances and the max-cap step, scanning the same list from index 0, deletes both
again: 4 deletes for 2 distinct instances, and the pass goes on to the end. -/
theorem Reconcile_deletes_twice :
    (Reconcile bothStepsApi fleetReq freshWorld).2.deleted.map (fun gs => gs.Name)
      = ["fleet-aaaaa", "fleet-bbbbb", "fleet-aaaaa", "fleet-bbbbb"] ∧
    ((Reconcile bothStepsApi fleetReq freshWorld).2.deleted.map (fun gs => gs.Name)).length
      = 4 ∧
    ((Reconcile bothStepsApi fleetReq freshWorld).2.deleted.map
      (fun gs => gs.Name)).dedup.length = 2 ∧
    (Reconcile bothStepsApi fleetReq freshWorld).1
      = .returned { Requeue := false, RequeueAfter := 0 } none := by
  decide

/-! ## C16: initializing instances suspend scaling -/

theorem tallyLoop_counts_of_finished (env : Env) (gsbName : String) :
    ∀ (items : List GameServer) (c : Counts) (w : World),
      (tallyLoop env gsbName items c w).1 = none →
      (tallyLoop env gsbName items c w).2.1.initializingCount
        = c.initializingCount + countState items "" ∧
      (tallyLoop env gsbName items c w).2.1.standingByCount
        = c.standingByCount + countState items GameServerStateStandingBy ∧
      (tallyLoop env gsbName items c w).2.1.activeCount
        = c.activeCount + countState items GameServerStateActive ∧
      (tallyLoop env gsbName items c w).2.1.crashesCount
        = c.crashesCount + countState items GameServerStateCrashed := by
  intro items
  induction items with
  | nil => intro c w _; simp [tallyLoop, countState]
  | cons gs rest ih =>
    intro c w hfin
    by_cases h1 : gs.Status.State = ""
    · have e : tallyLoop env gsbName (gs :: rest) c w = tallyLoop env gsbName rest
          { c with initializingCount := c.initializingCount + 1 } w := by
        rw [tallyLoop, if_pos h1]
      rw [e] at hfin ⊢
      obtain ⟨a1, a2, a3, a4⟩ := ih _ _ hfin
      refine ⟨?_, ?_, ?_, ?_⟩
      · rw [a1]; simp [countState, List.countP_cons, h1]; omega
      · rw [a2]; simp [countState, List.countP_cons, h1, GameServerStateStandingBy]
      · rw [a3]; simp [countState, List.countP_cons, h1, GameServerStateActive]
      · rw [a4]; simp [countState, List.countP_cons, h1, GameServerStateCrashed]
    · by_cases h2 : gs.Status.State = GameServerStateStandingBy
      · have e : tallyLoop env gsbName (gs :: rest) c w = tallyLoop env gsbName rest
            { c with standingByCount := c.standingByCount + 1 } w := by
          rw [tallyLoop, if_neg h1, if_pos h2]
        rw [e] at hfin ⊢
        obtain ⟨a1, a2, a3, a4⟩ := ih _ _ hfin
        refine ⟨?_, ?_, ?_, ?_⟩
        · rw [a1]; simp [countState, List.countP_cons, h1]
        · rw [a2]; simp [countState, List.countP_cons, h2]; omega
        · rw [a3]; simp [countState, List.countP_cons, h2, GameServerStateActive,
            GameServerStateStandingBy]
        · rw [a4]; simp [countState, List.countP_cons, h2, GameServerStateCrashed,
            GameServerStateStandingBy]
      · by_cases h3 : gs.Status.State = GameServerStateActive
        · have e : tallyLoop env gsbName (gs :: rest) c w = tallyLoop env gsbName rest
              { c with activeCount := c.activeCount + 1 } w := by
            rw [tallyLoop, if_neg h1, if_neg h2, if_pos h3]
          rw [e] at hfin ⊢
          obtain ⟨a1, a2, a3, a4⟩ := ih _ _ hfin
          refine ⟨?_, ?_, ?_, ?_⟩
          · rw [a1]; simp [countState, List.countP_cons, h1]
          · rw [a2]; simp [countState, List.countP_cons, h2]
          · rw [a3]; simp [countState, List.countP_cons, h3]; omega
          · rw [a4]; simp [countState, List.countP_cons, h3, GameServerStateCrashed,
              GameServerStateActive]
        · by_cases h4 : gs.Status.State = GameServerStateCrashed
          · rcases hdg : deleteGameServer env gsbName gs (some "Crashed") w with ⟨err, w1⟩
            cases err with
            | some err =>
              have e : (tallyLoop env gsbName (gs :: rest) c w).1
                  = some (.returned {} (some err)) := by
                rw [tallyLoop, if_neg h1, if_neg h2, if_neg h3, if_pos h4]
                simp only [hdg]
              rw [e] at hfin
              cases hfin
            | none =>
              have e : tallyLoop env gsbName (gs :: rest) c w = tallyLoop env gsbName rest
                  { c with crashesCount := c.crashesCount + 1 } w1 := by
                rw [tallyLoop, if_neg h1, if_neg h2, if_neg h3, if_pos h4]
                simp only [hdg]
              rw [e] at hfin ⊢
              obtain ⟨a1, a2, a3, a4⟩ := ih _ _ hfin
              refine ⟨?_, ?_, ?_, ?_⟩
              · rw [a1]; simp [countState, List.countP_cons, h1]
              · rw [a2]; simp [countState, List.countP_cons, h2]
              · rw [a3]; simp [countState, List.countP_cons, h3]
              · rw [a4]; simp [countState, List.countP_cons, h4]; omega
          · by_cases h5 : gs.Status.State = GameServerStateGameCompleted
            · rcases hdg : deleteGameServer env gsbName gs (some "Exited") w with ⟨err, w1⟩
              cases err with
              | some err =>
                have e : (tallyLoop env gsbName (gs :: rest) c w).1
                    = some (.returned {} (some err)) := by
                  rw [tallyLoop, if_neg h1, if_neg h2, if_neg h3, if_neg h4, if_pos h5]
                  simp only [hdg]
                rw [e] at hfin
                cases hfin
              | none =>
                have e : tallyLoop env gsbName (gs :: rest) c w
                    = tallyLoop env gsbName rest c w1 := by
                  rw [tallyLoop, if_neg h1, if_neg h2, if_neg h3, if_neg h4, if_pos h5]
                  simp only [hdg]
                rw [e] at hfin ⊢
                obtain ⟨a1, a2, a3, a4⟩ := ih _ _ hfin
                refine ⟨?_, ?_, ?_, ?_⟩
                · rw [a1]; simp [countState, List.countP_cons, h1]
                · rw [a2]; simp [countState, List.countP_cons, h2]
                · rw [a3]; simp [countState, List.countP_cons, h3]
                · rw [a4]; simp [countState, List.countP_cons, h4]
            · have e : tallyLoop env gsbName (gs :: rest) c w
                  = tallyLoop env gsbName rest c w := by
                rw [tallyLoop, if_neg h1, if_neg h2, if_neg h3, if_neg h4, if_neg h5]
              rw [e] at hfin ⊢
              obtain ⟨a1, a2, a3, a4⟩ := ih _ _ hfin
              refine ⟨?_, ?_, ?_, ?_⟩
              · rw [a1]; simp [countState, List.countP_cons, h1]
              · rw [a2]; simp [countState, List.countP_cons, h2]
              · rw [a3]; simp [countState, List.countP_cons, h3]
              · rw [a4]; simp [countState, List.countP_cons, h4]

theorem updateStatus_allocated (env : Env) (gsb : GameServerBuild) (i s a cr : Int)
    (w : World) : (updateStatus env gsb i s a cr w).2.allocated = w.allocated := by
  unfold updateStatus
  split
  · dsimp only
    split
    · split <;> rfl
    · rfl
  · rfl

theorem countState_pos_of_mem (items : List GameServer) (state : String)
    (h : ∃ gs ∈ items, gs.Status.State = state) : 0 < countState items state := by
  unfold countState
  have : 0 < List.countP (fun gs => decide (gs.Status.State = state)) items := by
    rw [List.countP_pos_iff]
    obtain ⟨gs, hgs, hs⟩ := h
    exact ⟨gs, hgs, by simpa using hs⟩
  exact_mod_cast this

theorem tallyLoop_exit_of_delete (env : Env) (gsbName : String) :
    ∀ (items : List GameServer) (c : Counts) (w : World) (o : Outcome),
      (tallyLoop env gsbName items c w).1 = some o →
      ∃ n gs err, gs ∈ items ∧ (gs.Status.State = GameServerStateCrashed ∨
          gs.Status.State = GameServerStateGameCompleted) ∧
        env.delete n gs = some err ∧ o = .returned {} (some err) := by
  intro items
  induction items with
  | nil => intro c w o h; simp [tallyLoop] at h
  | cons gs rest ih =>
    intro c w o
    have ih1 : ∀ (c : Counts) (w : World),
        (tallyLoop env gsbName rest c w).1 = some o →
        ∃ n g err, g ∈ gs :: rest ∧ (g.Status.State = GameServerStateCrashed ∨
            g.Status.State = GameServerStateGameCompleted) ∧
          env.delete n g = some err ∧ o = .returned {} (some err) := by
      intro c w h
      obtain ⟨n, g, err, hm, hs, hd, ho⟩ := ih c w o h
      exact ⟨n, g, err, List.mem_cons_of_mem _ hm, hs, hd, ho⟩
    unfold tallyLoop
    split
    · exact ih1 _ _
    · split
      · exact ih1 _ _
      · split
        · exact ih1 _ _
        · split
          · rename_i hcr
            split
            · rename_i err w1 heq
              intro h
              dsimp only at h
              cases h
              refine ⟨w.deleted.length, gs, err, List.mem_cons_self _ _, Or.inl hcr, ?_, rfl⟩
              unfold deleteGameServer at heq
              cases hd : env.delete w.deleted.length gs with
              | none => rw [hd] at heq; cases heq
              | some e => rw [hd] at heq; cases heq; rfl
            · exact ih1 _ _
          · split
            · rename_i hgc
              split
              · rename_i err w1 heq
                intro h
                dsimp only at h
                cases h
                refine ⟨w.deleted.length, gs, err, List.mem_cons_self _ _, Or.inr hgc, ?_, rfl⟩
                unfold deleteGameServer at heq
                cases hd : env.delete w.deleted.length gs with
                | none => rw [hd] at heq; cases heq
                | some e => rw [hd] at heq; cases heq; rfl
              · exact ih1 _ _
            · exact ih1 _ _

/-- C16 as stated fails. The fleet of `initializingApiDeleteFails` lists one
instance without a state and one Crashed instance; the API server refuses the
deletion of the crashed one, the pass returns that error from inside the tally loop
and never reaches the status update: nothing is written although the stored
initializing count 0 differs from the tally 1. -/
theorem Reconcile_initializing_suspends_scaling_counterexample :
    (∃ gs ∈ initializingItems, gs.Status.State = "") ∧
    (Reconcile initializingApiDeleteFails fleetReq freshWorld).1
      = .returned { Requeue := false, RequeueAfter := 0 } (some GoError.Other) ∧
    (Reconcile initializingApiDeleteFails fleetReq freshWorld).2.statusWritten = none ∧
    (statusAfter {} (Reconcile initializingApiDeleteFails fleetReq freshWorld).2).CurrentInitializing
      ≠ countState initializingItems "" := by
  decide

/-- C16, amended. In every fleet pass that lists the instances (fleet fetched and
not Unhealthy, both ledgers settled) and finds at least one with an empty state,
whatever the API answers: the instances deleted are listed ones in state Crashed or
GameCompleted, no instance is created and no port is allocated. When moreover every
clean-up delete succeeds, the pass ends with the call of `updateStatus` on the
tallied initializing, standingBy, active and crash counts. In general the pass
either ends with that call, or the delete of a listed Crashed or GameCompleted
instance has failed and the pass returns the error of that delete without writing
the status. -/
theorem Reconcile_initializing_suspends_scaling (env : Env) (req : Request) (w : World)
    (spec : GameServerBuildSpec) (status : GameServerBuildStatus) (items : List GameServer)
    (hb : env.getBuild = .ok (spec, status))
    (hh : status.Health ≠ BuildUnhealthy)
    (hd : (gameServersUnderDeletionWereDeleted env.getGameServer
      w.gameServersUnderDeletion req.Name).1 = (true, none))
    (hc : (gameServersUnderCreationWereCreated env.getGameServer
      w.gameServersUnderCreation req.Name).1 = (true, none))
    (hl : env.list = .ok items)
    (hinit : ∃ gs ∈ items, gs.Status.State = "") :
    (∃ newD, (Reconcile env req w).2.deleted = w.deleted ++ newD ∧
      ∀ gs ∈ newD, gs ∈ items ∧ (gs.Status.State = GameServerStateCrashed ∨
        gs.Status.State = GameServerStateGameCompleted)) ∧
    (Reconcile env req w).2.created = w.created ∧
    (Reconcile env req w).2.allocated = w.allocated ∧
    ((∀ n gs, env.delete n gs = none) →
      ∃ w1, Reconcile env req w = updateStatus env
        { Name := req.Name, Namespace := req.Namespace, Spec := spec, Status := status }
        (countState items "") (countState items GameServerStateStandingBy)
        (countState items GameServerStateActive) (countState items GameServerStateCrashed)
        w1) ∧
    ((∃ w1, Reconcile env req w = updateStatus env
        { Name := req.Name, Namespace := req.Namespace, Spec := spec, Status := status }
        (countState items "") (countState items GameServerStateStandingBy)
        (countState items GameServerStateActive) (countState items GameServerStateCrashed)
        w1) ∨
      ∃ n gs err, gs ∈ items ∧ (gs.Status.State = GameServerStateCrashed ∨
          gs.Status.State = GameServerStateGameCompleted) ∧
        env.delete n gs = some err ∧
        (Reconcile env req w).1 = .returned { Requeue := false, RequeueAfter := 0 } (some err) ∧
        (Reconcile env req w).2.statusWritten = w.statusWritten) := by
  rw [Reconcile_eq_reconcileListed env req w spec status items hb hh hd hc hl]
  unfold reconcileListed
  have hxd := tallyLoop_exit_of_delete env req.Name items {}
    { w with
      gameServersUnderDeletion := (gameServersUnderDeletionWereDeleted env.getGameServer
        w.gameServersUnderDeletion req.Name).2
      gameServersUnderCreation := (gameServersUnderCreationWereCreated env.getGameServer
        w.gameServersUnderCreation req.Name).2 }
  have hf := tallyLoop_frame env req.Name items {}
    { w with
      gameServersUnderDeletion := (gameServersUnderDeletionWereDeleted env.getGameServer
        w.gameServersUnderDeletion req.Name).2
      gameServersUnderCreation := (gameServersUnderCreationWereCreated env.getGameServer
        w.gameServersUnderCreation req.Name).2 }
  have hcnt := tallyLoop_counts_of_finished env req.Name items {}
    { w with
      gameServersUnderDeletion := (gameServersUnderDeletionWereDeleted env.getGameServer
        w.gameServersUnderDeletion req.Name).2
      gameServersUnderCreation := (gameServersUnderCreationWereCreated env.getGameServer
        w.gameServersUnderCreation req.Name).2 }
  have hok := fun hdel => (tallyLoop_counts env req.Name hdel items {}
    { w with
      gameServersUnderDeletion := (gameServersUnderDeletionWereDeleted env.getGameServer
        w.gameServersUnderDeletion req.Name).2
      gameServersUnderCreation := (gameServersUnderCreationWereCreated env.getGameServer
        w.gameServersUnderCreation req.Name).2 }).1
  dsimp only
  rcases hT : tallyLoop env req.Name items {}
    { w with
      gameServersUnderDeletion := (gameServersUnderDeletionWereDeleted env.getGameServer
        w.gameServersUnderDeletion req.Name).2
      gameServersUnderCreation := (gameServersUnderCreationWereCreated env.getGameServer
        w.gameServersUnderCreation req.Name).2 } with ⟨o, c, w1⟩
  rw [hT] at hf hcnt hok hxd
  obtain ⟨hcr, _, hal, hsw, newD, hnew, hP⟩ := hf
  dsimp only at hcr hal hsw hnew hcnt hok hxd
  cases o with
  | some o =>
    dsimp only
    refine ⟨⟨newD, hnew, hP⟩, hcr, hal, ?_, ?_⟩
    · intro hdel
      exact absurd (hok hdel) (by simp)
    · obtain ⟨n, gs, err, hm, hs, hde, ho⟩ := hxd o rfl
      exact Or.inr ⟨n, gs, err, hm, hs, hde, ho, hsw⟩
  | none =>
    dsimp only
    obtain ⟨hi, hs, ha, hc4⟩ := hcnt rfl
    have hpos : c.initializingCount > 0 := by
      rw [hi]
      have := countState_pos_of_mem items "" hinit
      simp only [zero_add]
      exact this
    rw [if_pos hpos]
    obtain ⟨u1, u2, _, _⟩ := updateStatus_frame env
      { Name := req.Name, Namespace := req.Namespace, Spec := spec, Status := status }
      c.initializingCount c.standingByCount c.activeCount c.crashesCount w1
    refine ⟨⟨newD, by rw [u1, hnew], hP⟩, by rw [u2, hcr], ?_, ?_, ?_⟩
    · rw [updateStatus_allocated, hal]
    · intro _
      refine ⟨w1, ?_⟩
      rw [hi, hs, ha, hc4]
      simp
    · refine Or.inl ⟨w1, ?_⟩
      rw [hi, hs, ha, hc4]
      simp

/-- C16 (amended) at a fleet listing one instance without a state and one Crashed
instance, every call succeeding: only the crashed instance is deleted, nothing is
created, and the pass ends with `updateStatus` on the tally. -/
theorem Reconcile_initializing_suspends_scaling_witness :
    (∃ gs ∈ initializingItems, gs.Status.State = "") ∧
    (Reconcile initializingApi fleetReq freshWorld).2.deleted.map (fun gs => gs.Name)
      = ["fleet-bbbbb"] ∧
    (Reconcile initializingApi fleetReq freshWorld).2.created = freshWorld.created ∧
    (Reconcile initializingApi fleetReq freshWorld).2.statusWritten
      = some { CurrentInitializing := 1, CurrentStandingBy := 0, CurrentActive := 0,
               CrashesCount := 1, CurrentStandingByReadyDesired := "0/2",
               Health := BuildHealthy } :=
  ⟨by decide, by decide,
    (Reconcile_initializing_suspends_scaling initializingApi fleetReq freshWorld
      { StandingBy := 2, Max := 4, CrashesToMarkUnhealthy := 5 } {} initializingItems
      rfl (by decide) (by decide) (by decide) rfl (by decide)).2.1,
    by decide⟩

/-! ## C17, C18: node addresses and port tuples -/

theorem firstAddressOfType_eq_find (t : String) (addresses : List NodeAddress) :
    firstAddressOfType t addresses
      = (addresses.find? (fun x => x.AddressType = t)).map (fun x => x.Address) := by
  induction addresses with
  | nil => rfl
  | cons x rest ih =>
    unfold firstAddressOfType
    by_cases h : x.AddressType = t
    · simp [h]
    · simp [h, ih]

/-- C17 (node address resolution). Once the node is fetched, `GetPublicIPForNode`
returns the address of the first entry of type ExternalIP when the list has one,
wherever it stands in the list; otherwise the address of the first entry of type
InternalIP; and it returns an error exactly when the list has no entry of either
type, the address then being empty. -/
theorem GetPublicIPForNode_resolution (getNode : String → Except GoError (List NodeAddress))
    (nodeName : String) (addresses : List NodeAddress)
    (hnode : getNode nodeName = .ok addresses) :
    (∀ a, addresses.find? (fun x => x.AddressType = NodeExternalIP) = some a →
      GetPublicIPForNode getNode nodeName = (a.Address, none)) ∧
    (addresses.find? (fun x => x.AddressType = NodeExternalIP) = none →
      ∀ a, addresses.find? (fun x => x.AddressType = NodeInternalIP) = some a →
        GetPublicIPForNode getNode nodeName = (a.Address, none)) ∧
    ((GetPublicIPForNode getNode nodeName).2 ≠ none ↔
      ∀ x ∈ addresses, x.AddressType ≠ NodeExternalIP ∧ x.AddressType ≠ NodeInternalIP) ∧
    ((GetPublicIPForNode getNode nodeName).2 ≠ none →
      (GetPublicIPForNode getNode nodeName).1 = "") := by
  unfold GetPublicIPForNode
  rw [hnode]
  simp only [firstAddressOfType_eq_find]
  cases hE : addresses.find? (fun x => x.AddressType = NodeExternalIP) with
  | some a =>
    have hmem := List.mem_of_find?_eq_some hE
    have hty : a.AddressType = NodeExternalIP := by
      simpa using List.find?_some hE
    refine ⟨?_, ?_, ?_, ?_⟩
    · intro b hb; cases hb; rfl
    · intro h; cases h
    · simp only [Option.map_some', ne_eq, not_true_eq_false, false_iff, not_forall]
      exact ⟨a, hmem, fun h => h.1 hty⟩
    · simp
  | none =>
    have hnoE : ∀ x ∈ addresses, x.AddressType ≠ NodeExternalIP := by
      simpa using hE
    cases hI : addresses.find? (fun x => x.AddressType = NodeInternalIP) with
    | some a =>
      have hmem := List.mem_of_find?_eq_some hI
      have hty : a.AddressType = NodeInternalIP := by
        simpa using List.find?_some hI
      refine ⟨?_, ?_, ?_, ?_⟩
      · intro b hb; cases hb
      · intro _ b hb; cases hb; rfl
      · simp only [Option.map_none', Option.map_some', ne_eq, not_true_eq_false, false_iff,
          not_forall]
        exact ⟨a, hmem, fun h => h.2 hty⟩
      · simp
    | none =>
      have hnoI : ∀ x ∈ addresses, x.AddressType ≠ NodeInternalIP := by
        simpa using hI
      refine ⟨?_, ?_, ?_, ?_⟩
      · intro b hb; cases hb
      · intro _ b hb; cases hb
      · simp only [Option.map_none', ne_eq, reduceCtorEq, not_false_eq_true, true_iff]
        exact fun x hx => ⟨hnoE x hx, hnoI x hx⟩
      · simp

/-- C17 at a node that lists Hostname, then InternalIP 10.0.0.4, then ExternalIP
20.0.0.1: the external address is returned. -/
theorem GetPublicIPForNode_resolution_witness :
    sampleAddresses.find? (fun x => x.AddressType = NodeExternalIP)
      = some { AddressType := NodeExternalIP, Address := "20.0.0.1" } ∧
    GetPublicIPForNode (fun _ => .ok sampleAddresses) "node-1" = ("20.0.0.1", none) :=
  ⟨by decide,
    (GetPublicIPForNode_resolution (fun _ => .ok sampleAddresses) "node-1" sampleAddresses
      rfl).1 { AddressType := NodeExternalIP, Address := "20.0.0.1" } (by decide)⟩

/-- C18 at a pod whose game container maps container port 80 to host port 10000
and 8080 to 10001: `getContainerHostPortTuples` writes each tuple as
containerPort:hostPort (the order of the arguments of its `Sprintf`), not
hostPort:containerPort as its comment says, and this is the string the instance
pass stores in the status `Ports` next to the public address. -/
theorem getContainerHostPortTuples_order :
    getContainerHostPortTuples tuplesPod = "80:10000,8080:10001" ∧
    getContainerHostPortTuples tuplesPod ≠ "10000:80,10001:8080" ∧
    (GameServerReconciler.Reconcile (instanceApiOf gameInstance (.ok tuplesPod)) instanceReq
      {}).2.actions.getLast?
      = some (.StatusUpdate
          { gameInstance with Status := { PublicIP := "20.0.0.1", Ports := "80:10000,8080:10001" } }) := by
  decide

/-! ## C11: the finalizer protocol -/

theorem sliceContainsPortToExpose_iff (slice : List PortToExpose)
    (containerName portName : String) :
    sliceContainsPortToExpose slice containerName portName = true ↔
      ∃ e ∈ slice, e.ContainerName = containerName ∧ e.PortName = portName := by
  induction slice with
  | nil => simp [sliceContainsPortToExpose]
  | cons item rest ih =>
    unfold sliceContainsPortToExpose
    by_cases h : item.ContainerName = containerName ∧ item.PortName = portName
    · simp [h]
    · rw [if_neg h, ih]
      constructor
      · rintro ⟨e, he, h1⟩
        exact ⟨e, List.mem_cons_of_mem _ he, h1⟩
      · rintro ⟨e, he, h1⟩
        rcases List.mem_cons.1 he with rfl | he
        · exact absurd h1 h
        · exact ⟨e, he, h1⟩

theorem hostPortsOfContainer_eq (exp : List PortToExpose) (containerName : String)
    (ports : List ContainerPort) :
    hostPortsOfContainer exp containerName ports
      = (ports.filter (fun p =>
          decide (∃ e ∈ exp, e.ContainerName = containerName ∧ e.PortName = p.Name))).map
          (fun p => p.HostPort) := by
  induction ports with
  | nil => rfl
  | cons p rest ih =>
    unfold hostPortsOfContainer
    by_cases h : sliceContainsPortToExpose exp containerName p.Name = true
    · rw [if_pos h, ih]
      have h1 := (sliceContainsPortToExpose_iff exp containerName p.Name).1 h
      rw [List.filter_cons_of_pos (by simpa using h1)]
      rfl
    · rw [if_neg h, ih]
      have h1 : ¬ ∃ e ∈ exp, e.ContainerName = containerName ∧ e.PortName = p.Name :=
        fun hc => h ((sliceContainsPortToExpose_iff exp containerName p.Name).2 hc)
      rw [List.filter_cons_of_neg (by simpa using h1)]

theorem hostPortsToRelease_eq_exposedHostPorts (gs : GameServer) :
    hostPortsToRelease gs = exposedHostPorts gs := by
  unfold hostPortsToRelease exposedHostPorts
  generalize gs.Spec.PodSpec.Containers = cs
  induction cs with
  | nil => rfl
  | cons c rest ih =>
    unfold hostPortsOfContainers
    rw [ih, hostPortsOfContainer_eq, List.flatMap_cons]

theorem assignPortsOfContainer_hostPorts (getNewPort : PortOracle) (exp : List PortToExpose)
    (containerName : String) :
    ∀ (ports : List ContainerPort) (allocated : List Int),
      (assignPortsOfContainer getNewPort exp containerName ports allocated).2.2 = none →
      (assignPortsOfContainer getNewPort exp containerName ports allocated).2.1
        = allocated ++ hostPortsOfContainer exp containerName
            (assignPortsOfContainer getNewPort exp containerName ports allocated).1 := by
  intro ports
  induction ports with
  | nil => intro allocated _; simp [assignPortsOfContainer, hostPortsOfContainer]
  | cons p ps ih =>
    intro allocated hok
    unfold assignPortsOfContainer at hok ⊢
    by_cases h : sliceContainsPortToExpose exp containerName p.Name = true
    · rw [if_pos h] at hok ⊢
      cases hp : getNewPort allocated.length with
      | error err =>
        rw [hp] at hok
        cases hok
      | ok port =>
        rw [hp] at hok
        dsimp only at hok ⊢
        rw [ih _ hok]
        simp [hostPortsOfContainer, h]
    · rw [if_neg h] at hok ⊢
      dsimp only at hok ⊢
      rw [ih _ hok]
      simp [hostPortsOfContainer, h]

theorem assignPortsOfContainers_hostPorts (getNewPort : PortOracle) (exp : List PortToExpose) :
    ∀ (cs : List Container) (allocated : List Int),
      (assignPortsOfContainers getNewPort exp cs allocated).2.2 = none →
      (assignPortsOfContainers getNewPort exp cs allocated).2.1
        = allocated ++ hostPortsOfContainers exp
            (assignPortsOfContainers getNewPort exp cs allocated).1 := by
  intro cs
  induction cs with
  | nil => intro allocated _; simp [assignPortsOfContainers, hostPortsOfContainers]
  | cons c rest ih =>
    intro allocated hok
    unfold assignPortsOfContainers at hok ⊢
    have h1 := assignPortsOfContainer_hostPorts getNewPort exp c.Name c.Ports allocated
    rcases hc : assignPortsOfContainer getNewPort exp c.Name c.Ports allocated
      with ⟨ports, allocated1, err⟩
    rw [hc] at hok h1
    cases err with
    | some err => cases hok
    | none =>
      dsimp only at hok h1 ⊢
      rw [ih _ hok, h1 rfl]
      simp [hostPortsOfContainers]

theorem NewGameServerForGameServerBuild_hostPorts (gsb : GameServerBuild)
    (getNewPort : PortOracle) (allocated : List Int) (suffix : String)
    (newgs : GameServer) (gsb1 : GameServerBuild) (allocated1 : List Int)
    (h : NewGameServerForGameServerBuild gsb getNewPort allocated suffix
      = (.ok newgs, gsb1, allocated1)) :
    allocated1 = allocated ++ hostPortsToRelease newgs := by
  unfold NewGameServerForGameServerBuild at h
  dsimp only at h
  have h1 := assignPortsOfContainers_hostPorts getNewPort gsb.Spec.PortsToExpose
    gsb.Spec.PodSpec.Containers allocated
  cases hr : (assignPortsOfContainers getNewPort gsb.Spec.PortsToExpose
    gsb.Spec.PodSpec.Containers allocated).2.2 with
  | some err =>
    rw [hr] at h
    cases h
  | none =>
    rw [hr] at h
    simp only [Prod.mk.injEq, Except.ok.injEq] at h
    obtain ⟨hgs, _, hal⟩ := h
    rw [← hal, ← hgs, h1 hr]
    rfl

/-- C11 (finalizer protocol). For an instance marked for deletion that carries the
finalizer, the calls of the pass are, in this order, `DeregisterServerPorts` on
the host ports of the container ports listed in ports-to-expose, then `r.Update`
of the instance without the finalizer; the pass returns the result of that update,
creates and updates no pod and leaves `podsUnderCreation` alone. For an instance
built by `NewGameServerForGameServerBuild` the ports released are the host ports
that call obtained from the registry. -/
theorem Reconcile_finalizer_releases_ports (env : GameServerEnv) (req : Request)
    (w : GameServerWorld) (obj : GameServer)
    (hg : env.getGameServer = .ok obj)
    (hdel : obj.DeletionTimestamp ≠ none)
    (hfin : finalizerName ∈ obj.Finalizers) :
    (GameServerReconciler.Reconcile env req w).2.actions
      = w.actions ++
        [.DeregisterServerPorts (exposedHostPorts obj),
         .Update { obj with Name := req.Name, Namespace := req.Namespace,
                            Finalizers := RemoveFinalizer obj.Finalizers finalizerName }] ∧
    finalizerName ∉ RemoveFinalizer obj.Finalizers finalizerName ∧
    (GameServerReconciler.Reconcile env req w).1
      = .returned { Requeue := false, RequeueAfter := 0 }
          (env.update { obj with Name := req.Name, Namespace := req.Namespace,
                                 Finalizers := RemoveFinalizer obj.Finalizers finalizerName }) ∧
    (GameServerReconciler.Reconcile env req w).2.podsCreated = w.podsCreated ∧
    (GameServerReconciler.Reconcile env req w).2.podsUnderCreation = w.podsUnderCreation ∧
    (∀ (gsb : GameServerBuild) (getNewPort : PortOracle) (allocated : List Int)
        (suffix : String) (newgs : GameServer) (gsb1 : GameServerBuild) (allocated1 : List Int),
      NewGameServerForGameServerBuild gsb getNewPort allocated suffix
          = (.ok newgs, gsb1, allocated1) →
        allocated1 = allocated ++ exposedHostPorts newgs) := by
  have hc : containsString obj.Finalizers finalizerName = true := by
    generalize obj.Finalizers = f at hfin
    induction f with
    | nil => simp at hfin
    | cons a rest ih =>
      unfold containsString
      by_cases h : a = finalizerName
      · simp [h]
      · rw [if_neg h]
        rcases List.mem_cons.1 hfin with h1 | h1
        · exact absurd h1.symm h
        · exact ih h1
  have hz : IsZero obj.DeletionTimestamp = false := by
    cases hd : obj.DeletionTimestamp with
    | none => exact absurd hd hdel
    | some t => rfl
  unfold GameServerReconciler.Reconcile
  rw [hg]
  simp only [hz, hc, Bool.false_eq_true, if_false, if_true]
  refine ⟨?_, ?_, trivial, trivial, trivial, ?_⟩
  · rw [← hostPortsToRelease_eq_exposedHostPorts]
    rfl
  · simp [RemoveFinalizer]
  · intro gsb getNewPort allocated suffix newgs gsb1 allocated1 h
    rw [← hostPortsToRelease_eq_exposedHostPorts]
    exact NewGameServerForGameServerBuild_hostPorts gsb getNewPort allocated suffix newgs gsb1
      allocated1 h

/-- C11 at an instance holding the host ports 10000 and 10001: both are passed to
the release operation before the update that removes the finalizer. -/
theorem Reconcile_finalizer_releases_ports_witness :
    deletingInstance.DeletionTimestamp ≠ none ∧
    finalizerName ∈ deletingInstance.Finalizers ∧
    (GameServerReconciler.Reconcile (instanceApiOf deletingInstance (.ok runningPod))
      instanceReq {}).2.actions
      = [.DeregisterServerPorts [10000, 10001],
         .Update { deletingInstance with Finalizers := [] }] :=
  ⟨by decide, by decide,
    (Reconcile_finalizer_releases_ports (instanceApiOf deletingInstance (.ok runningPod))
      instanceReq {} deletingInstance rfl (by decide) (by decide)).1.trans (by decide)⟩

/-! ## C12, C13, C14: the backing pod -/

theorem containsString_iff (slice : List String) (s : String) :
    containsString slice s = true ↔ s ∈ slice := by
  induction slice with
  | nil => simp [containsString]
  | cons a rest ih =>
    unfold containsString
    by_cases h : a = s
    · simp [h]
    · rw [if_neg h, ih]
      constructor
      · exact fun h1 => List.mem_cons_of_mem _ h1
      · intro h1
        rcases List.mem_cons.1 h1 with h2 | h2
        · exact absurd h2.symm h
        · exact h2

theorem exitedProcess_eq_find (statuses : List ContainerStatus)
    (hplat : ∀ cs ∈ statuses, cs.Terminated ≠ none → cs.Ready = false) :
    exitedProcess statuses
      = (statuses.find? (fun cs =>
          decide (cs.Name ≠ SidecarContainerName ∧ cs.Terminated ≠ none))).bind
          (fun cs => cs.Terminated) := by
  induction statuses with
  | nil => rfl
  | cons cs rest ih =>
    have ih1 := ih (fun x hx => hplat x (List.mem_cons_of_mem _ hx))
    unfold exitedProcess
    by_cases hn : cs.Name = SidecarContainerName
    · rw [if_pos hn, ih1, List.find?_cons_of_neg]
      simp [hn]
    · rw [if_neg hn]
      cases ht : cs.Terminated with
      | none =>
        dsimp only
        rw [ih1, List.find?_cons_of_neg]
        simp [ht]
      | some code =>
        have hr : cs.Ready = false := hplat cs (List.mem_cons_self _ _) (by simp [ht])
        dsimp only
        rw [List.find?_cons_of_pos]
        · simp [hr, ht]
        · simp [hn, ht]

theorem exitedProcess_none (statuses : List ContainerStatus)
    (h : ∀ cs ∈ statuses, cs.Name ≠ SidecarContainerName → cs.Terminated = none) :
    exitedProcess statuses = none := by
  induction statuses with
  | nil => rfl
  | cons cs rest ih =>
    have ih1 := ih (fun x hx => h x (List.mem_cons_of_mem _ hx))
    unfold exitedProcess
    by_cases hn : cs.Name = SidecarContainerName
    · rw [if_pos hn, ih1]
    · rw [if_neg hn, h cs (List.mem_cons_self _ _) hn]
      exact ih1

theorem reconcileFoundPod_keeps_state (env : GameServerEnv) (gs : GameServer) (pod : Pod)
    (w : GameServerWorld) (hnone : exitedProcess pod.ContainerStatuses = none) :
    ∃ new, (reconcileFoundPod env gs pod w).2.actions = w.actions ++ new ∧
      ∀ g, (Action.StatusUpdate g ∈ new ∨ Action.Update g ∈ new) →
        g.Status.State = gs.Status.State := by
  unfold reconcileFoundPod
  rw [hnone]
  dsimp only
  split
  · split
    · exact ⟨_, rfl, by simp⟩
    · split
      · refine ⟨_, by simp only [List.append_assoc]; rfl, by simp⟩
      · split
        · split
          · refine ⟨_, by simp only [List.append_assoc]; rfl, ?_⟩
            intro g hg
            simp at hg
            rw [hg]
          · refine ⟨_, by simp only [List.append_assoc]; rfl, ?_⟩
            intro g hg
            simp at hg
            rw [hg]
        · refine ⟨_, by simp only [List.append_assoc]; rfl, ?_⟩
          intro g hg
          simp at hg
          rw [hg]
  · exact ⟨_, rfl, by simp⟩

theorem Reconcile_eq_reconcilePod (env : GameServerEnv) (req : Request) (w : GameServerWorld)
    (obj : GameServer) (hg : env.getGameServer = .ok obj)
    (hnd : obj.DeletionTimestamp = none) (hfin : finalizerName ∈ obj.Finalizers) :
    GameServerReconciler.Reconcile env req w
      = reconcilePod env { obj with Name := req.Name, Namespace := req.Namespace } w := by
  unfold GameServerReconciler.Reconcile
  rw [hg]
  have hc : containsString obj.Finalizers finalizerName = true :=
    (containsString_iff _ _).2 hfin
  simp [hnd, hc, IsZero]

/-- C12 (exit-code classification). For an instance that is not being deleted,
carries the finalizer and whose pod is found in the cache, terminated containers
being not ready: when some container other than the sidecar has terminated, the
calls of the pass are the event and one status update that carries the state
GameCompleted if the first such container exited with code 0 and Crashed
otherwise, the pass returns the result of that update, and nothing else is done
(no pod update, no address lookup, no pod creation). When no container other than
the sidecar has terminated, whatever the sidecar's status, every instance object
the pass writes keeps the state it was fetched with. -/
theorem Reconcile_exit_code_classification (env : GameServerEnv) (req : Request)
    (w : GameServerWorld) (obj : GameServer) (pod : Pod)
    (hg : env.getGameServer = .ok obj)
    (hnd : obj.DeletionTimestamp = none) (hfin : finalizerName ∈ obj.Finalizers)
    (hp : env.getPod = .ok pod)
    (hplat : ∀ cs ∈ pod.ContainerStatuses, cs.Terminated ≠ none → cs.Ready = false) :
    (∀ cs0 exitCode,
      pod.ContainerStatuses.find? (fun cs =>
        decide (cs.Name ≠ SidecarContainerName ∧ cs.Terminated ≠ none)) = some cs0 →
      cs0.Terminated = some exitCode →
      (GameServerReconciler.Reconcile env req w).2.actions
        = w.actions ++
          [.Event "GameServerProcessExited",
           .StatusUpdate { obj with
             Name := req.Name, Namespace := req.Namespace
             Status := { obj.Status with State :=
               if exitCode = 0 then GameServerStateGameCompleted
               else GameServerStateCrashed } }] ∧
      (GameServerReconciler.Reconcile env req w).1
        = .returned { Requeue := false, RequeueAfter := 0 }
            (env.statusUpdate { obj with
              Name := req.Name, Namespace := req.Namespace
              Status := { obj.Status with State :=
                if exitCode = 0 then GameServerStateGameCompleted
                else GameServerStateCrashed } }) ∧
      (GameServerReconciler.Reconcile env req w).2.podsCreated = w.podsCreated) ∧
    ((∀ cs ∈ pod.ContainerStatuses, cs.Name ≠ SidecarContainerName → cs.Terminated = none) →
      ∃ new, (GameServerReconciler.Reconcile env req w).2.actions = w.actions ++ new ∧
        ∀ g, (Action.StatusUpdate g ∈ new ∨ Action.Update g ∈ new) →
          g.Status.State = obj.Status.State) := by
  rw [Reconcile_eq_reconcilePod env req w obj hg hnd hfin]
  unfold reconcilePod
  rw [hp]
  dsimp only
  constructor
  · intro cs0 exitCode hfind hcode
    have hex : exitedProcess pod.ContainerStatuses = some exitCode := by
      rw [exitedProcess_eq_find _ hplat, hfind]
      exact hcode
    unfold reconcileFoundPod
    rw [hex]
    dsimp only
    refine ⟨?_, rfl, ?_⟩
    · split <;> rfl
    · split <;> rfl
  · intro hside
    have hex := exitedProcess_none _ hside
    obtain ⟨new, hnew, hst⟩ := reconcileFoundPod_keeps_state env
      { obj with Name := req.Name, Namespace := req.Namespace } pod
      (if req.Name ∈ w.podsUnderCreation then
        { w with podsUnderCreation := w.podsUnderCreation.filter (fun k => k ≠ req.Name) }
       else w) hex
    refine ⟨new, ?_, hst⟩
    rw [hnew]
    split <;> rfl

/-- C12 at the sample instance whose game container exited with code 1: the state
written is Crashed. -/
theorem Reconcile_exit_code_classification_witness :
    (∀ cs ∈ crashedPod.ContainerStatuses, cs.Terminated ≠ none → cs.Ready = false) ∧
    (GameServerReconciler.Reconcile (instanceApiOf gameInstance (.ok crashedPod)) instanceReq
      {}).2.actions
      = [.Event "GameServerProcessExited",
         .StatusUpdate { gameInstance with Status := { State := GameServerStateCrashed } }] :=
  ⟨by decide,
    (((Reconcile_exit_code_classification (instanceApiOf gameInstance (.ok crashedPod))
      instanceReq {} gameInstance crashedPod rfl rfl (by decide) rfl (by decide)).1
        { Name := "game", Ready := false, Terminated := some 1 } 1 (by decide) rfl).1).trans
      (by decide)⟩

theorem reconcilePod_absent (env : GameServerEnv) (gs : GameServer) (w : GameServerWorld)
    (err : GoError) (hp : env.getPod = .error err) (hnf : IsNotFound err = true) :
    (gs.Name ∈ w.podsUnderCreation → reconcilePod env gs w = (.returned {} none, w)) ∧
    (gs.Name ∉ w.podsUnderCreation →
      (env.createPod (NewPodForGameServer gs) = none →
        reconcilePod env gs w = (.returned {} none,
          { podsUnderCreation := insertName w.podsUnderCreation gs.Name
            actions := w.actions ++ [.CreatePod (NewPodForGameServer gs), .Event "Created"]
            podsCreated := w.podsCreated ++ [NewPodForGameServer gs] })) ∧
      (∀ err1, env.createPod (NewPodForGameServer gs) = some err1 →
        reconcilePod env gs w = (.returned {} (some err1),
          { w with actions := w.actions ++ [.CreatePod (NewPodForGameServer gs)] }))) := by
  unfold reconcilePod
  rw [hp]
  simp only [hnf, if_true]
  refine ⟨fun hm => by rw [if_pos hm], fun hm => ⟨fun hc => ?_, fun err1 hc => ?_⟩⟩
  · rw [if_neg hm]
    simp [hc]
  · rw [if_neg hm]
    simp [hc]

theorem reconcileAll_marked (req : Request) :
    ∀ (envs : List GameServerEnv) (w : GameServerWorld),
      (∀ env ∈ envs, PodAbsent env) → req.Name ∈ w.podsUnderCreation →
      GameServerReconciler.reconcileAll req envs w = w := by
  intro envs
  induction envs with
  | nil => intro w _ _; rfl
  | cons env rest ih =>
    intro w habs hm
    obtain ⟨obj, err, hg, hnd, hfin, hp, hnf⟩ := habs env (List.mem_cons_self _ _)
    unfold GameServerReconciler.reconcileAll
    rw [Reconcile_eq_reconcilePod env req w obj hg hnd hfin,
      (reconcilePod_absent env _ w err hp hnf).1 hm]
    exact ih w (fun e he => habs e (List.mem_cons_of_mem _ he)) hm

/-- C13 as stated fails. The sample instance carries the finalizer, is not being
deleted, is not marked creation-pending, and its pod is absent from the cache; the
API server refuses the pod creation. The pass issues the create, returns its error,
creates no pod and does not mark the instance, and the next pass issues the create
again. -/
theorem Reconcile_pod_creation_guard_counterexample :
    createFailsApi.getGameServer = .ok gameInstance ∧
    gameInstance.DeletionTimestamp = none ∧ finalizerName ∈ gameInstance.Finalizers ∧
    createFailsApi.getPod = .error GoError.NotFound ∧
    (GameServerReconciler.Reconcile createFailsApi instanceReq {}).1
      = .returned { Requeue := false, RequeueAfter := 0 } (some GoError.Other) ∧
    (GameServerReconciler.Reconcile createFailsApi instanceReq {}).2.podsCreated = [] ∧
    (GameServerReconciler.Reconcile createFailsApi instanceReq {}).2.podsUnderCreation = [] ∧
    (GameServerReconciler.reconcileAll instanceReq [createFailsApi, createFailsApi]
      {}).actions
      = [.CreatePod (NewPodForGameServer gameInstance),
         .CreatePod (NewPodForGameServer gameInstance)] :=
  ⟨rfl, rfl, by decide, rfl, by decide, by decide, by decide, by decide⟩

/-- C13, amended. Take passes of one instance in each of which the instance is
fetched, is not being deleted, carries the finalizer, and its pod is absent from
the cache. A pass that finds the instance marked creation-pending returns at once
and changes nothing. A pass that finds it unmarked issues exactly one create, of a
pod with the instance's name and namespace; if the create succeeds the pod is
created, the instance is marked and the pass returns without error; if it fails
the pass returns the error and neither creates nor marks. Consequently a non-empty
run of such passes that starts unmarked and whose creates succeed creates exactly
one pod in total. -/
theorem Reconcile_pod_creation_guard (req : Request) (envs : List GameServerEnv)
    (habs : ∀ env ∈ envs, PodAbsent env) :
    (∀ env ∈ envs, ∀ w, req.Name ∈ w.podsUnderCreation →
      GameServerReconciler.Reconcile env req w
        = (.returned { Requeue := false, RequeueAfter := 0 } none, w)) ∧
    (∀ env ∈ envs, ∀ w, req.Name ∉ w.podsUnderCreation →
      ∃ pod, pod.Name = req.Name ∧ pod.Namespace = req.Namespace ∧
        (env.createPod pod = none →
          GameServerReconciler.Reconcile env req w
            = (.returned { Requeue := false, RequeueAfter := 0 } none,
                { podsUnderCreation := insertName w.podsUnderCreation req.Name
                  actions := w.actions ++ [.CreatePod pod, .Event "Created"]
                  podsCreated := w.podsCreated ++ [pod] })) ∧
        (∀ err, env.createPod pod = some err →
          GameServerReconciler.Reconcile env req w
            = (.returned { Requeue := false, RequeueAfter := 0 } (some err),
                { w with actions := w.actions ++ [.CreatePod pod] }))) ∧
    (envs ≠ [] → (∀ env ∈ envs, ∀ pod, env.createPod pod = none) →
      ∀ w, req.Name ∉ w.podsUnderCreation →
        ∃ pod, pod.Name = req.Name ∧
          (GameServerReconciler.reconcileAll req envs w).podsCreated = w.podsCreated ++ [pod] ∧
          req.Name ∈ (GameServerReconciler.reconcileAll req envs w).podsUnderCreation) := by
  refine ⟨?_, ?_, ?_⟩
  · intro env henv w hm
    obtain ⟨obj, err, hg, hnd, hfin, hp, hnf⟩ := habs env henv
    rw [Reconcile_eq_reconcilePod env req w obj hg hnd hfin]
    exact (reconcilePod_absent env _ w err hp hnf).1 hm
  · intro env henv w hm
    obtain ⟨obj, err, hg, hnd, hfin, hp, hnf⟩ := habs env henv
    rw [Reconcile_eq_reconcilePod env req w obj hg hnd hfin]
    exact ⟨NewPodForGameServer { obj with Name := req.Name, Namespace := req.Namespace },
      rfl, rfl, (reconcilePod_absent env _ w err hp hnf).2 hm⟩
  · intro hne hok w hm
    cases envs with
    | nil => exact absurd rfl hne
    | cons env rest =>
      obtain ⟨obj, err, hg, hnd, hfin, hp, hnf⟩ := habs env (List.mem_cons_self _ _)
      have h1 := ((reconcilePod_absent env
        { obj with Name := req.Name, Namespace := req.Namespace } w err hp hnf).2 hm).1
        (hok env (List.mem_cons_self _ _) _)
      unfold GameServerReconciler.reconcileAll
      rw [Reconcile_eq_reconcilePod env req w obj hg hnd hfin, h1]
      have hmark : req.Name ∈ insertName w.podsUnderCreation req.Name :=
        (mem_insertName _ _ _).2 (Or.inr rfl)
      rw [reconcileAll_marked req rest _ (fun e he => habs e (List.mem_cons_of_mem _ he)) hmark]
      exact ⟨_, rfl, rfl, hmark⟩

/-- C13 (amended) at three consecutive passes of the sample instance while its pod
stays absent from the cache: one pod is created in total. -/
theorem Reconcile_pod_creation_guard_witness :
    (∀ env ∈ [podAbsentApi, podAbsentApi, podAbsentApi], PodAbsent env) ∧
    ∃ pod, pod.Name = instanceReq.Name ∧
      (GameServerReconciler.reconcileAll instanceReq [podAbsentApi, podAbsentApi, podAbsentApi]
        {}).podsCreated = [] ++ [pod] ∧
      instanceReq.Name ∈ (GameServerReconciler.reconcileAll instanceReq
        [podAbsentApi, podAbsentApi, podAbsentApi] {}).podsUnderCreation :=
  have habs : ∀ env ∈ [podAbsentApi, podAbsentApi, podAbsentApi], PodAbsent env :=
    fun env henv => by
      have he : env = podAbsentApi := by simpa using henv
      subst he
      exact ⟨gameInstance, GoError.NotFound, rfl, rfl, by decide, rfl, rfl⟩
  ⟨habs,
    (Reconcile_pod_creation_guard instanceReq [podAbsentApi, podAbsentApi, podAbsentApi]
      habs).2.2 (by simp) (fun _ _ _ => by simp_all [podAbsentApi, instanceApiOf]) {}
      (by decide)⟩

theorem firstFree_spec (assigned : List Int) :
    ∀ (remaining : Nat) (start p : Int),
      PortRegistry.firstFree assigned remaining start = some p →
      start ≤ p ∧ p < start + remaining ∧ p ∉ assigned := by
  intro remaining
  induction remaining with
  | zero => intro start p h; simp [PortRegistry.firstFree] at h
  | succ r ih =>
    intro start p h
    unfold PortRegistry.firstFree at h
    by_cases hm : start ∈ assigned
    · rw [if_pos hm] at h
      obtain ⟨h1, h2, h3⟩ := ih _ _ h
      refine ⟨by omega, ?_, h3⟩
      push_cast
      omega
    · rw [if_neg hm] at h
      cases h
      refine ⟨le_refl _, ?_, hm⟩
      push_cast
      omega

theorem GetNewPort_spec (pr : PortRegistry) (p : Int)
    (h : pr.GetNewPort.1 = .ok p) :
    pr.Min ≤ p ∧ p < pr.Max ∧ p ∉ pr.HostPorts ∧
    pr.GetNewPort.2 = { pr with HostPorts := p :: pr.HostPorts } := by
  unfold PortRegistry.GetNewPort at h ⊢
  cases hf : PortRegistry.firstFree pr.HostPorts (pr.Max - pr.Min).toNat pr.Min with
  | none =>
    rw [hf] at h
    cases h
  | some q =>
    rw [hf] at h
    simp only [Except.ok.injEq] at h
    subst h
    obtain ⟨h1, h2, h3⟩ := firstFree_spec _ _ _ _ hf
    refine ⟨h1, ?_, h3, rfl⟩
    have : ((pr.Max - pr.Min).toNat : Int) ≤ max (pr.Max - pr.Min) 0 := by
      rw [Int.toNat_eq_max]
    omega

theorem GetNewPort_frame (pr : PortRegistry) :
    pr.GetNewPort.2.Min = pr.Min ∧ pr.GetNewPort.2.Max = pr.Max ∧
    (∀ p ∈ pr.HostPorts, p ∈ pr.GetNewPort.2.HostPorts) ∧
    (∀ p, pr.GetNewPort.1 = .ok p → p ∈ pr.GetNewPort.2.HostPorts) := by
  unfold PortRegistry.GetNewPort
  cases PortRegistry.firstFree pr.HostPorts (pr.Max - pr.Min).toNat pr.Min with
  | none => exact ⟨rfl, rfl, fun _ h => h, fun _ h => by cases h⟩
  | some q =>
    refine ⟨rfl, rfl, fun _ h => List.mem_cons_of_mem _ h, fun p h => ?_⟩
    simp only [Except.ok.injEq] at h
    subst h
    exact List.mem_cons_self _ _

theorem run_bounds (calls : List RegistryCall) :
    ∀ pr : PortRegistry, (pr.run calls).Min = pr.Min ∧ (pr.run calls).Max = pr.Max := by
  induction calls with
  | nil => intro pr; exact ⟨rfl, rfl⟩
  | cons c rest ih =>
    intro pr
    cases c with
    | GetNewPort =>
      unfold PortRegistry.run
      obtain ⟨h1, h2, _, _⟩ := GetNewPort_frame pr
      exact ⟨(ih _).1.trans h1, (ih _).2.trans h2⟩
    | DeregisterServerPorts ports =>
      unfold PortRegistry.run
      exact ⟨(ih _).1, (ih _).2⟩

theorem run_invariant (calls : List RegistryCall) :
    ∀ pr : PortRegistry, pr.HostPorts.Nodup →
      (∀ p ∈ pr.HostPorts, pr.Min ≤ p ∧ p < pr.Max) →
      (pr.run calls).HostPorts.Nodup ∧
      ∀ p ∈ (pr.run calls).HostPorts, pr.Min ≤ p ∧ p < pr.Max := by
  induction calls with
  | nil => intro pr h1 h2; exact ⟨h1, h2⟩
  | cons c rest ih =>
    intro pr h1 h2
    cases c with
    | GetNewPort =>
      unfold PortRegistry.run
      obtain ⟨f1, f2, _, _⟩ := GetNewPort_frame pr
      have key : pr.GetNewPort.2.HostPorts.Nodup ∧
          ∀ p ∈ pr.GetNewPort.2.HostPorts, pr.Min ≤ p ∧ p < pr.Max := by
        cases hg : pr.GetNewPort.1 with
        | error e =>
          have : pr.GetNewPort.2 = pr := by
            unfold PortRegistry.GetNewPort at hg ⊢
            cases hf : PortRegistry.firstFree pr.HostPorts (pr.Max - pr.Min).toNat pr.Min with
            | none => rfl
            | some q => rw [hf] at hg; cases hg
          rw [this]
          exact ⟨h1, h2⟩
        | ok p =>
          obtain ⟨g1, g2, g3, g4⟩ := GetNewPort_spec pr p hg
          rw [g4]
          refine ⟨List.nodup_cons.2 ⟨g3, h1⟩, ?_⟩
          intro q hq
          rcases List.mem_cons.1 hq with rfl | hq
          · exact ⟨g1, g2⟩
          · exact h2 q hq
      have := ih pr.GetNewPort.2 key.1 (by rw [f1, f2]; exact key.2)
      rw [f1, f2] at this
      exact this
    | DeregisterServerPorts ports =>
      unfold PortRegistry.run
      refine ih (pr.DeregisterServerPorts ports) (h1.filter _) ?_
      intro p hp
      exact h2 p (List.mem_of_mem_filter hp)

theorem run_keeps (calls : List RegistryCall) :
    ∀ (pr : PortRegistry) (p : Int), p ∈ pr.HostPorts →
      (∀ ports, RegistryCall.DeregisterServerPorts ports ∈ calls → p ∉ ports) →
      p ∈ (pr.run calls).HostPorts := by
  induction calls with
  | nil => intro pr p h _; exact h
  | cons c rest ih =>
    intro pr p h hrel
    have hrest : ∀ ports, RegistryCall.DeregisterServerPorts ports ∈ rest → p ∉ ports :=
      fun ports hm => hrel ports (List.mem_cons_of_mem _ hm)
    cases c with
    | GetNewPort =>
      unfold PortRegistry.run
      exact ih _ p ((GetNewPort_frame pr).2.2.1 p h) hrest
    | DeregisterServerPorts ports =>
      unfold PortRegistry.run
      refine ih _ p ?_ hrest
      unfold PortRegistry.DeregisterServerPorts
      exact List.mem_filter.2 ⟨h, by simpa using hrel ports (List.mem_cons_self _ _)⟩

theorem serve_spec :
    ∀ (n : Nat) (pr : PortRegistry) (p : Int), (pr.serve n).1 = .ok p →
      pr.Min ≤ p ∧ p < pr.Max ∧ p ∉ pr.HostPorts ∧
      ∀ m, m < n → ∀ q, (pr.serve m).1 = .ok q → q ≠ p := by
  intro n
  induction n with
  | zero =>
    intro pr p h
    obtain ⟨h1, h2, h3, _⟩ := GetNewPort_spec pr p h
    exact ⟨h1, h2, h3, fun m hm => absurd hm (Nat.not_lt_zero m)⟩
  | succ n ih =>
    intro pr p h
    obtain ⟨f1, f2, f3, f4⟩ := GetNewPort_frame pr
    have h' : (pr.GetNewPort.2.serve n).1 = .ok p := h
    obtain ⟨h1, h2, h3, h4⟩ := ih _ p h'
    refine ⟨f1 ▸ h1, f2 ▸ h2, fun hm => h3 (f3 p hm), ?_⟩
    intro m hm q hq
    cases m with
    | zero =>
      intro hqp
      subst hqp
      exact h3 (f4 q hq)
    | succ m => exact h4 m (by omega) q hq

theorem serve_mem_run :
    ∀ (n : Nat) (pr : PortRegistry) (p : Int) (k : Nat), (pr.serve n).1 = .ok p → n < k →
      p ∈ (pr.run (List.replicate k RegistryCall.GetNewPort)).HostPorts := by
  intro n
  induction n with
  | zero =>
    intro pr p k h hk
    cases k with
    | zero => exact absurd hk (Nat.lt_irrefl 0)
    | succ k =>
      rw [List.replicate_succ]
      unfold PortRegistry.run
      refine run_keeps _ _ p ((GetNewPort_frame pr).2.2.2 p h) ?_
      intro ports hm
      simp at hm
  | succ n ih =>
    intro pr p k h hk
    cases k with
    | zero => exact absurd hk (Nat.not_lt_zero _)
    | succ k =>
      rw [List.replicate_succ]
      unfold PortRegistry.run
      exact ih _ p k h (by omega)

theorem servedBy_snoc (getNewPort : PortOracle) (allocated : List Int) (port : Int)
    (h : ServedBy getNewPort allocated) (hp : getNewPort allocated.length = .ok port) :
    ServedBy getNewPort (allocated ++ [port]) := by
  intro i p hi
  by_cases hlt : i < allocated.length
  · rw [List.getElem?_append_left hlt] at hi
    exact h i p hi
  · have hle : allocated.length ≤ i := Nat.le_of_not_lt hlt
    rw [List.getElem?_append_right hle] at hi
    have hi0 : i - allocated.length = 0 := by
      by_contra hne
      have : 1 ≤ i - allocated.length := Nat.one_le_iff_ne_zero.2 hne
      rw [List.getElem?_eq_none (by simpa using this)] at hi
      cases hi
    rw [hi0] at hi
    simp only [List.getElem?_cons_zero, Option.some.injEq] at hi
    have : i = allocated.length := by omega
    rw [this, ← hi]
    exact hp

theorem assignPortsOfContainer_served (getNewPort : PortOracle) (exp : List PortToExpose)
    (containerName : String) :
    ∀ (ports : List ContainerPort) (allocated : List Int), ServedBy getNewPort allocated →
      ServedBy getNewPort
        (assignPortsOfContainer getNewPort exp containerName ports allocated).2.1 := by
  intro ports
  induction ports with
  | nil => intro allocated h; exact h
  | cons p ps ih =>
    intro allocated h
    unfold assignPortsOfContainer
    split
    · cases hp : getNewPort allocated.length with
      | error err => exact h
      | ok port => exact ih _ (servedBy_snoc getNewPort allocated port h hp)
    · exact ih _ h

theorem assignPortsOfContainers_served (getNewPort : PortOracle) (exp : List PortToExpose) :
    ∀ (cs : List Container) (allocated : List Int), ServedBy getNewPort allocated →
      ServedBy getNewPort (assignPortsOfContainers getNewPort exp cs allocated).2.1 := by
  intro cs
  induction cs with
  | nil => intro allocated h; exact h
  | cons c rest ih =>
    intro allocated h
    unfold assignPortsOfContainers
    have h1 := assignPortsOfContainer_served getNewPort exp c.Name c.Ports allocated h
    rcases hc : assignPortsOfContainer getNewPort exp c.Name c.Ports allocated
      with ⟨ports, allocated1, err⟩
    rw [hc] at h1
    cases err with
    | some err => exact h1
    | none => exact ih _ h1

theorem NewGameServerForGameServerBuild_served (gsb : GameServerBuild)
    (getNewPort : PortOracle) (suffix : String)
    (newgs : GameServer) (gsb1 : GameServerBuild) (ports : List Int)
    (h : NewGameServerForGameServerBuild gsb getNewPort [] suffix = (.ok newgs, gsb1, ports)) :
    ServedBy getNewPort ports := by
  have h1 := assignPortsOfContainers_served getNewPort gsb.Spec.PortsToExpose
    gsb.Spec.PodSpec.Containers [] (fun i p hi => by simp at hi)
  unfold NewGameServerForGameServerBuild at h
  dsimp only at h
  cases hr : (assignPortsOfContainers getNewPort gsb.Spec.PortsToExpose
    gsb.Spec.PodSpec.Containers []).2.2 with
  | some err =>
    rw [hr] at h
    cases h
  | none =>
    rw [hr] at h
    simp only [Prod.mk.injEq, Except.ok.injEq] at h
    rw [← h.2.2]
    exact h1

theorem servedBy_registry (pr : PortRegistry) (ports : List Int)
    (h : ServedBy pr.oracle ports) :
    ports.Nodup ∧
    (∀ p ∈ ports, pr.Min ≤ p ∧ p < pr.Max ∧ p ∉ pr.HostPorts) ∧
    (∀ p ∈ ports,
      p ∈ (pr.run (List.replicate ports.length RegistryCall.GetNewPort)).HostPorts) := by
  refine ⟨?_, ?_, ?_⟩
  · rw [List.nodup_iff_getElem?_ne_getElem?]
    intro i j hij hj heq
    have hi : i < ports.length := lt_trans hij hj
    have e1 := h i ports[i] (List.getElem?_eq_getElem hi)
    have e2 := h j ports[j] (List.getElem?_eq_getElem hj)
    have hne := (serve_spec j pr ports[j] e2).2.2.2 i hij ports[i] e1
    rw [List.getElem?_eq_getElem hi, List.getElem?_eq_getElem hj] at heq
    exact hne (Option.some.inj heq)
  · intro p hp
    obtain ⟨i, hi, rfl⟩ := List.getElem_of_mem hp
    have e1 := h i ports[i] (List.getElem?_eq_getElem hi)
    obtain ⟨a, b, c, _⟩ := serve_spec i pr ports[i] e1
    exact ⟨a, b, c⟩
  · intro p hp
    obtain ⟨i, hi, rfl⟩ := List.getElem_of_mem hp
    have e1 := h i ports[i] (List.getElem?_eq_getElem hi)
    exact serve_mem_run i pr ports[i] ports.length e1 hi

theorem run_append (calls1 : List RegistryCall) :
    ∀ (pr : PortRegistry) (calls2 : List RegistryCall),
      pr.run (calls1 ++ calls2) = (pr.run calls1).run calls2 := by
  induction calls1 with
  | nil => intro pr calls2; rfl
  | cons c rest ih =>
    intro pr calls2
    cases c with
    | GetNewPort =>
      simp only [List.cons_append, PortRegistry.run]
      exact ih _ _
    | DeregisterServerPorts ports =>
      simp only [List.cons_append, PortRegistry.run]
      exact ih _ _

theorem answers_getElem (calls : List RegistryCall) :
    ∀ (pr : PortRegistry) (k : Nat) (a : Except GoError Int),
      (pr.answers calls)[k]? = some a →
      ∃ c1 c2, calls = c1 ++ RegistryCall.GetNewPort :: c2 ∧
        c1.count RegistryCall.GetNewPort = k ∧ (pr.run c1).GetNewPort.1 = a := by
  induction calls with
  | nil => intro pr k a h; simp [PortRegistry.answers] at h
  | cons c rest ih =>
    intro pr k a h
    cases c with
    | GetNewPort =>
      cases k with
      | zero =>
        simp only [PortRegistry.answers, List.getElem?_cons_zero, Option.some.injEq] at h
        exact ⟨[], rest, rfl, rfl, h⟩
      | succ k =>
        simp only [PortRegistry.answers, List.getElem?_cons_succ] at h
        obtain ⟨c1, c2, e, hc, ha⟩ := ih _ k a h
        refine ⟨RegistryCall.GetNewPort :: c1, c2, by rw [e]; rfl, ?_, ?_⟩
        · rw [List.count_cons_self, hc]
        · exact ha
    | DeregisterServerPorts ports =>
      simp only [PortRegistry.answers] at h
      obtain ⟨c1, c2, e, hc, ha⟩ := ih _ k a h
      refine ⟨RegistryCall.DeregisterServerPorts ports :: c1, c2, by rw [e]; rfl, ?_, ?_⟩
      · rw [List.count_cons_of_ne (by simp), hc]
      · exact ha

theorem split_of_count_lt (c1 c2 d1 d2 : List RegistryCall)
    (h : c1 ++ RegistryCall.GetNewPort :: c2 = d1 ++ RegistryCall.GetNewPort :: d2)
    (hlt : c1.count RegistryCall.GetNewPort < d1.count RegistryCall.GetNewPort) :
    ∃ e, d1 = c1 ++ RegistryCall.GetNewPort :: e := by
  rcases List.append_eq_append_iff.1 h with ⟨a, ha, hb⟩ | ⟨a, ha, hb⟩
  · cases a with
    | nil =>
      simp only [List.append_nil] at ha
      rw [ha] at hlt
      exact absurd hlt (Nat.lt_irrefl _)
    | cons x e =>
      simp only [List.cons_append, List.cons.injEq] at hb
      exact ⟨e, by rw [ha, hb.1]⟩
  · rw [ha, List.count_append] at hlt
    omega

/-- Two `GetNewPort` calls of one sequence of calls do not return the same port as
long as no release names the port of the earlier one after that call. -/
theorem answers_ne (pr : PortRegistry) (calls : List RegistryCall) (k1 k2 : Nat) (p q : Int)
    (hlt : k1 < k2)
    (h1 : (pr.answers calls)[k1]? = some (.ok p))
    (h2 : (pr.answers calls)[k2]? = some (.ok q))
    (hrel : Unreleased pr calls k1) : p ≠ q := by
  obtain ⟨c1, c2, e1, n1, a1⟩ := answers_getElem calls pr k1 _ h1
  obtain ⟨d1, d2, e2, n2, a2⟩ := answers_getElem calls pr k2 _ h2
  obtain ⟨e, he⟩ := split_of_count_lt c1 c2 d1 d2 (e1.symm.trans e2) (by rw [n1, n2]; exact hlt)
  have hc2 : c2 = e ++ RegistryCall.GetNewPort :: d2 := by
    rw [he, List.append_assoc, List.cons_append] at e2
    have := e1.symm.trans e2
    simpa using this
  have hrun : pr.run d1 = PortRegistry.run (pr.run c1).GetNewPort.2 e := by
    rw [he, run_append]
    rfl
  have hin : p ∈ (pr.run d1).HostPorts := by
    rw [hrun]
    refine run_keeps e _ p ((GetNewPort_frame _).2.2.2 p a1) ?_
    intro ports hm
    refine hrel c1 c2 p e1 n1 a1 ports ?_
    rw [hc2]
    exact List.mem_append_left _ hm
  intro hpq
  subst hpq
  exact (GetNewPort_spec _ p a2).2.2.1 hin

theorem answers_range (pr : PortRegistry) (calls : List RegistryCall) (k : Nat) (p : Int)
    (h : (pr.answers calls)[k]? = some (.ok p)) : pr.Min ≤ p ∧ p < pr.Max := by
  obtain ⟨c1, c2, _, _, a⟩ := answers_getElem calls pr k _ h
  obtain ⟨g1, g2, _, _⟩ := GetNewPort_spec _ p a
  rw [(run_bounds c1 pr).1] at g1
  rw [(run_bounds c1 pr).2] at g2
  exact ⟨g1, g2⟩

theorem oracleAt_ok (pr : PortRegistry) (calls : List RegistryCall) (pos : Nat → Nat)
    (n : Nat) (p : Int) (h : pr.oracleAt calls pos n = .ok p) :
    (pr.answers calls)[pos n]? = some (.ok p) := by
  unfold PortRegistry.oracleAt at h
  cases ha : (pr.answers calls)[pos n]? with
  | none =>
    rw [ha] at h
    cases h
  | some a =>
    rw [ha] at h
    simp only [Option.getD_some] at h
    rw [h]

/-- The ports served to two concurrent constructions by one registry are pairwise
distinct, within each and across them, as long as none is named in a release after
it was returned. -/
theorem servedBy_oracleAt (pr : PortRegistry) (calls : List RegistryCall)
    (posA posB : Nat → Nat) (portsA portsB : List Int)
    (hiA : Function.Injective posA) (hiB : Function.Injective posB)
    (hAB : ∀ m n, posA m ≠ posB n)
    (hA : ServedBy (pr.oracleAt calls posA) portsA)
    (hB : ServedBy (pr.oracleAt calls posB) portsB)
    (hrA : ∀ n, n < portsA.length → Unreleased pr calls (posA n))
    (hrB : ∀ n, n < portsB.length → Unreleased pr calls (posB n)) :
    (portsA ++ portsB).Nodup ∧ ∀ p ∈ portsA ++ portsB, pr.Min ≤ p ∧ p < pr.Max := by
  have key : ∀ (pos1 pos2 : Nat → Nat) (ports1 ports2 : List Int),
      ServedBy (pr.oracleAt calls pos1) ports1 → ServedBy (pr.oracleAt calls pos2) ports2 →
      (∀ n, n < ports1.length → Unreleased pr calls (pos1 n)) →
      (∀ n, n < ports2.length → Unreleased pr calls (pos2 n)) →
      ∀ (i j : Nat) (hi : i < ports1.length) (hj : j < ports2.length),
        pos1 i ≠ pos2 j → ports1[i] ≠ ports2[j] := by
    intro pos1 pos2 ports1 ports2 h1 h2 r1 r2 i j hi hj hne
    have a1 := oracleAt_ok pr calls pos1 i _ (h1 i ports1[i] (List.getElem?_eq_getElem hi))
    have a2 := oracleAt_ok pr calls pos2 j _ (h2 j ports2[j] (List.getElem?_eq_getElem hj))
    rcases Nat.lt_or_gt_of_ne hne with hlt | hgt
    · exact answers_ne pr calls _ _ _ _ hlt a1 a2 (r1 i hi)
    · exact fun h => answers_ne pr calls _ _ _ _ hgt a2 a1 (r2 j hj) h.symm
  have nodupOf : ∀ (pos : Nat → Nat) (ports : List Int), Function.Injective pos →
      ServedBy (pr.oracleAt calls pos) ports →
      (∀ n, n < ports.length → Unreleased pr calls (pos n)) → ports.Nodup := by
    intro pos ports hinj h r
    rw [List.nodup_iff_getElem?_ne_getElem?]
    intro i j hij hj heq
    have hi : i < ports.length := lt_trans hij hj
    rw [List.getElem?_eq_getElem hi, List.getElem?_eq_getElem hj] at heq
    exact key pos pos ports ports h h r r i j hi hj
      (fun hp => absurd (hinj hp) (Nat.ne_of_lt hij)) (Option.some.inj heq)
  refine ⟨?_, ?_⟩
  · rw [List.nodup_append]
    refine ⟨nodupOf posA portsA hiA hA hrA, nodupOf posB portsB hiB hB hrB, ?_⟩
    intro p hpA hpB
    obtain ⟨i, hi, rfl⟩ := List.getElem_of_mem hpA
    obtain ⟨j, hj, hq⟩ := List.getElem_of_mem hpB
    exact key posA posB portsA portsB hA hB hrA hrB i j hi hj (hAB i j) hq.symm
  · intro p hp
    rcases List.mem_append.1 hp with h | h
    · obtain ⟨i, hi, rfl⟩ := List.getElem_of_mem h
      exact answers_range pr calls _ _
        (oracleAt_ok pr calls posA i _ (hA i portsA[i] (List.getElem?_eq_getElem hi)))
    · obtain ⟨i, hi, rfl⟩ := List.getElem_of_mem h
      exact answers_range pr calls _ _
        (oracleAt_ok pr calls posB i _ (hB i portsB[i] (List.getElem?_eq_getElem hi)))

theorem unreleased_of_out_of_range (pr : PortRegistry) (calls : List RegistryCall) (k : Nat)
    (h : ∀ ports, RegistryCall.DeregisterServerPorts ports ∈ calls →
      ∀ q ∈ ports, ¬ (pr.Min ≤ q ∧ q < pr.Max)) : Unreleased pr calls k := by
  intro c1 c2 p e _ hp ports hm hin
  obtain ⟨g1, g2, _, _⟩ := GetNewPort_spec _ p hp
  rw [(run_bounds c1 pr).1] at g1
  rw [(run_bounds c1 pr).2] at g2
  refine h ports ?_ p hin ⟨g1, g2⟩
  rw [e]
  exact List.mem_append_right _ (List.mem_cons_of_mem _ hm)

/-- C15 as stated fails: two live instances can hold the same host ports. Instance
X of `twoPortFleet` is built from the empty registry and holds 10000 and 10001.
X is deleted: its finalizer pass releases the two ports, the API server refuses the
update that removes the finalizer, the pass returns the error and is run again,
releasing the same two ports a second time. Instance Y is built between the two
passes and instance Z after the second. The registry, which frees ports by number,
hands 10000 and 10001 to Y and again to Z, neither of which is being
deleted or had its ports released by a pass of its own. -/
theorem PortRegistry_port_uniqueness_counterexample :
    ∃ gsX gsY gsZ : GameServer,
      (NewGameServerForGameServerBuild twoPortFleet (PortRegistry.run {} []).oracle []
        "aaaaa").1 = .ok gsX ∧
      exposedHostPorts gsX = [10000, 10001] ∧
      (GameServerReconciler.Reconcile (releaseRefusedApi gsX)
        { Namespace := "default", Name := "fleet-aaaaa" } {}).1
        = .returned { Requeue := false, RequeueAfter := 0 } (some GoError.Other) ∧
      registryCallsOf (GameServerReconciler.reconcileAll
        { Namespace := "default", Name := "fleet-aaaaa" } [releaseRefusedApi gsX] {}).actions
        = [.DeregisterServerPorts [10000, 10001]] ∧
      registryCallsOf (GameServerReconciler.reconcileAll
        { Namespace := "default", Name := "fleet-aaaaa" }
        [releaseRefusedApi gsX, releaseRefusedApi gsX] {}).actions
        = [.DeregisterServerPorts [10000, 10001], .DeregisterServerPorts [10000, 10001]] ∧
      (NewGameServerForGameServerBuild twoPortFleet
        (PortRegistry.run {}
          [.GetNewPort, .GetNewPort, .DeregisterServerPorts [10000, 10001]]).oracle []
        "bbbbb").1 = .ok gsY ∧
      (NewGameServerForGameServerBuild twoPortFleet
        (PortRegistry.run {}
          [.GetNewPort, .GetNewPort, .DeregisterServerPorts [10000, 10001],
           .GetNewPort, .GetNewPort, .DeregisterServerPorts [10000, 10001]]).oracle []
        "ccccc").1 = .ok gsZ ∧
      gsY.Name = "fleet-bbbbb" ∧ gsZ.Name = "fleet-ccccc" ∧
      gsY.DeletionTimestamp = none ∧ gsZ.DeletionTimestamp = none ∧
      exposedHostPorts gsY = [10000, 10001] ∧ exposedHostPorts gsZ = [10000, 10001] ∧
      ¬ (exposedHostPorts gsY ++ exposedHostPorts gsZ).Nodup :=
  ⟨_, _, _, rfl, by decide, by decide, by decide, by decide, rfl, rfl, by decide, by decide,
    by decide, by decide, by decide, by decide, by decide⟩

/-- C15, amended, for the registry modelled from the spec, concurrent calls taking
effect one after another. After any sequence `calls1` of `GetNewPort` and
`DeregisterServerPorts` calls on an empty registry: the ports held are pairwise
distinct and lie in `[MinPort, MaxPort)`; a port returned by `GetNewPort` lies in
`[MinPort, MaxPort)`, is not held, and is not returned by a later `GetNewPort`
as long as no call of the calls `calls2` in between names it in a release. Hence,
when `NewGameServerForGameServerBuild` builds an instance A from the registry, and
later an instance B while no release has named a port of A, the host ports written
into the exposed ports of A and of B are the ports obtained, pairwise distinct
within and across the two instances, and in range. Whatever the registry answers,
the host ports written into the exposed ports of an instance are the answers to the
`GetNewPort` calls of its construction, one call per port, in order. Finally, for
two constructions that run concurrently with each other and with any other callers,
their `GetNewPort` calls being any distinct ones among the calls made on the
registry: the host ports written into the two instances are pairwise distinct,
within and across them, and in range, as long as no release names one of these
ports after it was returned. -/
theorem PortRegistry_port_uniqueness (calls1 calls2 : List RegistryCall) :
    ((PortRegistry.run {} calls1).HostPorts.Nodup ∧
      ∀ p ∈ (PortRegistry.run {} calls1).HostPorts, MinPort ≤ p ∧ p < MaxPort) ∧
    (∀ p, (PortRegistry.run {} calls1).GetNewPort.1 = .ok p →
      MinPort ≤ p ∧ p < MaxPort ∧ p ∉ (PortRegistry.run {} calls1).HostPorts ∧
      ((∀ ports, RegistryCall.DeregisterServerPorts ports ∈ calls2 → p ∉ ports) →
        ∀ q, (PortRegistry.run (PortRegistry.run {} calls1).GetNewPort.2
          calls2).GetNewPort.1 = .ok q → q ≠ p)) ∧
    (∀ (gsbA gsbB : GameServerBuild) (sA sB : String) (gsA gsB : GameServer),
      (NewGameServerForGameServerBuild gsbA (PortRegistry.run {} calls1).oracle [] sA).1
        = .ok gsA →
      (∀ ports, RegistryCall.DeregisterServerPorts ports ∈ calls2 →
        ∀ p ∈ exposedHostPorts gsA, p ∉ ports) →
      (NewGameServerForGameServerBuild gsbB
        (PortRegistry.run (PortRegistry.run (PortRegistry.run {} calls1)
          (List.replicate (exposedHostPorts gsA).length RegistryCall.GetNewPort))
          calls2).oracle [] sB).1 = .ok gsB →
      exposedHostPorts gsA
        = (NewGameServerForGameServerBuild gsbA (PortRegistry.run {} calls1).oracle []
            sA).2.2 ∧
      exposedHostPorts gsB
        = (NewGameServerForGameServerBuild gsbB
            (PortRegistry.run (PortRegistry.run (PortRegistry.run {} calls1)
              (List.replicate (exposedHostPorts gsA).length RegistryCall.GetNewPort))
              calls2).oracle [] sB).2.2 ∧
      (exposedHostPorts gsA ++ exposedHostPorts gsB).Nodup ∧
      ∀ p ∈ exposedHostPorts gsA ++ exposedHostPorts gsB, MinPort ≤ p ∧ p < MaxPort) ∧
    (∀ (gsb : GameServerBuild) (getNewPort : PortOracle) (suffix : String) (gs : GameServer),
      (NewGameServerForGameServerBuild gsb getNewPort [] suffix).1 = .ok gs →
      exposedHostPorts gs = (NewGameServerForGameServerBuild gsb getNewPort [] suffix).2.2 ∧
      ServedBy getNewPort (exposedHostPorts gs)) ∧
    (∀ (calls : List RegistryCall) (posA posB : Nat → Nat) (gsbA gsbB : GameServerBuild)
        (sA sB : String) (gsA gsB : GameServer),
      Function.Injective posA → Function.Injective posB → (∀ m n, posA m ≠ posB n) →
      (NewGameServerForGameServerBuild gsbA (PortRegistry.oracleAt {} calls posA) [] sA).1
        = .ok gsA →
      (NewGameServerForGameServerBuild gsbB (PortRegistry.oracleAt {} calls posB) [] sB).1
        = .ok gsB →
      (∀ n, n < (exposedHostPorts gsA).length → Unreleased {} calls (posA n)) →
      (∀ n, n < (exposedHostPorts gsB).length → Unreleased {} calls (posB n)) →
      (exposedHostPorts gsA ++ exposedHostPorts gsB).Nodup ∧
      ∀ p ∈ exposedHostPorts gsA ++ exposedHostPorts gsB, MinPort ≤ p ∧ p < MaxPort) := by
  have hb1 := run_bounds calls1 {}
  have hmin : ({} : PortRegistry).Min = MinPort := rfl
  have hmax : ({} : PortRegistry).Max = MaxPort := rfl
  have hserved : ∀ (gsb : GameServerBuild) (getNewPort : PortOracle) (suffix : String)
      (gs : GameServer),
      (NewGameServerForGameServerBuild gsb getNewPort [] suffix).1 = .ok gs →
      exposedHostPorts gs = (NewGameServerForGameServerBuild gsb getNewPort [] suffix).2.2 ∧
      ServedBy getNewPort (exposedHostPorts gs) := by
    intro gsb getNewPort suffix gs hgs
    have e : NewGameServerForGameServerBuild gsb getNewPort [] suffix
        = (.ok gs, (NewGameServerForGameServerBuild gsb getNewPort [] suffix).2.1,
          (NewGameServerForGameServerBuild gsb getNewPort [] suffix).2.2) := by
      rw [← hgs]
    have p : (NewGameServerForGameServerBuild gsb getNewPort [] suffix).2.2
        = exposedHostPorts gs := by
      have := NewGameServerForGameServerBuild_hostPorts _ _ _ _ _ _ _ e
      rw [this, hostPortsToRelease_eq_exposedHostPorts]
      simp
    have sv := NewGameServerForGameServerBuild_served _ _ _ _ _ _ e
    rw [p] at sv
    exact ⟨p.symm, sv⟩
  refine ⟨?_, ?_, ?_, hserved, ?_⟩
  rotate_left 3
  · intro calls posA posB gsbA gsbB sA sB gsA gsB hiA hiB hAB hA hB hrA hrB
    exact servedBy_oracleAt {} calls posA posB _ _ hiA hiB hAB
      (hserved gsbA _ sA gsA hA).2 (hserved gsbB _ sB gsB hB).2 hrA hrB
  · have h := run_invariant calls1 {} List.nodup_nil (fun p hp => by cases hp)
    rw [hmin, hmax] at h
    exact h
  · intro p hp
    obtain ⟨g1, g2, g3, _⟩ := GetNewPort_spec _ p hp
    rw [hb1.1, hmin] at g1
    rw [hb1.2, hmax] at g2
    refine ⟨g1, g2, g3, ?_⟩
    intro hrel q hq hqp
    subst hqp
    have hin := run_keeps calls2 _ q ((GetNewPort_frame _).2.2.2 q hp) hrel
    exact (GetNewPort_spec _ q hq).2.2.1 hin
  · intro gsbA gsbB sA sB gsA gsB hA hrel hB
    have eA : NewGameServerForGameServerBuild gsbA (PortRegistry.run {} calls1).oracle [] sA
        = (.ok gsA, (NewGameServerForGameServerBuild gsbA
            (PortRegistry.run {} calls1).oracle [] sA).2.1,
          (NewGameServerForGameServerBuild gsbA
            (PortRegistry.run {} calls1).oracle [] sA).2.2) := by
      rw [← hA]
    have eB : NewGameServerForGameServerBuild gsbB
        (PortRegistry.run (PortRegistry.run (PortRegistry.run {} calls1)
          (List.replicate (exposedHostPorts gsA).length RegistryCall.GetNewPort))
          calls2).oracle [] sB
        = (.ok gsB, (NewGameServerForGameServerBuild gsbB
            (PortRegistry.run (PortRegistry.run (PortRegistry.run {} calls1)
              (List.replicate (exposedHostPorts gsA).length RegistryCall.GetNewPort))
              calls2).oracle [] sB).2.1,
          (NewGameServerForGameServerBuild gsbB
            (PortRegistry.run (PortRegistry.run (PortRegistry.run {} calls1)
              (List.replicate (exposedHostPorts gsA).length RegistryCall.GetNewPort))
              calls2).oracle [] sB).2.2) := by
      rw [← hB]
    have pA : (NewGameServerForGameServerBuild gsbA
        (PortRegistry.run {} calls1).oracle [] sA).2.2 = exposedHostPorts gsA := by
      have := NewGameServerForGameServerBuild_hostPorts _ _ _ _ _ _ _ eA
      rw [this, hostPortsToRelease_eq_exposedHostPorts]
      simp
    have pB : (NewGameServerForGameServerBuild gsbB
        (PortRegistry.run (PortRegistry.run (PortRegistry.run {} calls1)
          (List.replicate (exposedHostPorts gsA).length RegistryCall.GetNewPort))
          calls2).oracle [] sB).2.2 = exposedHostPorts gsB := by
      have := NewGameServerForGameServerBuild_hostPorts _ _ _ _ _ _ _ eB
      rw [this, hostPortsToRelease_eq_exposedHostPorts]
      simp
    have sA1 := NewGameServerForGameServerBuild_served _ _ _ _ _ _ eA
    have sB1 := NewGameServerForGameServerBuild_served _ _ _ _ _ _ eB
    rw [pA] at sA1
    rw [pB] at sB1
    obtain ⟨a1, a2, a3⟩ := servedBy_registry _ _ sA1
    obtain ⟨b1, b2, _⟩ := servedBy_registry _ _ sB1
    have hbR := run_bounds (List.replicate (exposedHostPorts gsA).length
      RegistryCall.GetNewPort) (PortRegistry.run {} calls1)
    have hb2 := run_bounds calls2 (PortRegistry.run (PortRegistry.run {} calls1)
      (List.replicate (exposedHostPorts gsA).length RegistryCall.GetNewPort))
    refine ⟨pA.symm, pB.symm, ?_, ?_⟩
    · rw [List.nodup_append]
      refine ⟨a1, b1, ?_⟩
      intro p hpA hpB
      have hin := run_keeps calls2 _ p (a3 p hpA) (fun ports hm => hrel ports hm p hpA)
      exact (b2 p hpB).2.2 hin
    · intro p hp
      rcases List.mem_append.1 hp with h | h
      · obtain ⟨c1, c2, _⟩ := a2 p h
        rw [hb1.1, hmin] at c1
        rw [hb1.2, hmax] at c2
        exact ⟨c1, c2⟩
      · obtain ⟨c1, c2, _⟩ := b2 p h
        rw [hb2.1, hbR.1, hb1.1, hmin] at c1
        rw [hb2.2, hbR.2, hb1.2, hmax] at c2
        exact ⟨c1, c2⟩

/-- C15 (amended) at two instances of a fleet with two exposed ports, built one
after the other from an empty registry while another port is released in between:
the first holds 10000 and 10001, the second 10002 and 10003. When the two
constructions take their ports in turn, the first holds 10000 and 10002, the second
10001 and 10003. -/
theorem PortRegistry_port_uniqueness_witness :
    (NewGameServerForGameServerBuild twoPortFleet (PortRegistry.run {} []).oracle []
      "aaaaa").2.2 = [10000, 10001] ∧
    (NewGameServerForGameServerBuild twoPortFleet
      (PortRegistry.run (PortRegistry.run (PortRegistry.run {} [])
        (List.replicate 2 RegistryCall.GetNewPort))
        [RegistryCall.DeregisterServerPorts [12345]]).oracle [] "bbbbb").2.2
      = [10002, 10003] ∧
    (([10000, 10001] : List Int) ++ [10002, 10003]).Nodup ∧
    (NewGameServerForGameServerBuild twoPortFleet
      (PortRegistry.oracleAt {} interleavedCalls (fun n => 2 * n)) [] "aaaaa").2.2
      = [10000, 10002] ∧
    (NewGameServerForGameServerBuild twoPortFleet
      (PortRegistry.oracleAt {} interleavedCalls (fun n => 2 * n + 1)) [] "bbbbb").2.2
      = [10001, 10003] ∧
    (([10000, 10002] : List Int) ++ [10001, 10003]).Nodup :=
  have h := (PortRegistry_port_uniqueness [] [RegistryCall.DeregisterServerPorts [12345]]).2.2.1
    twoPortFleet twoPortFleet "aaaaa" "bbbbb" _ _ rfl
    (by
      intro ports hm
      have hp : ports = [12345] := by simpa using hm
      subst hp
      decide)
    rfl
  have hout : ∀ ports, RegistryCall.DeregisterServerPorts ports ∈ interleavedCalls →
      ∀ q ∈ ports, ¬ (({} : PortRegistry).Min ≤ q ∧ q < ({} : PortRegistry).Max) := by
    intro ports hm q hq
    have hp : ports = [60000] := by simpa [interleavedCalls] using hm
    subst hp
    have hq60 : q = 60000 := by simpa using hq
    subst hq60
    decide
  have h5 := (PortRegistry_port_uniqueness [] []).2.2.2.2 interleavedCalls
    (fun n => 2 * n) (fun n => 2 * n + 1) twoPortFleet twoPortFleet "aaaaa" "bbbbb" _ _
    (fun a b hab => by simp only at hab; omega) (fun a b hab => by simp only at hab; omega)
    (fun m n hmn => by simp only at hmn; omega) rfl rfl
    (fun n _ => unreleased_of_out_of_range _ _ _ hout)
    (fun n _ => unreleased_of_out_of_range _ _ _ hout)
  ⟨by decide, by decide, h.2.2.1, by decide, by decide, h5.1⟩

/-! ## C5: the health written at the status update -/

theorem countState_nonneg (items : List GameServer) (state : String) :
    0 ≤ countState items state := by
  unfold countState
  exact Int.ofNat_nonneg _

theorem wrapInt64_of_fits (x : Int) (h1 : -9223372036854775808 ≤ x)
    (h2 : x < 9223372036854775808) : wrapInt64 x = x := by
  unfold wrapInt64
  omega

theorem talliedStatus_intro (spec : GameServerBuildSpec) (status : GameServerBuildStatus)
    (i s a cr : Int) (ready : String) :
    TalliedStatus spec status i s a cr
      { CurrentInitializing := i, CurrentStandingBy := s, CurrentActive := a
        CrashesCount := wrapInt64 (status.CrashesCount + cr)
        CurrentStandingByReadyDesired := ready
        Health := if wrapInt64 (status.CrashesCount + cr) ≥ spec.CrashesToMarkUnhealthy
          then BuildUnhealthy else BuildHealthy } := by
  refine ⟨rfl, rfl, rfl, rfl, ?_, ?_⟩
  · dsimp only
    by_cases hge : wrapInt64 (status.CrashesCount + cr) ≥ spec.CrashesToMarkUnhealthy
    · simp [hge]
    · simp only [hge, if_false, iff_false]
      decide
  · dsimp only
    by_cases hge : wrapInt64 (status.CrashesCount + cr) ≥ spec.CrashesToMarkUnhealthy
    · simp [hge]
    · simp [hge]

theorem talliedStatus_congr (spec1 spec2 : GameServerBuildSpec)
    (status : GameServerBuildStatus) (i s a cr : Int) (st : GameServerBuildStatus)
    (h : spec1.CrashesToMarkUnhealthy = spec2.CrashesToMarkUnhealthy)
    (ht : TalliedStatus spec1 status i s a cr st) : TalliedStatus spec2 status i s a cr st := by
  unfold TalliedStatus at ht ⊢
  rw [← h]
  exact ht

theorem updateStatus_written (env : Env) (gsb : GameServerBuild) (i s a cr : Int)
    (w : World) :
    ((updateStatus env gsb i s a cr w).2.statusWritten = w.statusWritten ∨
      ∃ st, (updateStatus env gsb i s a cr w).2.statusWritten = some st ∧
        TalliedStatus gsb.Spec gsb.Status i s a cr st) ∧
    ((updateStatus env gsb i s a cr w).1 = .returned {} none →
      ((gsb.Status.CurrentInitializing ≠ i ∨ gsb.Status.CurrentActive ≠ a ∨
          gsb.Status.CurrentStandingBy ≠ s ∨ cr > 0) →
        ∃ st, (updateStatus env gsb i s a cr w).2.statusWritten = some st ∧
          TalliedStatus gsb.Spec gsb.Status i s a cr st) ∧
      (¬ (gsb.Status.CurrentInitializing ≠ i ∨ gsb.Status.CurrentActive ≠ a ∨
          gsb.Status.CurrentStandingBy ≠ s ∨ cr > 0) →
        (updateStatus env gsb i s a cr w).2.statusWritten = w.statusWritten)) ∧
    ((∀ g, env.statusUpdate g = none) →
      (updateStatus env gsb i s a cr w).1 = .returned {} none) := by
  unfold updateStatus
  split
  · rename_i hchg
    dsimp only
    split
    · rename_i err hu
      split
      · refine ⟨Or.inl rfl, fun h => ?_, fun hok => ?_⟩
        · simp at h
        · rw [hok] at hu
          cases hu
      · refine ⟨Or.inl rfl, fun h => ?_, fun hok => ?_⟩
        · simp at h
        · rw [hok] at hu
          cases hu
    · refine ⟨Or.inr ⟨_, rfl, talliedStatus_intro _ _ _ _ _ _ _⟩,
        fun _ => ⟨fun _ => ⟨_, rfl, talliedStatus_intro _ _ _ _ _ _ _⟩,
          fun hn => absurd hchg hn⟩, fun _ => rfl⟩
  · rename_i hno
    exact ⟨Or.inl rfl, fun _ => ⟨fun hc => absurd hc hno, fun _ => rfl⟩, fun _ => rfl⟩

theorem NewGameServerForGameServerBuild_status (gsb : GameServerBuild)
    (getNewPort : PortOracle) (allocated : List Int) (suffix : String) :
    (NewGameServerForGameServerBuild gsb getNewPort allocated suffix).2.1.Status
      = gsb.Status ∧
    (NewGameServerForGameServerBuild gsb getNewPort allocated suffix).2.1.Spec.CrashesToMarkUnhealthy
      = gsb.Spec.CrashesToMarkUnhealthy := by
  unfold NewGameServerForGameServerBuild
  dsimp only
  split <;> simp

theorem createLoop_status (env : Env) (c : Counts) :
    ∀ (remaining i : Nat) (gsb : GameServerBuild) (w : World),
      (createLoop env c remaining i gsb w).2.1.Status = gsb.Status ∧
      (createLoop env c remaining i gsb w).2.1.Spec.CrashesToMarkUnhealthy
        = gsb.Spec.CrashesToMarkUnhealthy ∧
      (createLoop env c remaining i gsb w).2.2.statusWritten = w.statusWritten ∧
      ∀ o, (createLoop env c remaining i gsb w).1 = some o →
        ∃ err, o = .returned {} (some err) := by
  intro remaining
  induction remaining with
  | zero =>
    intro i gsb w
    exact ⟨rfl, rfl, rfl, fun o h => by simp [createLoop] at h⟩
  | succ r ih =>
    intro i gsb w
    unfold createLoop
    split
    · have hg := NewGameServerForGameServerBuild_status gsb env.getNewPort w.allocated
        (env.randString i)
      split
      · rename_i err gsb1 allocated1 heq
        rw [heq] at hg
        refine ⟨hg.1, hg.2, rfl, fun o h => ⟨err, ?_⟩⟩
        dsimp only at h
        cases h
        rfl
      · rename_i newgs gsb1 allocated1 heq
        rw [heq] at hg
        simp only at hg
        split
        · rename_i err hcr
          refine ⟨hg.1, hg.2, rfl, fun o h => ⟨err, ?_⟩⟩
          dsimp only at h
          cases h
          rfl
        · obtain ⟨h1, h2, h3, h4⟩ := ih (i + 1) gsb1
            { w with
              allocated := allocated1
              created := w.created ++ [newgs]
              gameServersUnderCreation :=
                addGameServerToUnderCreationMap w.gameServersUnderCreation gsb.Name newgs.Name
              events := w.events ++ ["Creating"] }
          exact ⟨h1.trans hg.1, h2.trans hg.2, h3, h4⟩
    · exact ⟨rfl, rfl, rfl, fun o h => by simp at h⟩

theorem tallyLoop_exit (env : Env) (gsbName : String) :
    ∀ (items : List GameServer) (c : Counts) (w : World) (o : Outcome),
      (tallyLoop env gsbName items c w).1 = some o → ∃ err, o = .returned {} (some err) := by
  intro items
  induction items with
  | nil => intro c w o h; simp [tallyLoop] at h
  | cons gs rest ih =>
    intro c w o
    unfold tallyLoop
    split
    · exact ih _ _ o
    · split
      · exact ih _ _ o
      · split
        · exact ih _ _ o
        · split
          · split
            · rename_i err w1 heq
              intro h
              dsimp only at h
              cases h
              exact ⟨err, rfl⟩
            · exact ih _ _ o
          · split
            · split
              · rename_i err w1 heq
                intro h
                dsimp only at h
                cases h
                exact ⟨err, rfl⟩
              · exact ih _ _ o
            · exact ih _ _ o

theorem deleteLoop_exit (env : Env) (gsbName : String) (event : Option String)
    (items : List GameServer) :
    ∀ (remaining i : Nat) (d : Int) (w : World) (o : Outcome),
      (deleteLoop env gsbName event items remaining i d w).1 = some o →
      o = .panicked ∨ ∃ err, o = .returned {} (some err) := by
  intro remaining
  induction remaining with
  | zero => intro i d w o h; simp [deleteLoop] at h
  | succ r ih =>
    intro i d w o
    unfold deleteLoop
    split
    · intro h
      dsimp only at h
      cases h
      exact Or.inl rfl
    · split
      · split
        · rename_i err w1 heq
          intro h
          dsimp only at h
          cases h
          exact Or.inr ⟨err, rfl⟩
        · exact ih _ _ _ o
      · exact ih _ _ _ o

theorem standingByReduction_exit (env : Env) (gsb : GameServerBuild)
    (items : List GameServer) (c : Counts) (w : World) (o : Outcome)
    (h : (standingByReduction env gsb items c w).1 = some o) :
    o = .panicked ∨ ∃ err, o = .returned {} (some err) := by
  unfold standingByReduction at h
  split at h
  · have hx := deleteLoop_exit env gsb.Name (some "GameServer deleted") items
      (c.standingByCount - gsb.Spec.StandingBy).toNat 0 0 w
    split at h
    · rename_i o1 d w1 heq
      rw [heq] at hx
      dsimp only at h
      cases h
      exact hx o rfl
    · split at h <;> simp at h
  · simp at h

theorem maxCap_exit (env : Env) (gsb : GameServerBuild)
    (items : List GameServer) (c : Counts) (w : World) (o : Outcome)
    (h : (maxCap env gsb items c w).1 = some o) :
    o = .panicked ∨ o = .returned { RequeueAfter := 5 * Second } none ∨
      ∃ err, o = .returned {} (some err) := by
  unfold maxCap at h
  split at h
  · have hx := deleteLoop_exit env gsb.Name none items
      (c.standingByCount + c.activeCount - gsb.Spec.Max + 1).toNat 0 0 w
    split at h
    · rename_i o1 d w1 heq
      rw [heq] at hx
      dsimp only at h
      cases h
      rcases hx o rfl with hp | he
      · exact Or.inl hp
      · exact Or.inr (Or.inr he)
    · split at h
      · dsimp only at h
        cases h
        exact Or.inr (Or.inl rfl)
      · simp at h
  · simp at h

/-- A pass that has listed the instances either ends in `updateStatus`, called on
the fleet as fetched (status and threshold) and on the numbers of listed instances
in each state, or ends earlier, without a status write, by a panic, by the 5 second
retry of the max-cap step, or by the error of a call. -/
theorem reconcileListed_cases (env : Env) (gsb : GameServerBuild)
    (items : List GameServer) (w : World) :
    (∃ gsb1 w1, gsb1.Status = gsb.Status ∧
        gsb1.Spec.CrashesToMarkUnhealthy = gsb.Spec.CrashesToMarkUnhealthy ∧
        w1.statusWritten = w.statusWritten ∧
        reconcileListed env gsb items w = updateStatus env gsb1 (countState items "")
          (countState items GameServerStateStandingBy) (countState items GameServerStateActive)
          (countState items GameServerStateCrashed) w1) ∨
    ((reconcileListed env gsb items w).2.statusWritten = w.statusWritten ∧
      ((reconcileListed env gsb items w).1 = .panicked ∨
        (reconcileListed env gsb items w).1 = .returned { RequeueAfter := 5 * Second } none ∨
        ∃ err, (reconcileListed env gsb items w).1 = .returned {} (some err))) := by
  unfold reconcileListed
  have hf := tallyLoop_frame env gsb.Name items {} w
  have hx := tallyLoop_exit env gsb.Name items {} w
  have hcnt := tallyLoop_counts_of_finished env gsb.Name items {} w
  rcases hT : tallyLoop env gsb.Name items {} w with ⟨o, c, w1⟩
  rw [hT] at hf hx hcnt
  obtain ⟨_, _, _, hsw, _⟩ := hf
  dsimp only at hsw hx hcnt ⊢
  cases o with
  | some o =>
    dsimp only
    obtain ⟨err, rfl⟩ := hx o rfl
    exact Or.inr ⟨hsw, Or.inr (Or.inr ⟨err, rfl⟩)⟩
  | none =>
    dsimp only
    obtain ⟨hi, hs, ha, hc4⟩ := hcnt rfl
    simp only [zero_add] at hi hs ha hc4
    split
    · refine Or.inl ⟨gsb, w1, rfl, rfl, hsw, ?_⟩
      rw [hi, hs, ha, hc4]
    · unfold scale
      have h6f := standingByReduction_frame env gsb items c w1
      have h6x := standingByReduction_exit env gsb items c w1
      rcases h6 : standingByReduction env gsb items c w1 with ⟨o6, w2⟩
      rw [h6] at h6f h6x
      obtain ⟨_, _, _, hsw2, _⟩ := h6f
      dsimp only at hsw2 h6x ⊢
      cases o6 with
      | some o6 =>
        dsimp only
        refine Or.inr ⟨hsw2.trans hsw, ?_⟩
        rcases h6x o6 rfl with hp | ⟨err, he⟩
        · exact Or.inl hp
        · exact Or.inr (Or.inr ⟨err, he⟩)
      | none =>
        dsimp only
        have h7f := maxCap_frame env gsb items c w2
        have h7x := maxCap_exit env gsb items c w2
        rcases h7 : maxCap env gsb items c w2 with ⟨o7, w3⟩
        rw [h7] at h7f h7x
        obtain ⟨_, _, _, hsw3, _⟩ := h7f
        dsimp only at hsw3 h7x ⊢
        cases o7 with
        | some o7 =>
          dsimp only
          refine Or.inr ⟨hsw3.trans (hsw2.trans hsw), ?_⟩
          rcases h7x o7 rfl with hp | hr | ⟨err, he⟩
          · exact Or.inl hp
          · exact Or.inr (Or.inl hr)
          · exact Or.inr (Or.inr ⟨err, he⟩)
        | none =>
          dsimp only
          obtain ⟨k1, k2, k3, k4⟩ := createLoop_status env c
            (gsb.Spec.StandingBy - c.standingByCount).toNat 0 gsb w3
          rcases h8 : createLoop env c (gsb.Spec.StandingBy - c.standingByCount).toNat 0 gsb w3
            with ⟨o8, gsb1, w4⟩
          rw [h8] at k1 k2 k3 k4
          dsimp only at k1 k2 k3 k4 ⊢
          cases o8 with
          | some o8 =>
            dsimp only
            obtain ⟨err, rfl⟩ := k4 o8 rfl
            exact Or.inr ⟨k3.trans (hsw3.trans (hsw2.trans hsw)), Or.inr (Or.inr ⟨err, rfl⟩)⟩
          | none =>
            dsimp only
            refine Or.inl ⟨gsb1, w4, k1, k2, k3.trans (hsw3.trans (hsw2.trans hsw)), ?_⟩
            rw [hi, hs, ha, hc4]

/-- When every delete, port allocation, create and status write succeeds, a pass
that has listed the instances panics, returns the 5 second retry of the max-cap
step, or returns without error. -/
theorem reconcileListed_returns (env : Env) (gsb : GameServerBuild)
    (items : List GameServer) (w : World)
    (hdel : ∀ n gs, env.delete n gs = none)
    (hport : ∀ n, ∃ p, env.getNewPort n = .ok p) (hcr : ∀ n gs, env.create n gs = none)
    (hst : ∀ g, env.statusUpdate g = none) :
    (reconcileListed env gsb items w).1 = .panicked ∨
    (reconcileListed env gsb items w).1 = .returned { RequeueAfter := 5 * Second } none ∨
    (reconcileListed env gsb items w).1 = .returned {} none := by
  rcases reconcileListed_cases env gsb items w with ⟨gsb1, w1, _, _, _, he⟩ | ⟨_, hp | hr | ⟨err, he⟩⟩
  · rw [he]
    exact Or.inr (Or.inr ((updateStatus_written env gsb1 _ _ _ _ w1).2.2 hst))
  · exact Or.inl hp
  · exact Or.inr (Or.inl hr)
  · exfalso
    unfold reconcileListed at he
    have h0 := (tallyLoop_counts env gsb.Name hdel items {} w).1
    rcases hT : tallyLoop env gsb.Name items {} w with ⟨o, c, w1⟩
    rw [hT] at he h0
    dsimp only at he h0
    subst h0
    dsimp only at he
    split at he
    · rw [(updateStatus_written env gsb _ _ _ _ w1).2.2 hst] at he
      simp at he
    · unfold scale at he
      have h6o := standingByReduction_outcome env gsb items c w1 hdel
      rcases h6 : standingByReduction env gsb items c w1 with ⟨o6, w2⟩
      rw [h6] at he h6o
      dsimp only at he h6o
      rcases h6o with rfl | rfl
      swap
      · simp at he
      dsimp only at he
      have h7o := maxCap_outcome env gsb items c w2 hdel
      rcases h7 : maxCap env gsb items c w2 with ⟨o7, w3⟩
      rw [h7] at he h7o
      dsimp only at he h7o
      rcases h7o with rfl | rfl | rfl
      swap
      · simp at he
      swap
      · simp at he
      dsimp only at he
      have h8o := (createLoop_count env c hport hcr
        (gsb.Spec.StandingBy - c.standingByCount).toNat 0 gsb w3).1
      rcases h8 : createLoop env c (gsb.Spec.StandingBy - c.standingByCount).toNat 0 gsb w3
        with ⟨o8, gsb1, w4⟩
      rw [h8] at he h8o
      dsimp only at he h8o
      subst h8o
      dsimp only at he
      rw [(updateStatus_written env gsb1 _ _ _ _ w4).2.2 hst] at he
      simp at he

/-- C5, amended. Take a fleet pass that lists the instances (fleet fetched and
not Unhealthy, both ledgers settled, list call answered). Whatever the API answers,
the pass writes no status or writes the tallied one: the counts are the numbers of
listed instances without state, StandingBy and Active, the crash count is the
previous one plus the number of listed Crashed instances (a Go `int` sum), and the
health is Unhealthy exactly when that crash count is at least
`Spec.CrashesToMarkUnhealthy`, Healthy otherwise. A pass that returns without
error or retry has run to the status update: when a tallied count differs from the
stored one or a crash was observed it has written that status, and otherwise it has
written nothing, so that the stored status, health included, stays as it was. When
every call succeeds the pass panics, returns the 5 second retry of the max-cap
step, or returns without error. The crash count is the mathematical sum unless
that sum leaves the range of a 64-bit integer. -/
theorem Reconcile_health_invariant (env : Env) (req : Request) (w : World)
    (spec : GameServerBuildSpec) (status : GameServerBuildStatus) (items : List GameServer)
    (hb : env.getBuild = .ok (spec, status))
    (hh : status.Health ≠ BuildUnhealthy)
    (hd : (gameServersUnderDeletionWereDeleted env.getGameServer
      w.gameServersUnderDeletion req.Name).1 = (true, none))
    (hc : (gameServersUnderCreationWereCreated env.getGameServer
      w.gameServersUnderCreation req.Name).1 = (true, none))
    (hl : env.list = .ok items) :
    ((Reconcile env req w).2.statusWritten = w.statusWritten ∨
      ∃ st, (Reconcile env req w).2.statusWritten = some st ∧
        TalliedStatus spec status (countState items "")
          (countState items GameServerStateStandingBy) (countState items GameServerStateActive)
          (countState items GameServerStateCrashed) st) ∧
    ((Reconcile env req w).1 = .returned { Requeue := false, RequeueAfter := 0 } none →
      ((status.CurrentInitializing ≠ countState items "" ∨
          status.CurrentActive ≠ countState items GameServerStateActive ∨
          status.CurrentStandingBy ≠ countState items GameServerStateStandingBy ∨
          countState items GameServerStateCrashed > 0) →
        ∃ st, (Reconcile env req w).2.statusWritten = some st ∧
          TalliedStatus spec status (countState items "")
            (countState items GameServerStateStandingBy)
            (countState items GameServerStateActive)
            (countState items GameServerStateCrashed) st) ∧
      (¬ (status.CurrentInitializing ≠ countState items "" ∨
          status.CurrentActive ≠ countState items GameServerStateActive ∨
          status.CurrentStandingBy ≠ countState items GameServerStateStandingBy ∨
          countState items GameServerStateCrashed > 0) →
        (Reconcile env req w).2.statusWritten = w.statusWritten ∧
        statusAfter status (Reconcile env req w).2 = statusAfter status w)) ∧
    ((∀ n gs, env.delete n gs = none) → (∀ n, ∃ p, env.getNewPort n = .ok p) →
      (∀ n gs, env.create n gs = none) → (∀ g, env.statusUpdate g = none) →
      (Reconcile env req w).1 = .panicked ∨
      (Reconcile env req w).1 = .returned { Requeue := false, RequeueAfter := 5 * Second } none ∨
      (Reconcile env req w).1 = .returned { Requeue := false, RequeueAfter := 0 } none) ∧
    (-9223372036854775808 ≤ status.CrashesCount →
      status.CrashesCount + countState items GameServerStateCrashed < 9223372036854775808 →
      wrapInt64 (status.CrashesCount + countState items GameServerStateCrashed)
        = status.CrashesCount + countState items GameServerStateCrashed) := by
  rw [Reconcile_eq_reconcileListed env req w spec status items hb hh hd hc hl]
  refine ⟨?_, ?_, ?_, fun h1 h2 => wrapInt64_of_fits _ (by
    have := countState_nonneg items GameServerStateCrashed
    omega) h2⟩
  · rcases reconcileListed_cases env
      { Name := req.Name, Namespace := req.Namespace, Spec := spec, Status := status } items
      { w with
        gameServersUnderDeletion := (gameServersUnderDeletionWereDeleted env.getGameServer
          w.gameServersUnderDeletion req.Name).2
        gameServersUnderCreation := (gameServersUnderCreationWereCreated env.getGameServer
          w.gameServersUnderCreation req.Name).2 }
      with ⟨gsb1, w1, e1, e2, e3, he⟩ | ⟨hsame, _⟩
    · rw [he]
      rcases (updateStatus_written env gsb1 _ _ _ _ w1).1 with hs | ⟨st, hs, ht⟩
      · exact Or.inl (hs.trans e3)
      · rw [e1] at ht
        exact Or.inr ⟨st, hs, talliedStatus_congr gsb1.Spec spec _ _ _ _ _ _ e2 ht⟩
    · exact Or.inl hsame
  · intro hret
    rcases reconcileListed_cases env
      { Name := req.Name, Namespace := req.Namespace, Spec := spec, Status := status } items
      { w with
        gameServersUnderDeletion := (gameServersUnderDeletionWereDeleted env.getGameServer
          w.gameServersUnderDeletion req.Name).2
        gameServersUnderCreation := (gameServersUnderCreationWereCreated env.getGameServer
          w.gameServersUnderCreation req.Name).2 }
      with ⟨gsb1, w1, e1, e2, e3, he⟩ | ⟨_, hp | hr | ⟨err, hx⟩⟩
    · rw [he] at hret ⊢
      obtain ⟨k1, k2⟩ := (updateStatus_written env gsb1 _ _ _ _ w1).2.1 hret
      rw [e1] at k1 k2
      refine ⟨fun hchg => ?_, fun hno => ?_⟩
      · obtain ⟨st, hs, ht⟩ := k1 hchg
        exact ⟨st, hs, talliedStatus_congr gsb1.Spec spec _ _ _ _ _ _ e2 ht⟩
      · have := (k2 hno).trans e3
        exact ⟨this, by unfold statusAfter; rw [this]⟩
    · rw [hp] at hret
      cases hret
    · rw [hr] at hret
      simp [Second] at hret
    · rw [hx] at hret
      simp at hret
  · intro hdel hport hcr hst
    exact reconcileListed_returns env _ items _ hdel hport hcr hst

/-- C5 (amended) at threshold 3 with 2 crashes recorded and one Crashed instance
listed: the pass runs to the status update and writes the crash count 3 with
health Unhealthy. -/
theorem Reconcile_health_invariant_witness :
    (Reconcile thirdCrashApi fleetReq freshWorld).1
      = .returned { Requeue := false, RequeueAfter := 0 } none ∧
    (∃ st, (Reconcile thirdCrashApi fleetReq freshWorld).2.statusWritten = some st ∧
      TalliedStatus thirdCrashFleet.Spec thirdCrashFleet.Status
        (countState [instanceOf "fleet-aaaaa" GameServerStateCrashed,
          instanceOf "fleet-bbbbb" GameServerStateStandingBy] "")
        (countState [instanceOf "fleet-aaaaa" GameServerStateCrashed,
          instanceOf "fleet-bbbbb" GameServerStateStandingBy] GameServerStateStandingBy)
        (countState [instanceOf "fleet-aaaaa" GameServerStateCrashed,
          instanceOf "fleet-bbbbb" GameServerStateStandingBy] GameServerStateActive)
        (countState [instanceOf "fleet-aaaaa" GameServerStateCrashed,
          instanceOf "fleet-bbbbb" GameServerStateStandingBy] GameServerStateCrashed) st) ∧
    (Reconcile thirdCrashApi fleetReq freshWorld).2.statusWritten
      = some { CurrentInitializing := 0, CurrentStandingBy := 1, CurrentActive := 0,
               CrashesCount := 3, CurrentStandingByReadyDesired := "1/1",
               Health := BuildUnhealthy } :=
  ⟨by decide,
    ((Reconcile_health_invariant thirdCrashApi fleetReq freshWorld thirdCrashFleet.Spec
      thirdCrashFleet.Status
      [instanceOf "fleet-aaaaa" GameServerStateCrashed,
        instanceOf "fleet-bbbbb" GameServerStateStandingBy]
      rfl (by decide) (by decide) (by decide) rfl).2.1 (by decide)).1
      (Or.inr (Or.inr (Or.inr (by decide)))),
    by decide⟩

/-- The crash count is a Go `int`. At a fleet whose stored count is one below the
largest `int`, which is also its threshold, the pass that observes two more crashes
stores the smallest `int` and with it the health Healthy, although the sum of the
crashes, as a number, has passed the threshold. -/
theorem Reconcile_crash_count_wraps :
    (Reconcile saturatedApi fleetReq freshWorld).2.statusWritten
      = some { CurrentInitializing := 0, CurrentStandingBy := 1, CurrentActive := 0,
               CrashesCount := -9223372036854775808, CurrentStandingByReadyDesired := "1/1",
               Health := BuildHealthy } ∧
    saturatedStatus.CrashesCount + countState saturatedItems GameServerStateCrashed
      ≥ 9223372036854775807 := by
  decide

end Thundernetes
